import Mathlib

/-!
# ecoboom: the quote fetcher, the market clock, the endpoints and the sparkline

A shallow embedding of `src/backend/server.js`: the module-level cache
`liveDataCache`, the constant `CACHE_TTL` and the function `fetchYahooData` with
its three exits (fresh cache hit, live fetch, fallback in the `catch` block),
lines 29-90; the function `getMarketStatus`, lines 92-101; the handlers of
`GET /api/exchanges` and `GET /api/exchange/:id`, lines 106-134; the handler of
`GET /api/crypto`, lines 167-205; the handler of `GET /api/market-moves`, lines
222-248; the three AI handlers, lines 253-306 and 384-455. The component
`Sparkline` is embedded from `src/frontend/src/components/RightPanel.jsx`, lines
20-29.

Conventions of the embedding.

* JavaScript numbers are rationals (`ℚ`), `NaN` is the `none` of an `Option ℚ` where it
  can arise, and infinities are left out. On the live path (lines 53-62) every arithmetic
  result is rounded to the nearest binary64 value by `fl`, as IEEE 754 arithmetic does, and
  `parseFloat` gives the double nearest to the numeral. The simulated payload, the market
  movers and the sparkline are computed on exact rationals.
* `Date.now()`, the settlement of `axios.get` and the values returned by
  `Math.random()` are inputs of the call, gathered in `World`.
* The call is atomic: no other call runs between its `await` and its resumption.
* Keys of `liveDataCache` and of `CRYPTO_MAP` are own properties: a symbol is not the
  name of a member of `Object.prototype`.
* What `Intl.DateTimeFormat` reports for the present instant is an input. `getMarketStatus`
  is the function on a timezone that `Intl` accepts; for a timezone it rejects the
  constructor of line 94 throws a `RangeError`, which `getMarketStatusOrThrow` adds where
  the handlers call the function.
* The array `exchanges` of the module `./exchanges` is a parameter of the handlers.
* The client `groq` is a function from requests to completions or rejections, and the
  conversions between values and text (`JSON.stringify`, `JSON.parse`, template
  literals) are parameters, gathered in `JSText`.
-/

namespace Ecoboom

/-! ## JavaScript values -/

/-- A JavaScript value as `JSON.parse` can produce it, together with `undefined`. -/
inductive JSVal where
  | undefined : JSVal
  | null : JSVal
  | bool (b : Bool) : JSVal
  | num (q : ℚ) : JSVal
  | str (s : String) : JSVal
  | arr (xs : List JSVal) : JSVal
  | obj (kv : List (String × JSVal)) : JSVal

/-- The value thrown inside the `try` block of `fetchYahooData` or of an exchange handler. -/
inductive JSErr where
  /-- The promise of `axios.get` rejected: network error, timeout, error status. -/
  | axiosError : JSErr
  /-- A property read on `undefined`/`null`, or a call of something that is no function. -/
  | typeError : JSErr
  /-- The `throw new Error('No data')` of line 47. -/
  | noData : JSErr
  /-- The `RangeError` of `new Intl.DateTimeFormat` on a timezone the runtime rejects. -/
  | rangeError : JSErr
  deriving DecidableEq, Repr

/-- The number a string, an array or an object converts to: `none` for `NaN`, an error
when the conversion throws. -/
abbrev Coercion := JSVal → Except JSErr (Option ℚ)

namespace JSVal

/-- The test `v == null`: true of `null` and `undefined` only. -/
def isNullish : JSVal → Bool
  | undefined => true
  | null => true
  | _ => false

/-- ECMAScript `ToBoolean`. -/
def truthy : JSVal → Bool
  | undefined => false
  | null => false
  | bool b => b
  | num q => decide (q ≠ 0)
  | str s => decide (s ≠ "")
  | arr _ => true
  | obj _ => true

/-- Own property `k` of an object; `undefined` when there is none. -/
def lookup (k : String) : List (String × JSVal) → JSVal
  | [] => undefined
  | (k', v) :: rest => if k' = k then v else lookup k rest

/-- The read `v.k` for one of the property names this program uses (`chart`, `result`,
`meta`, ...): a `TypeError` on `undefined`/`null`, the own property on an object, and
`undefined` on a primitive or an array, whose prototypes have no such member. -/
def getProp (v : JSVal) (k : String) : Except JSErr JSVal :=
  match v with
  | undefined => .error .typeError
  | null => .error .typeError
  | obj kv => .ok (lookup k kv)
  | _ => .ok undefined

/-- The optional read `v?.k`: `undefined` on `undefined`/`null`, else as `getProp`. -/
def optProp (v : JSVal) (k : String) : JSVal :=
  match v with
  | obj kv => lookup k kv
  | _ => undefined

/-- The optional index `v?.[0]`. -/
def optIndex0 : JSVal → JSVal
  | arr (x :: _) => x
  | str s => if s = "" then undefined else str (s.take 1)
  | obj kv => lookup "0" kv
  | _ => undefined

/-- The operator `a ?? b`. -/
def coalesce (a b : JSVal) : JSVal :=
  if a.isNullish then b else a

/-- ECMAScript `ToNumber`, `none` standing for `NaN`. The conversion of strings, arrays
and objects (`StringToNumber`, `ToPrimitive`) is the parameter `coerce`; it can throw, as
`ToPrimitive` does on an object whose own `toString` and `valueOf` are no functions. -/
def toNumber (coerce : Coercion) : Coercion
  | undefined => .ok none
  | null => .ok (some 0)
  | bool b => .ok (some (if b then 1 else 0))
  | num q => .ok (some q)
  | v => coerce v

end JSVal

open JSVal

/-! ## Numerals with two decimals -/

/-- The string `x.toFixed(2)` produces: a sign and the digits, held as a count of
hundredths. `"-0.00"` is `⟨true, 0⟩`. -/
structure Fixed2 where
  neg : Bool
  hundredths : ℕ
  deriving DecidableEq, Repr

/-- `Number.prototype.toFixed` with `fractionDigits = 2`, as at every call site: a
negative `x` is negated and signed, and `n` is the integer with `n / 100` closest to
`x`, the larger one on a tie. -/
def toFixed (x : ℚ) : Fixed2 :=
  if x < 0 then ⟨true, ⌊(-x) * 100 + 1 / 2⌋.toNat⟩ else ⟨false, ⌊x * 100 + 1 / 2⌋.toNat⟩

/-- The number that a string made by `toFixed` denotes; `parseFloat` returns the double
nearest to it. -/
def parseFloat (s : Fixed2) : ℚ :=
  if s.neg then -((s.hundredths : ℚ) / 100) else (s.hundredths : ℚ) / 100

/-- The characters of a `toFixed(2)` result. -/
def Fixed2.toString (s : Fixed2) : String :=
  (if s.neg then "-" else "") ++ Nat.repr (s.hundredths / 100) ++ "."
    ++ Nat.repr (s.hundredths % 100 / 10) ++ Nat.repr (s.hundredths % 10)

/-! ## Binary64 arithmetic -/

/-- The exponent `e` of the binade of `x`, `2 ^ e ≤ |x| < 2 ^ (e + 1)`, and `-1022`, the
exponent of the least normal doubles, for every smaller `x`. -/
def binadeExp (x : ℚ) : ℤ := max (Int.log 2 |x|) (-1022)

/-- The distance between neighbouring doubles around `x`: 52 binary places below the leading
one. -/
def ulp (x : ℚ) : ℚ := (2 : ℚ) ^ (binadeExp x - 52)

/-- The integer nearest to `x`, the even one of the two when `x` lies halfway. -/
def roundHalfEven (x : ℚ) : ℤ :=
  if x - ⌊x⌋ < 1 / 2 then ⌊x⌋
  else if 1 / 2 < x - ⌊x⌋ then ⌊x⌋ + 1
  else if ⌊x⌋ % 2 = 0 then ⌊x⌋ else ⌊x⌋ + 1

/-- The double nearest to the real number `x`, ties to even: the value an arithmetic
operator of JavaScript returns when its exact result is `x`, and the value of a decimal
numeral that denotes `x`. Exact results of magnitude `2 ^ 1024 - 2 ^ 970` and more, which an
operation turns into an infinity, are left out (`roundsFinite`). -/
def fl (x : ℚ) : ℚ := (roundHalfEven (x / ulp x) : ℚ) * ulp x

/-- The rational `x` is a value of the Number type. -/
def isDouble (x : ℚ) : Prop := fl x = x

/-- The exact result `x` of an operation rounds to a finite double: from `2 ^ 1024 - 2 ^ 970`
on the operation returns an infinity, which `fl` does not. -/
def roundsFinite (x : ℚ) : Prop := |x| < 2 ^ 1024 - 2 ^ 970

/-- The exact result `x` of an operation is zero or at least as large as the least normal
double, `2 ^ (-1022)`: it is rounded with all 53 significant bits. -/
def noUnderflow (x : ℚ) : Prop := x = 0 ∨ (2 : ℚ) ^ (-1022 : ℤ) ≤ |x|

/-! ## Payloads and the cache -/

/-- The five strings `initial_sentiment` takes. -/
inductive Sentiment where
  | positive : Sentiment
  | mild_positive : Sentiment
  | neutral : Sentiment
  | mild_negative : Sentiment
  | negative : Sentiment
  deriving DecidableEq, Repr

/-- The string of a sentiment bucket. -/
def Sentiment.toString : Sentiment → String
  | positive => "positive"
  | mild_positive => "mild_positive"
  | neutral => "neutral"
  | mild_negative => "mild_negative"
  | negative => "negative"

/-- The object literal of lines 64-71 and of lines 81-88. -/
structure Payload where
  index_value : Fixed2
  percentage_change : ℚ
  initial_sentiment : Sentiment
  initial_heat : ℤ
  sparkline : List JSVal
  previous_close : JSVal

/-- A payload as the JavaScript object it is: its properties in the order of the literal. -/
def Payload.toObject (p : Payload) : List (String × JSVal) :=
  [("index_value", .str p.index_value.toString),
   ("percentage_change", .num p.percentage_change),
   ("initial_sentiment", .str p.initial_sentiment.toString),
   ("initial_heat", .num p.initial_heat),
   ("sparkline", .arr p.sparkline),
   ("previous_close", p.previous_close)]

/-- A value of `liveDataCache`: the literal `{ data: payload, ts: now }` of line 73. -/
structure CacheEntry where
  data : Payload
  ts : ℤ

/-- The object `liveDataCache`: `none` where `liveDataCache[symbol]` is `undefined`. -/
abbrev Cache := String → Option CacheEntry

/-- The assignment `liveDataCache[symbol] = entry`. -/
def Cache.set (c : Cache) (symbol : String) (entry : CacheEntry) : Cache :=
  fun k => if k = symbol then some entry else c k

/-- The constant `CACHE_TTL`, in milliseconds. -/
def CACHE_TTL : ℤ := 120000

/-- What one call of `fetchYahooData` takes from outside the program. -/
structure World where
  /-- The value of `Date.now()` on line 34. -/
  now : ℤ
  /-- The settlement of `axios.get`: `none` when it rejects, else the `data` of the response. -/
  upstream : Option JSVal
  /-- The value of the `Math.random()` call of lines 59-62 (at most one of them runs). -/
  heatRandom : ℚ
  /-- The value of the `Math.random()` call of line 79. -/
  baseRandom : ℚ
  /-- The value of the `Math.random()` call of line 80. -/
  changeRandom : ℚ

/-! ## The live path: lines 40-71 -/

/-- The locals `closes`, `prevClose` and `currentPrice` after line 52. -/
structure RawQuote where
  closes : List JSVal
  prevClose : JSVal
  currentPrice : JSVal

/-- Line 50: `result.indicators?.quote?.[0]?.close?.filter(v => v != null) ?? []`. A `close`
that is neither nullish nor an array has no `filter` to call. -/
def extractCloses (result : JSVal) : Except JSErr (List JSVal) := do
  let indicators ← getProp result "indicators"
  match optProp (optIndex0 (optProp indicators "quote")) "close" with
  | .undefined => pure []
  | .null => pure []
  | .arr xs => pure (xs.filter (fun v => !v.isNullish))
  | _ => throw .typeError

/-- The element `closes[closes.length - 1]`: `undefined` on the empty array. -/
def lastClose (closes : List JSVal) : JSVal :=
  closes.getLast?.getD .undefined

/-- Line 51: `meta.chartPreviousClose ?? meta.previousClose ?? 0`. -/
def resolvePrevClose (meta : JSVal) : Except JSErr JSVal := do
  let chartPreviousClose ← getProp meta "chartPreviousClose"
  let previousClose ← getProp meta "previousClose"
  pure (coalesce chartPreviousClose (coalesce previousClose (.num 0)))

/-- Line 52: `meta.regularMarketPrice ?? closes[closes.length - 1] ?? prevClose`. -/
def resolveCurrentPrice (meta : JSVal) (closes : List JSVal) (prevClose : JSVal) :
    Except JSErr JSVal := do
  let regularMarketPrice ← getProp meta "regularMarketPrice"
  pure (coalesce regularMarketPrice (coalesce (lastClose closes) prevClose))

/-- Lines 46-52, from the response body `data` to the three locals. -/
def extractQuote (data : JSVal) : Except JSErr RawQuote := do
  let chart ← getProp data "chart"
  let results ← getProp chart "result"
  let result := optIndex0 results
  if !result.truthy then throw .noData
  let meta ← getProp result "meta"
  let closes ← extractCloses result
  let prevClose ← resolvePrevClose meta
  let currentPrice ← resolveCurrentPrice meta closes prevClose
  pure ⟨closes, prevClose, currentPrice⟩

/-- The double that `(currentPrice - prevClose) / prevClose * 100` evaluates to on line 54:
the difference, the quotient and the product are each rounded. -/
def percentDouble (currentPrice prevClose : ℚ) : ℚ :=
  fl (fl (fl (currentPrice - prevClose) / prevClose) * 100)

/-- Lines 53-55 for a numeric `currentPrice`: the test `prevClose > 0` compares
`ToNumber(prevClose)`, and so do `-` and `/`. `toFixed(2)` writes the computed double with two
decimals and `parseFloat` reads the numeral back as the double nearest to it. -/
def changePercentOf (coerce : Coercion) (currentPrice : ℚ)
    (prevClose : JSVal) : Except JSErr ℚ :=
  match toNumber coerce prevClose with
  | .ok (some pc) =>
    if pc > 0 then .ok (fl (parseFloat (toFixed (percentDouble currentPrice pc)))) else .ok 0
  | .ok none => .ok 0
  | .error e => .error e

/-- Lines 58-62: the pair `(sentiment_polarity, heat_score)`; the product `Math.random() * 20`
and the sum are each rounded to a double. -/
def classify (changePercent heatRandom : ℚ) : Sentiment × ℚ :=
  if changePercent > 1 then (.positive, fl (80 + fl (heatRandom * 20)))
  else if changePercent > 0 then (.mild_positive, fl (60 + fl (heatRandom * 20)))
  else if changePercent < -1 then (.negative, fl (heatRandom * 20))
  else if changePercent < 0 then (.mild_negative, fl (20 + fl (heatRandom * 20)))
  else (.neutral, 50)

/-- The call `closes.slice(-24)`. -/
def sliceLast24 (closes : List JSVal) : List JSVal :=
  closes.drop (closes.length - 24)

/-- Lines 53-71. `currentPrice.toFixed(2)` on line 65 is a `TypeError` unless `currentPrice`
is a number; the statements before it have no effect, so the test comes first here. -/
def buildPayload (coerce : Coercion) (heatRandom : ℚ) (q : RawQuote) :
    Except JSErr Payload :=
  match q.currentPrice with
  | .num currentPrice => do
    let changePercent ← changePercentOf coerce currentPrice q.prevClose
    let sh := classify changePercent heatRandom
    pure {
      index_value := toFixed currentPrice
      percentage_change := changePercent
      initial_sentiment := sh.1
      initial_heat := ⌊sh.2⌋
      sparkline := sliceLast24 q.closes
      previous_close := q.prevClose }
  | _ => throw .typeError

/-- Lines 40-71: the request and the payload built from its response. -/
def liveFetch (coerce : Coercion) (w : World) : Except JSErr Payload :=
  match w.upstream with
  | none => throw .axiosError
  | some data => do
    let q ← extractQuote data
    buildPayload coerce w.heatRandom q

/-! ## The fallback and the whole call -/

/-- Lines 79-88: the simulated payload. -/
def synthetic (w : World) : Payload :=
  let baseValue := w.baseRandom * 10000 + 5000
  let changePercent := parseFloat (toFixed (w.changeRandom * 4 - 2))
  { index_value := toFixed (baseValue * (1 + changePercent / 100))
    percentage_change := changePercent
    initial_sentiment := .neutral
    initial_heat := 50
    sparkline := []
    previous_close := .num baseValue }

/-- What a call leaves behind: the value its promise resolves to, `liveDataCache`
afterwards, and the symbols `axios.get` was called for. -/
structure Outcome where
  value : Payload
  cache : Cache
  requests : List String

/-- The `try` block, lines 38-74: the live payload is stored under `symbol` with the
`now` of line 34 and returned. -/
def tryBlock (coerce : Coercion) (liveDataCache : Cache) (w : World)
    (symbol : String) : Except JSErr Outcome := do
  let payload ← liveFetch coerce w
  pure ⟨payload, liveDataCache.set symbol ⟨payload, w.now⟩, [symbol]⟩

/-- The `catch` block, lines 75-89: the cached payload if there is one, else a simulated
one; the cache is not written. -/
def catchBlock (liveDataCache : Cache) (cached : Option CacheEntry) (w : World)
    (symbol : String) : Outcome :=
  match cached with
  | some c => ⟨c.data, liveDataCache, [symbol]⟩
  | none => ⟨synthetic w, liveDataCache, [symbol]⟩

/-- The test of line 36, `cached && (now - cached.ts) < CACHE_TTL`. -/
def freshHit (cached : Option CacheEntry) (now : ℤ) : Option CacheEntry :=
  match cached with
  | some c => if now - c.ts < CACHE_TTL then some c else none
  | none => none

/-- The function `fetchYahooData(symbol)`, run on the cache `liveDataCache` in the world `w`.
An `error` is a rejection of the promise the function returns. -/
def fetchYahooData (coerce : Coercion) (liveDataCache : Cache) (w : World)
    (symbol : String) : Except JSErr Outcome :=
  let now := w.now
  let cached := liveDataCache symbol
  match freshHit cached now with
  | some c => pure ⟨c.data, liveDataCache, []⟩
  | none =>
    match tryBlock coerce liveDataCache w symbol with
    | .ok out => pure out
    | .error _ => pure (catchBlock liveDataCache cached w symbol)

/-! ## The market clock: lines 92-101 -/

/-- ECMAScript `IsLessThan` on two strings: the first is a proper start of the second, or
the first is the smaller where they first differ. Characters are compared by code point. -/
def strLt : List Char → List Char → Bool
  | [], [] => false
  | [], _ :: _ => true
  | _ :: _, [] => false
  | a :: as, b :: bs => if a = b then strLt as bs else decide (a.val < b.val)

/-- The operator `a >= b` on strings: `!(a < b)`. -/
def jsGe (a b : String) : Bool := !strLt a.data b.data

/-- The operator `a <= b` on strings: `!(b < a)`. -/
def jsLe (a b : String) : Bool := !strLt b.data a.data

/-- What the two `Intl.DateTimeFormat` calls of `getMarketStatus` report for `new Date()` in a
timezone that `Intl` knows: the short weekday name, and the `hour` and `minute` parts. -/
structure LocalParts where
  weekday : String
  hour : String
  minute : String

/-- Line 99: the local time `t`, with the hour `24` written `00`. -/
def localTime (parts : LocalParts) : String :=
  (if parts.hour = "24" then "00" else parts.hour) ++ ":" ++ parts.minute

/-- The function `getMarketStatus(timezone, openTime, closeTime)` on a timezone that `Intl`
accepts; `intl` gives what `Intl` reports for the present instant in each such timezone. -/
def getMarketStatus (intl : String → LocalParts) (timezone openTime closeTime : String) : Bool :=
  let day := (intl timezone).weekday
  if day = "Sat" ∨ day = "Sun" then false
  else
    let t := localTime (intl timezone)
    jsGe t openTime && jsLe t closeTime

/-- The call `getMarketStatus(timezone, openTime, closeTime)` for any string `timezone`:
`intl timezone` is `none` when the runtime does not accept the timezone, and then
`new Intl.DateTimeFormat` on line 94 throws a `RangeError`; else it holds what the two
formatters report. -/
def getMarketStatusOrThrow (intl : String → Option LocalParts)
    (timezone openTime closeTime : String) : Except JSErr Bool :=
  match intl timezone with
  | none => .error .rangeError
  | some parts => .ok (getMarketStatus (fun _ => parts) timezone openTime closeTime)

/-- A number below 100 written with two digits, as `Intl` writes a `2-digit` part. -/
def pad2 (n : ℕ) : String := String.mk [Nat.digitChar (n / 10), Nat.digitChar (n % 10)]

/-- The zero-padded form `HH:MM` of an hour and a minute. -/
def hhmm (h m : ℕ) : String := pad2 h ++ ":" ++ pad2 m

/-- Minutes since midnight. -/
def minutesOfDay (h m : ℕ) : ℕ := 60 * h + m

/-- The window test on numbers, as the spec words it: `open <= local <= close` on
minutes since midnight. -/
def numericWindow (openM localM closeM : ℕ) : Bool :=
  decide (openM ≤ localM) && decide (localM ≤ closeM)

/-! ## The exchange endpoints: lines 106-134 -/

/-- An element of the configured array `exchanges` (the module `./exchanges`): the
properties the server reads, and the others it passes on. -/
structure Exchange where
  id : String
  yahoo_symbol : String
  timezone : String
  open_time : String
  close_time : String
  others : List (String × JSVal)

/-- The object `{ ...ex, is_open: ..., ...live }`. -/
structure Aggregate where
  ex : Exchange
  is_open : Bool
  live : Payload

/-- What a handler sends: `res.json(body)`, or `res.status(status).json({ error })`. -/
inductive Response (α : Type) where
  | json (status : ℕ) (body : α) : Response α
  | error (status : ℕ) (error : String) : Response α

/-- The HTTP status of a response. -/
def Response.status {α : Type} : Response α → ℕ
  | .json status _ => status
  | .error status _ => status

/-- What one callback of an exchange handler takes from outside: the world of its
`fetchYahooData` call, and what `Intl` does when `getMarketStatus` runs after it: `none` for
a timezone it rejects, else what it reports. -/
structure CallEnv where
  world : World
  intl : String → Option LocalParts

/-- The body of the callbacks of lines 109-116 and of lines 129-130: `fetchYahooData` is
awaited first, then the object literal is built, and `getMarketStatus` can throw there. -/
def exchangeEntry (coerce : Coercion) (liveDataCache : Cache) (env : CallEnv) (ex : Exchange) :
    Except JSErr Aggregate := do
  let out ← fetchYahooData coerce liveDataCache env.world ex.yahoo_symbol
  let is_open ← getMarketStatusOrThrow env.intl ex.timezone ex.open_time ex.close_time
  pure ⟨ex, is_open, out.value⟩

/-- The call `Promise.all(exchanges.map(async (ex) => ...))`: the callback of the exchange at
index `i` runs in `envs i`. Every callback reads `liveDataCache` on lines 35-36 before any of
them resumes from its `await`, so each sees the cache the request started with. The promise
rejects as soon as one callback throws. -/
def gatherEntries (coerce : Coercion) (liveDataCache : Cache) (envs : ℕ → CallEnv) :
    ℕ → List Exchange → Except JSErr (List Aggregate)
  | _, [] => pure []
  | i, ex :: rest => do
    let entry ← exchangeEntry coerce liveDataCache (envs i) ex
    let entries ← gatherEntries coerce liveDataCache envs (i + 1) rest
    pure (entry :: entries)

/-- The handler of `GET /api/exchanges`. -/
def getExchanges (coerce : Coercion) (exchanges : List Exchange) (liveDataCache : Cache)
    (envs : ℕ → CallEnv) : Response (List Aggregate) :=
  match gatherEntries coerce liveDataCache envs 0 exchanges with
  | .ok results => .json 200 results
  | .error _ => .error 500 "Exchange data unavailable"

/-- The handler of `GET /api/exchange/:id`. -/
def getExchange (coerce : Coercion) (exchanges : List Exchange) (liveDataCache : Cache)
    (env : CallEnv) (id : String) : Response Aggregate :=
  match exchanges.find? (fun e => decide (e.id = id)) with
  | none => .error 404 "Exchange not found"
  | some ex =>
    match exchangeEntry coerce liveDataCache env ex with
    | .ok entry => .json 200 entry
    | .error _ => .error 500 "Data unavailable"

/-! ## The crypto endpoint: lines 167-205 -/

/-- The table `CRYPTO_MAP`: pair symbol, then `symbol` and `name`. -/
def CRYPTO_MAP : List (String × String × String) :=
  [("BTCUSDT", "BTC", "Bitcoin"), ("ETHUSDT", "ETH", "Ethereum"), ("SOLUSDT", "SOL", "Solana"),
   ("BNBUSDT", "BNB", "BNB"), ("XRPUSDT", "XRP", "XRP"), ("ADAUSDT", "ADA", "Cardano"),
   ("AVAXUSDT", "AVAX", "Avalanche"), ("LINKUSDT", "LINK", "Chainlink"),
   ("DOGEUSDT", "DOGE", "Dogecoin"), ("DOTUSDT", "DOT", "Polkadot")]

/-- The call `s.replace(pat, '')` with a string pattern: the first occurrence is removed. -/
def removeFirst (pat : List Char) : List Char → List Char
  | [] => []
  | c :: cs => if pat.isPrefixOf (c :: cs) then (c :: cs).drop pat.length
               else c :: removeFirst pat cs

/-- The property key a value is converted to in `CRYPTO_MAP[v]`; numbers, arrays and objects
go through the parameter `keyOf`. -/
def propertyKey (keyOf : JSVal → String) : JSVal → String
  | .str s => s
  | .undefined => "undefined"
  | .null => "null"
  | .bool b => if b then "true" else "false"
  | v => keyOf v

/-- Line 189: the entry of `CRYPTO_MAP`, or else `symbol` without `USDT` and `symbol` itself;
`t.symbol.replace` is a `TypeError` unless `t.symbol` is a string. -/
def cryptoMeta (keyOf : JSVal → String) (symbol : JSVal) : Except JSErr (String × String) :=
  match CRYPTO_MAP.lookup (propertyKey keyOf symbol) with
  | some entry => pure entry
  | none =>
    match symbol with
    | .str s => pure (String.mk (removeFirst "USDT".data s.data), s)
    | _ => throw .typeError

/-- An element of the array the crypto handler sends; `none` is `NaN`. -/
structure CryptoQuote where
  symbol : String
  name : String
  usd : Option ℚ
  usd_24h_change : Option ℚ
  volume_24h : Option ℚ
  high_24h : Option ℚ
  low_24h : Option ℚ

/-- The callback of lines 188-199; `parseFloatOf` is the global `parseFloat` on any value. -/
def cryptoQuote (keyOf : JSVal → String) (parseFloatOf : JSVal → Option ℚ) (t : JSVal) :
    Except JSErr CryptoQuote := do
  let symbol ← getProp t "symbol"
  let entry ← cryptoMeta keyOf symbol
  pure {
    symbol := entry.1
    name := entry.2
    usd := parseFloatOf (optProp t "lastPrice")
    usd_24h_change := parseFloatOf (optProp t "priceChangePercent")
    volume_24h := parseFloatOf (optProp t "quoteVolume")
    high_24h := parseFloatOf (optProp t "highPrice")
    low_24h := parseFloatOf (optProp t "lowPrice") }

/-- The `try` block of the crypto handler: `data.map` is a `TypeError` unless `data` is an
array. -/
def cryptoQuotes (keyOf : JSVal → String) (parseFloatOf : JSVal → Option ℚ)
    (upstream : Option JSVal) : Except JSErr (List CryptoQuote) :=
  match upstream with
  | none => throw .axiosError
  | some (.arr ts) => ts.mapM (cryptoQuote keyOf parseFloatOf)
  | some _ => throw .typeError

/-- The handler of `GET /api/crypto`; `upstream` is the settlement of its `axios.get`. -/
def getCrypto (keyOf : JSVal → String) (parseFloatOf : JSVal → Option ℚ)
    (upstream : Option JSVal) : Response (List CryptoQuote) :=
  match cryptoQuotes keyOf parseFloatOf upstream with
  | .ok result => .json 200 result
  | .error _ => .error 500 "Crypto data unavailable"

/-! ## Market movers: lines 222-248 -/

/-- An element of the constant `STOCKS`. -/
structure Stock where
  ticker : String
  name : String
  sector : String
  deriving DecidableEq, Repr

/-- The constant `STOCKS`. -/
def STOCKS : List Stock :=
  [⟨"AAPL", "Apple Inc.", "Technology"⟩, ⟨"MSFT", "Microsoft", "Technology"⟩,
   ⟨"NVDA", "NVIDIA", "Semiconductors"⟩, ⟨"TSLA", "Tesla", "Auto/EV"⟩,
   ⟨"META", "Meta Platforms", "Social Media"⟩, ⟨"AMZN", "Amazon", "E-Commerce"⟩,
   ⟨"GOOGL", "Alphabet", "Technology"⟩, ⟨"JPM", "JPMorgan Chase", "Finance"⟩,
   ⟨"NFLX", "Netflix", "Streaming"⟩, ⟨"AMD", "AMD", "Semiconductors"⟩,
   ⟨"RELIANCE", "Reliance Industries", "Conglomerate"⟩, ⟨"TCS", "TCS", "IT Services"⟩]

/-- The object `{ ...s, price, change_pct, volume }` of line 245. -/
structure Mover where
  stock : Stock
  price : ℚ
  change_pct : ℚ
  volume : ℤ

/-- The callback of lines 242-246 for one stock: `changeRandom` and `volumeRandom` are the
values of its two `Math.random()` calls, and `BASE_PRICES` is the table filled on line 239. -/
def moverOf (BASE_PRICES : String → ℚ) (changeRandom volumeRandom : ℚ) (s : Stock) : Mover :=
  let change_pct := parseFloat (toFixed (changeRandom * 10 - 4))
  let price := parseFloat (toFixed (BASE_PRICES s.ticker * (1 + change_pct / 100)))
  ⟨s, price, change_pct, ⌊volumeRandom * 80000000 + 5000000⌋⟩

/-- The call `STOCKS.map(...)`: the stock reached after `k` calls of `Math.random()` takes
the calls `k` and `k + 1`. -/
def moversFrom (BASE_PRICES : String → ℚ) (random : ℕ → ℚ) : ℕ → List Stock → List Mover
  | _, [] => []
  | k, s :: rest =>
    moverOf BASE_PRICES (random k) (random (k + 1)) s
      :: moversFrom BASE_PRICES random (k + 2) rest

/-- The comparator `(a, b) => Math.abs(b.change_pct) - Math.abs(a.change_pct)` of line 246:
`a` may stand before `b` when it is not positive. -/
def moverOrder (a b : Mover) : Bool := decide (|b.change_pct| - |a.change_pct| ≤ 0)

/-- The array `movers`: `Array.prototype.sort` is stable, as `mergeSort` is. -/
def marketMoves (BASE_PRICES : String → ℚ) (random : ℕ → ℚ) : List Mover :=
  (moversFrom BASE_PRICES random 0 STOCKS).mergeSort moverOrder

/-- The handler of `GET /api/market-moves`. -/
def getMarketMoves (BASE_PRICES : String → ℚ) (random : ℕ → ℚ) : Response (List Mover) :=
  .json 200 (marketMoves BASE_PRICES random)

/-! ## The frontend sparkline: `RightPanel.jsx`, lines 20-29 -/

/-- The call `Math.min(...data)` on an array that is not empty. -/
def minOf : List ℚ → ℚ
  | [] => 0
  | [a] => a
  | a :: b :: rest => min a (minOf (b :: rest))

/-- The call `Math.max(...data)` on an array that is not empty. -/
def maxOf : List ℚ → ℚ
  | [] => 0
  | [a] => a
  | a :: b :: rest => max a (maxOf (b :: rest))

/-- Line 24: `max - min || 1`. -/
def sparkRange (data : List ℚ) : ℚ :=
  if maxOf data - minOf data = 0 then 1 else maxOf data - minOf data

/-- Lines 25-28: the pairs `x,y` of the entries from index `i` on, `n` being `data.length`
and `lo` being `min`. -/
def sparkPointsFrom (n : ℕ) (lo range width height : ℚ) : ℕ → List ℚ → List (ℚ × ℚ)
  | _, [] => []
  | i, v :: rest =>
    ((i : ℚ) / ((n : ℚ) - 1) * width, height - (v - lo) / range * (height - 2) - 1)
      :: sparkPointsFrom n lo range width height (i + 1) rest

/-- The points the component `Sparkline` draws; `none` is its `return null`, and a `data` of
`none` is a `data` that is `null` or `undefined`. -/
def sparklinePoints (data : Option (List ℚ)) (width height : ℚ) : Option (List (ℚ × ℚ)) :=
  match data with
  | none => none
  | some d =>
    if d.length < 2 then none
    else some (sparkPointsFrom d.length (minOf d) (sparkRange d) width height 0 d)

/-! ## The AI handlers: lines 253-306 and 384-455 -/

/-- What is thrown inside the `try` blocks of the AI handlers. -/
inductive AIErr where
  /-- A property read on `undefined`/`null`, or a call of something that is no function. -/
  | typeError : AIErr
  /-- The evaluation of a name that is not defined. -/
  | referenceError : AIErr
  /-- A `JSON.parse` on text that is no JSON. -/
  | syntaxError : AIErr
  /-- The promise of `groq.chat.completions.create` rejected. -/
  | groqError : AIErr
  deriving DecidableEq, Repr

/-- The argument of `groq.chat.completions.create`; `json_object` tells whether
`response_format: { type: "json_object" }` is given. -/
structure GroqRequest where
  messages : List JSVal
  model : String
  temperature : ℚ
  json_object : Bool
  max_tokens : ℕ

/-- The client `groq`, when there is one: each request is answered with a completion object
or rejected. -/
abbrev Groq := GroqRequest → Except AIErr JSVal

/-- The text conversions of JavaScript the handlers use. -/
structure JSText where
  /-- The string a value takes inside a template literal; it can throw, as `ToPrimitive`
  does. -/
  toStr : JSVal → Except AIErr String
  /-- `JSON.stringify(v)`. -/
  stringify : JSVal → String
  /-- `JSON.stringify(v, null, 1)`. -/
  stringifyIndented : JSVal → String
  /-- `JSON.parse(v)`, `none` when it throws. -/
  parse : JSVal → Option JSVal

/-- What a call of an AI handler leaves behind: the response sent and the requests made to
the completion service. -/
structure AIOutcome where
  response : Response JSVal
  calls : List GroqRequest

/-- The read `v.k` inside an AI handler. -/
def readProp (v : JSVal) (k : String) : Except AIErr JSVal :=
  match getProp v k with
  | .ok x => .ok x
  | .error _ => .error .typeError

/-- The read `v[0]`: a `TypeError` on `undefined`/`null`. -/
def readIndex0 (v : JSVal) : Except AIErr JSVal :=
  if v.isNullish then .error .typeError else .ok (optIndex0 v)

/-- The read `completion.choices[0].message.content`. -/
def completionContent (completion : JSVal) : Except AIErr JSVal := do
  let choices ← readProp completion "choices"
  let first ← readIndex0 choices
  let message ← readProp first "message"
  readProp message "content"

/-- The call `JSON.parse(content)`. -/
def parseJSON (text : JSText) (content : JSVal) : Except AIErr JSVal :=
  match text.parse content with
  | some v => .ok v
  | none => .error .syntaxError

/-- The default `= []` of a destructuring pattern: it applies to `undefined` only. -/
def orEmptyArray : JSVal → JSVal
  | .undefined => .arr []
  | v => v

/-- A message `{ role, content }`. -/
def chatMessage (role content : JSVal) : JSVal :=
  .obj [("role", role), ("content", content)]

/-! ### Sentiment: lines 253-271 -/

/-- The object sent on line 255. -/
def sentimentFallback : JSVal :=
  .obj [("sentiment_polarity", .str "neutral"), ("heat_score", .num 50),
    ("boom_probability", .str "stable market"), ("economic_risk_level", .str "Moderate Risk"),
    ("one_line_summary", .str "AI unavailable — add GROQ_API_KEY to .env")]

/-- Lines 258-265 up to the call: the request built from `req.body`. -/
def sentimentRequest (text : JSText) (body : JSVal) : Except AIErr GroqRequest := do
  let headline ← readProp body "headline"
  let indexData ← readProp body "indexData"
  let shown ← text.toStr headline
  pure {
    messages := [chatMessage (.str "user") (.str ("Analyze: \"" ++ shown ++ "\". Context: "
      ++ text.stringify indexData ++ ". Return JSON only: \x7bsentiment_polarity, "
      ++ "heat_score (0-100), boom_probability, economic_risk_level, one_line_summary\x7d"))]
    model := "llama-3.3-70b-versatile"
    temperature := 1 / 10
    json_object := true
    max_tokens := 300 }

/-- Lines 259-266 from the call on: the body that `res.json` sends. -/
def sentimentAnswer (text : JSText) (create : Groq) (request : GroqRequest) :
    Except AIErr JSVal := do
  let completion ← create request
  let content ← completionContent completion
  parseJSON text content

/-- The handler of `POST /api/ai/sentiment`; `groq` is `none` when no key is configured. -/
def aiSentiment (text : JSText) (groq : Option Groq) (body : JSVal) : AIOutcome :=
  match groq with
  | none => ⟨.json 200 sentimentFallback, []⟩
  | some create =>
    match sentimentRequest text body with
    | .error _ => ⟨.error 500 "AI failed", []⟩
    | .ok request =>
      match sentimentAnswer text create request with
      | .ok parsed => ⟨.json 200 parsed, [request]⟩
      | .error _ => ⟨.error 500 "AI failed", [request]⟩

/-! ### Pattern scan: lines 276-306 -/

/-- The array `DEMO_PATTERNS.patterns`. -/
def demoPatternList : List JSVal :=
  [.obj [("type", .str "Bullish Signal"), ("asset", .str "AI/Tech Sector"),
      ("confidence", .num 78),
      ("reasoning", .str "AI infrastructure spending accelerating across big tech.")],
   .obj [("type", .str "Watch Zone"), ("asset", .str "Oil / WTI"), ("confidence", .num 61),
      ("reasoning", .str "Middle East tensions creating supply uncertainty.")],
   .obj [("type", .str "Bearish Warning"), ("asset", .str "Rate Sensitive"),
      ("confidence", .num 67),
      ("reasoning", .str "Fed hold posture compressing growth & real-estate multiples.")],
   .obj [("type", .str "Breakout Alert"), ("asset", .str "Bitcoin"), ("confidence", .num 72),
      ("reasoning", .str "BTC ETF inflows at multi-week high; watch $95k resistance.")],
   .obj [("type", .str "Accumulation Zone"), ("asset", .str "India Equities"),
      ("confidence", .num 64),
      ("reasoning", .str "FII flows returning to Nifty after 3-month correction.")]]

/-- The constant `DEMO_PATTERNS`; `startedAt` is the `new Date().toISOString()` of line 286,
taken when the module is loaded. -/
def DEMO_PATTERNS (startedAt : String) : JSVal :=
  .obj [("patterns", .arr demoPatternList),
    ("macro_summary", .str ("Markets are in a cautious risk-on mode with geopolitical "
      ++ "headwinds and strong tech earnings creating crosscurrents.")),
    ("risk_level", .str "Moderate"),
    ("scanned_at", .str startedAt)]

/-- The lines `${i + 1}. ${h}` of the headlines from index `i` on. -/
def numberedLines (text : JSText) : ℕ → List JSVal → Except AIErr (List String)
  | _, [] => pure []
  | i, h :: rest => do
    let shown ← text.toStr h
    let others ← numberedLines text (i + 1) rest
    pure ((Nat.repr (i + 1) ++ ". " ++ shown) :: others)

/-- The text `headlines.slice(0, 10).map(...).join('\n')`: only an array has both `slice` and
`map`. -/
def headlineText (text : JSText) (headlines : JSVal) : Except AIErr String :=
  match headlines with
  | .arr hs => do
    let lines ← numberedLines text 0 (hs.take 10)
    pure (String.intercalate "\n" lines)
  | _ => .error .typeError

/-- Lines 292-299 up to the call. -/
def patternsRequest (text : JSText) (body : JSVal) : Except AIErr GroqRequest := do
  let given ← readProp body "headlines"
  let lines ← headlineText text (orEmptyArray given)
  pure {
    messages := [chatMessage (.str "user") (.str ("You are a market analyst. Analyze these "
      ++ "headlines and return JSON with patterns array (each: type, asset, confidence 0-100, "
      ++ "reasoning), macro_summary, risk_level (Low/Moderate/High/Critical).\n\nHeadlines:\n"
      ++ lines))]
    model := "llama-3.3-70b-versatile"
    temperature := 1 / 4
    json_object := true
    max_tokens := 600 }

/-- The properties with keys `i`, `i + 1`, ... that a spread copies from an array. -/
def indexedFrom : ℕ → List JSVal → List (String × JSVal)
  | _, [] => []
  | i, v :: rest => (Nat.repr i, v) :: indexedFrom (i + 1) rest

/-- The own properties `{ ...v }` copies. -/
def spreadOf : JSVal → List (String × JSVal)
  | .obj kv => kv
  | .arr xs => indexedFrom 0 xs
  | .str s => indexedFrom 0 (s.data.map (fun c => JSVal.str c.toString))
  | _ => []

/-- The assignment of a property in an object literal: an existing key keeps its place and
takes the new value, a new key goes last. -/
def setKey (k : String) (v : JSVal) : List (String × JSVal) → List (String × JSVal)
  | [] => [(k, v)]
  | (k2, v2) :: rest => if k2 = k then (k, v) :: rest else (k2, v2) :: setKey k v rest

/-- Lines 293-301 from the call on: the object `{ ...result, scanned_at: ... }`, `nowIso`
being the `new Date().toISOString()` of line 301. -/
def patternsAnswer (text : JSText) (nowIso : String) (create : Groq) (request : GroqRequest) :
    Except AIErr JSVal := do
  let completion ← create request
  let content ← completionContent completion
  let result ← parseJSON text content
  pure (.obj (setKey "scanned_at" (.str nowIso) (spreadOf result)))

/-- The handler of `POST /api/ai/patterns`. -/
def aiPatterns (text : JSText) (startedAt nowIso : String) (groq : Option Groq)
    (body : JSVal) : AIOutcome :=
  match groq with
  | none => ⟨.json 200 (DEMO_PATTERNS startedAt), []⟩
  | some create =>
    match patternsRequest text body with
    | .error _ => ⟨.json 200 (DEMO_PATTERNS startedAt), []⟩
    | .ok request =>
      match patternsAnswer text nowIso create request with
      | .ok answer => ⟨.json 200 answer, [request]⟩
      | .error _ => ⟨.json 200 (DEMO_PATTERNS startedAt), [request]⟩

/-! ### Chat: lines 384-455 -/

/-- The object sent on lines 386-389. -/
def chatFallback : JSVal :=
  chatMessage (.str "assistant") (.str "AI chat unavailable — add GROQ_API_KEY to .env")

/-- The object sent with status 500 on lines 450-453. -/
def chatFailure : JSVal :=
  chatMessage (.str "assistant")
    (.str "I encountered an error processing your request. Please try again.")

/-- The callback of lines 395-399: after `ex.id`, `ex.country` and `ex.index_name` are read,
the name `getSimulatedIndex` is evaluated, and the file defines no such name. -/
def chatExchangeEntry (_ex : Exchange) : Except AIErr JSVal :=
  .error .referenceError

/-- The call `exchanges.slice(0, 8).map(...)` of line 395. -/
def chatExchangeData : List Exchange → Except AIErr (List JSVal)
  | [] => pure []
  | ex :: rest => do
    let entry ← chatExchangeEntry ex
    let entries ← chatExchangeData rest
    pure (entry :: entries)

/-- The callback of lines 401-405 for one stock, `changeRandom` being its `Math.random()`. -/
def chatMover (BASE_PRICES : String → ℚ) (changeRandom : ℚ) (s : Stock) : JSVal :=
  let change_pct := parseFloat (toFixed (changeRandom * 10 - 4))
  let price := parseFloat (toFixed (BASE_PRICES s.ticker * (1 + change_pct / 100)))
  .obj [("ticker", .str s.ticker), ("sector", .str s.sector), ("price", .num price),
    ("change_pct", .num change_pct)]

/-- The call `STOCKS.slice(0, 6).map(...)`: the stock at place `k` takes the draw `k`. -/
def chatMoversFrom (BASE_PRICES : String → ℚ) (random : ℕ → ℚ) : ℕ → List Stock → List JSVal
  | _, [] => []
  | k, s :: rest =>
    chatMover BASE_PRICES (random k) s :: chatMoversFrom BASE_PRICES random (k + 1) rest

/-- Lines 407-409: the first five entries of `CRYPTO_MAP`. -/
def chatCryptoContext : List JSVal :=
  (CRYPTO_MAP.take 5).map (fun entry =>
    JSVal.obj [("symbol", .str entry.2.1), ("name", .str entry.2.2), ("pair", .str entry.1)])

/-- The text of the system prompt before the exchange data (lines 411-415). -/
def chatPromptHead : String :=
  "You are EcoBoom AI — a world-class economic analyst and financial strategist " ++
  "embedded in a global finance monitoring platform.\n" ++
  "\n" ++
  "CURRENT LIVE DATA (use this in your analysis):\n" ++
  "\n" ++
  "EXCHANGES:\n"

/-- The text of the system prompt between the exchange data and the movers. -/
def chatPromptMovers : String :=
  "\n" ++
  "\n" ++
  "TOP MARKET MOVERS:\n"

/-- The text of the system prompt between the movers and the crypto pairs. -/
def chatPromptCrypto : String :=
  "\n" ++
  "\n" ++
  "TRACKED CRYPTO:\n"

/-- The text of the system prompt after the crypto pairs: the rules. -/
def chatPromptRules : String :=
  "\n" ++
  "\n" ++
  "RULES:\n" ++
  "- You are an expert in macroeconomics, geopolitical risk, monetary policy, and " ++
  "market dynamics.\n" ++
  "- Always reference the live data above when relevant.\n" ++
  "- Be concise but insightful. Use bullet points for clarity.\n" ++
  "- If asked about a specific country or exchange, use the data provided.\n" ++
  "- Provide actionable insights, not just descriptions.\n" ++
  "- Format responses clearly with bold text and bullet points.\n" ++
  "- Never refuse economic questions — you are the expert.\n" ++
  "- Keep responses focused and under 300 words unless the user asks for detailed " ++
  "analysis."

/-- The template of lines 411-432. -/
def chatSystemPrompt (text : JSText) (exchangeData movers cryptoContext : List JSVal) :
    String :=
  chatPromptHead ++ text.stringifyIndented (.arr exchangeData) ++ chatPromptMovers
    ++ text.stringifyIndented (.arr movers) ++ chatPromptCrypto
    ++ text.stringifyIndented (.arr cryptoContext) ++ chatPromptRules

/-- The elements `...messages.slice(-10)` of line 437: the last ten of an array, or the last
ten characters of a string; nothing else has a `slice`. -/
def lastTen : JSVal → Except AIErr (List JSVal)
  | .arr ms => .ok (ms.drop (ms.length - 10))
  | .str s => .ok ((s.data.drop (s.data.length - 10)).map (fun c => JSVal.str c.toString))
  | _ => .error .typeError

/-- Lines 392-442 up to the call: the request built from `req.body`, the configured
`exchanges`, the table `BASE_PRICES` and the draws of `Math.random()`. -/
def chatRequest (text : JSText) (exchanges : List Exchange) (BASE_PRICES : String → ℚ)
    (random : ℕ → ℚ) (body : JSVal) : Except AIErr GroqRequest := do
  let given ← readProp body "messages"
  let messages := orEmptyArray given
  let exchangeData ← chatExchangeData (exchanges.take 8)
  let movers := chatMoversFrom BASE_PRICES random 0 (STOCKS.take 6)
  let systemPrompt := chatSystemPrompt text exchangeData movers chatCryptoContext
  let recent ← lastTen messages
  pure {
    messages := chatMessage (.str "system") (.str systemPrompt) :: recent
    model := "llama-3.3-70b-versatile"
    temperature := 3 / 10
    json_object := false
    max_tokens := 800 }

/-- Lines 434-447 from the call on: the object `{ role: "assistant", content: ... }`. -/
def chatAnswer (create : Groq) (request : GroqRequest) : Except AIErr JSVal := do
  let completion ← create request
  let content ← completionContent completion
  pure (chatMessage (.str "assistant") content)

/-- The handler of `POST /api/ai/chat`. -/
def aiChat (text : JSText) (exchanges : List Exchange) (BASE_PRICES : String → ℚ)
    (random : ℕ → ℚ) (groq : Option Groq) (body : JSVal) : AIOutcome :=
  match groq with
  | none => ⟨.json 200 chatFallback, []⟩
  | some create =>
    match chatRequest text exchanges BASE_PRICES random body with
    | .error _ => ⟨.json 500 chatFailure, []⟩
    | .ok request =>
      match chatAnswer create request with
      | .ok answer => ⟨.json 200 answer, [request]⟩
      | .error _ => ⟨.json 500 chatFailure, [request]⟩

/-- The names of the own properties of an object. -/
def JSVal.keys : JSVal → List String
  | .obj kv => kv.map Prod.fst
  | _ => []

/-! ## Names for what the claims speak of -/

/-- The array `data.chart.result[0].indicators.quote[0].close` of a response body, read the
way lines 46-50 read it; `none` when there is no such array. -/
def upstreamSeries (data : JSVal) : Option (List JSVal) :=
  match (do
    let chart ← getProp data "chart"
    let results ← getProp chart "result"
    let indicators ← getProp (optIndex0 results) "indicators"
    pure (optProp (optIndex0 (optProp indicators "quote")) "close") : Except JSErr JSVal) with
  | .ok (.arr xs) => some xs
  | _ => none

/-- The object `data.chart.result[0].meta` of a response body, read the way lines 46-49 read
it; `none` when the reads throw. -/
def upstreamMeta (data : JSVal) : Option JSVal :=
  match (do
    let chart ← getProp data "chart"
    let results ← getProp chart "result"
    getProp (optIndex0 results) "meta" : Except JSErr JSVal) with
  | .ok m => some m
  | .error _ => none

/-- The payload a call serves in place of a live one: the one cached for the symbol, fresh or
stale, or else the simulated one. -/
def degraded (liveDataCache : Cache) (w : World) (symbol : String) : Payload :=
  match liveDataCache symbol with
  | some c => c.data
  | none => synthetic w

/-- The reading of `Date.now()` at the moment line 73 writes the cache, `elapsed`
milliseconds after the reading of line 34: the `await` of line 41 lies between the two. -/
def clockAtWrite (w : World) (elapsed : ℤ) : ℤ := w.now + elapsed

/-! ## Sample inputs -/

/-- A coercion that turns every string, array and object into `NaN`. -/
def coerceNaN : Coercion := fun _ => .ok none

/-- The cache of a process that has just started: `{}`. -/
def emptyCache : Cache := fun _ => none

/-- A response body of the shape the chart endpoint sends. -/
def chartBody (regularMarketPrice chartPreviousClose : JSVal) (close : List JSVal) : JSVal :=
  .obj [("chart", .obj [("result", .arr [.obj [
    ("meta", .obj [("regularMarketPrice", regularMarketPrice),
                   ("chartPreviousClose", chartPreviousClose)]),
    ("indicators", .obj [("quote", .arr [.obj [("close", .arr close)]])])]])])]

/-- A world in which the request is rejected. -/
def worldDown : World :=
  { now := 500000, upstream := none, heatRandom := 1 / 2, baseRandom := 0, changeRandom := 9 / 10 }

/-- A world in which the response carries an empty `result` array. -/
def worldNoData : World :=
  { now := 500000, upstream := some (.obj [("chart", .obj [("result", .arr [])])]),
    heatRandom := 1 / 2, baseRandom := 0, changeRandom := 9 / 10 }

/-- A payload as a live fetch stores it. -/
def storedPayload : Payload :=
  { index_value := ⟨false, 10100⟩, percentage_change := 1, initial_sentiment := .mild_positive,
    initial_heat := 70, sparkline := [.num 100, .num 101], previous_close := .num 100 }

/-- A cache holding `storedPayload` for `^GSPC`, written at time `ts`. -/
def cacheWith (ts : ℤ) : Cache := emptyCache.set "^GSPC" ⟨storedPayload, ts⟩

/-- A world in which the index closed at 100 and now stands at 102. -/
def worldUp : World :=
  { now := 500000,
    upstream := some (chartBody (.num 102) (.num 100) [.num 100, .null, .num 101, .num 102]),
    heatRandom := 1 / 2, baseRandom := 0, changeRandom := 9 / 10 }

/-- The payload `fetchYahooData` builds in `worldUp`. -/
def payloadUp : Payload :=
  { index_value := ⟨false, 10200⟩, percentage_change := 2, initial_sentiment := .positive,
    initial_heat := 90, sparkline := [.num 100, .num 101, .num 102], previous_close := .num 100 }

/-- A world in which the response has a price of 250 and no previous close. -/
def worldNoPrev : World :=
  { now := 500000, upstream := some (chartBody (.num 250) .null []),
    heatRandom := 1 / 2, baseRandom := 0, changeRandom := 9 / 10 }

/-- The three values the spec gives the `source` field of a payload. -/
def sourceTags : List String := ["live", "stale", "synthetic"]

/-- A clock that reports the same weekday, hour and minute in every timezone. -/
def clockAt (weekday hour minute : String) : String → LocalParts :=
  fun _ => ⟨weekday, hour, minute⟩

/-- Two configured exchanges. -/
def nyse : Exchange :=
  { id := "NYSE", yahoo_symbol := "^GSPC", timezone := "America/New_York",
    open_time := "09:30", close_time := "16:00", others := [("currency", .str "USD")] }

/-- The second of the two configured exchanges. -/
def tse : Exchange :=
  { id := "TSE", yahoo_symbol := "^N225", timezone := "Asia/Tokyo",
    open_time := "09:00", close_time := "15:00", others := [("currency", .str "JPY")] }

/-- A configuration of two exchanges. -/
def sampleExchanges : List Exchange := [nyse, tse]

/-- A runtime that knows the timezones of `nyse` and `tse` and no other, on a Monday at
10:15. -/
def sampleZones : String → Option LocalParts :=
  fun timezone =>
    if timezone = "America/New_York" ∨ timezone = "Asia/Tokyo" then
      some (clockAt "Mon" "10" "15" timezone)
    else none

/-- A request in which every upstream call is rejected, on a Monday at 10:15. -/
def envDown : CallEnv := ⟨worldDown, sampleZones⟩

/-- A request in which every upstream call succeeds as in `worldUp`, on a Monday at 10:15. -/
def envUp : CallEnv := ⟨worldUp, sampleZones⟩

/-- An exchange configured with a timezone that is no IANA name. -/
def lse : Exchange :=
  { id := "LSE", yahoo_symbol := "^FTSE", timezone := "Europe/Londn",
    open_time := "08:00", close_time := "16:30", others := [("currency", .str "GBP")] }

/-- A world as `worldUp` in which the draw of line 59 is `1 - 2 ^ (-52)`, the greatest double
below 1 but one. -/
def worldEdge : World :=
  { now := 500000,
    upstream := some (chartBody (.num 102) (.num 100) [.num 100, .null, .num 101, .num 102]),
    heatRandom := 1 - 1 / 2 ^ 52, baseRandom := 0, changeRandom := 9 / 10 }

/-- The payload `fetchYahooData` builds in `worldEdge`. -/
def payloadEdge : Payload :=
  { index_value := ⟨false, 10200⟩, percentage_change := 2, initial_sentiment := .positive,
    initial_heat := 100, sparkline := [.num 100, .num 101, .num 102],
    previous_close := .num 100 }

/-- A world in which the index closed at 20000 and now stands at 20201: the exact change is
1.005 per cent. -/
def worldTie : World :=
  { now := 500000, upstream := some (chartBody (.num 20201) (.num 20000) []),
    heatRandom := 1 / 2, baseRandom := 0, changeRandom := 9 / 10 }

/-- The double nearest to 3.07965. -/
def priceFar : ℚ := 3467377648107887 / 2 ^ 50

/-- A world in which the index closed at 3 and now stands at the double nearest to 3.07965. -/
def worldFar : World :=
  { now := 500000, upstream := some (chartBody (.num priceFar) (.num 3) []),
    heatRandom := 1 / 2, baseRandom := 0, changeRandom := 9 / 10 }

/-- A conversion of values to property keys, for the samples. -/
def sampleKeyOf : JSVal → String := fun _ => "[object Object]"

/-- A `parseFloat` for the samples: everything is `NaN`. -/
def sampleParseFloat : JSVal → Option ℚ := fun _ => none

/-- Text conversions for the samples: every value is shown as the empty string and no text
parses as JSON. -/
def sampleText : JSText :=
  ⟨fun _ => .ok "", fun _ => "", fun _ => "", fun _ => none⟩

/-- A completion service that rejects every request. -/
def groqDown : Groq := fun _ => .error .groqError

/-- A completion service that answers every request with the content `ok`. -/
def groqUp : Groq := fun _ =>
  .ok (.obj [("choices", .arr [.obj [("message", chatMessage (.str "assistant") (.str "ok"))]])])

/-- A request body for the sentiment handler. -/
def sentimentBody : JSVal :=
  .obj [("headline", .str "Oil prices spike"), ("indexData", .obj [("index", .str "S&P 500")])]

/-- A request body for the pattern scan. -/
def patternsBody : JSVal :=
  .obj [("headlines", .arr [.str "Oil prices spike", .str "ECB rate decision"])]

/-- A request body for the chat: a history of one message. -/
def chatBody : JSVal :=
  .obj [("messages", .arr [chatMessage (.str "user") (.str "Is the NYSE open?")])]

/-- The table `BASE_PRICES` of the samples. -/
def samplePrices : String → ℚ := fun _ => 100

/-- The draws of the samples. -/
def sampleRandom : ℕ → ℚ := fun _ => 1 / 2

/-- The request the sentiment handler builds from `sentimentBody` with `sampleText`. -/
def sentimentSample : GroqRequest :=
  { messages := [chatMessage (.str "user") (.str ("Analyze: \"" ++ "" ++ "\". Context: "
      ++ "" ++ ". Return JSON only: \x7bsentiment_polarity, "
      ++ "heat_score (0-100), boom_probability, economic_risk_level, one_line_summary\x7d"))]
    model := "llama-3.3-70b-versatile"
    temperature := 1 / 10
    json_object := true
    max_tokens := 300 }

/-- The request the pattern scan builds from `patternsBody` with `sampleText`. -/
def patternsSample : GroqRequest :=
  { messages := [chatMessage (.str "user") (.str ("You are a market analyst. Analyze these "
      ++ "headlines and return JSON with patterns array (each: type, asset, confidence 0-100, "
      ++ "reasoning), macro_summary, risk_level (Low/Moderate/High/Critical).\n\nHeadlines:\n"
      ++ String.intercalate "\n" [Nat.repr 1 ++ ". " ++ "", Nat.repr 2 ++ ". " ++ ""]))]
    model := "llama-3.3-70b-versatile"
    temperature := 1 / 4
    json_object := true
    max_tokens := 600 }

/-- The request the chat builds from `chatBody` when no exchange is configured. -/
def chatSample : GroqRequest :=
  { messages :=
      [chatMessage (.str "system") (.str (chatSystemPrompt sampleText []
          (chatMoversFrom samplePrices sampleRandom 0 (STOCKS.take 6)) chatCryptoContext)),
        chatMessage (.str "user") (.str "Is the NYSE open?")]
    model := "llama-3.3-70b-versatile"
    temperature := 3 / 10
    json_object := false
    max_tokens := 800 }

/-! ## How a call unfolds -/

theorem freshHit_eq_some {cached : Option CacheEntry} {now : ℤ} {c : CacheEntry}
    (hc : cached = some c) (hage : now - c.ts < CACHE_TTL) : freshHit cached now = some c := by
  subst hc
  simp [freshHit, hage]

theorem freshHit_eq_none_of_stale {cached : Option CacheEntry} {now : ℤ} {c : CacheEntry}
    (hc : cached = some c) (hage : ¬ now - c.ts < CACHE_TTL) : freshHit cached now = none := by
  subst hc
  simp [freshHit, hage]

theorem freshHit_none (now : ℤ) : freshHit none now = none := rfl

theorem freshHit_some_iff {cached : Option CacheEntry} {now : ℤ} {c : CacheEntry} :
    freshHit cached now = some c ↔ cached = some c ∧ now - c.ts < CACHE_TTL := by
  cases cached with
  | none => simp [freshHit]
  | some d =>
    by_cases h : now - d.ts < CACHE_TTL
    · simp only [freshHit, h, if_true, Option.some.injEq]
      constructor
      · intro hd
        subst hd
        exact ⟨rfl, h⟩
      · exact fun hd => hd.1
    · simp only [freshHit, h, if_false, Option.some.injEq]
      constructor
      · intro hd
        cases hd
      · rintro ⟨hd, hlt⟩
        subst hd
        exact absurd hlt h

/-- The first exit: a fresh entry is returned, nothing is requested, nothing is written. -/
theorem fetchYahooData_of_fresh (coerce : Coercion) (cache : Cache) (w : World)
    (symbol : String) {c : CacheEntry} (hf : freshHit (cache symbol) w.now = some c) :
    fetchYahooData coerce cache w symbol = .ok ⟨c.data, cache, []⟩ := by
  simp [fetchYahooData, hf, pure, Except.pure]

/-- The second exit: the live payload is stored and returned. -/
theorem fetchYahooData_of_live (coerce : Coercion) (cache : Cache) (w : World)
    (symbol : String) {p : Payload} (hf : freshHit (cache symbol) w.now = none)
    (hl : liveFetch coerce w = .ok p) :
    fetchYahooData coerce cache w symbol
      = .ok ⟨p, cache.set symbol ⟨p, w.now⟩, [symbol]⟩ := by
  simp [fetchYahooData, hf, tryBlock, hl, pure, Except.pure, bind, Except.bind]

/-- The third exit: the `catch` block answers and the cache is as it was. -/
theorem fetchYahooData_of_error (coerce : Coercion) (cache : Cache) (w : World)
    (symbol : String) {e : JSErr} (hf : freshHit (cache symbol) w.now = none)
    (hl : liveFetch coerce w = .error e) :
    fetchYahooData coerce cache w symbol
      = .ok (catchBlock cache (cache symbol) w symbol) := by
  simp [fetchYahooData, hf, tryBlock, hl, pure, Except.pure, bind, Except.bind]

theorem liveFetch_worldDown : liveFetch coerceNaN worldDown = .error .axiosError := rfl

theorem liveFetch_worldNoData : liveFetch coerceNaN worldNoData = .error .noData := rfl

theorem cacheWith_get (ts : ℤ) : cacheWith ts "^GSPC" = some ⟨storedPayload, ts⟩ := by
  simp [cacheWith, Cache.set]

/-! ## The fallback chain -/

/-- C1: when the upstream call fails (the request is rejected or the response makes the
`try` block throw) and the cache has no entry for the symbol, the call returns the simulated
payload and the cache still has no entry for the symbol afterwards. -/
theorem synthetic_payload_not_cached (coerce : Coercion) (cache : Cache) (w : World)
    (symbol : String) (e : JSErr) (hfail : liveFetch coerce w = .error e)
    (hnone : cache symbol = none) :
    ∃ out, fetchYahooData coerce cache w symbol = .ok out ∧ out.value = synthetic w
      ∧ out.cache symbol = none ∧ out.cache = cache := by
  have hf : freshHit (cache symbol) w.now = none := by rw [hnone]; rfl
  refine ⟨_, fetchYahooData_of_error coerce cache w symbol hf hfail, ?_, ?_, ?_⟩
  · simp [catchBlock, hnone]
  · simp [catchBlock, hnone]
  · simp [catchBlock, hnone]

theorem synthetic_payload_not_cached_witness :
    liveFetch coerceNaN worldNoData = .error .noData ∧ emptyCache "^GSPC" = none
      ∧ ∃ out, fetchYahooData coerceNaN emptyCache worldNoData "^GSPC" = .ok out
          ∧ out.value = synthetic worldNoData ∧ out.cache "^GSPC" = none
          ∧ out.cache = emptyCache :=
  ⟨liveFetch_worldNoData, rfl,
    synthetic_payload_not_cached coerceNaN emptyCache worldNoData "^GSPC" .noData
      liveFetch_worldNoData rfl⟩

/-- C2: when the cache holds an entry for the symbol, fresh or stale, and the upstream call
fails, the call returns the payload of that entry, and leaves the cache as it was. -/
theorem cached_payload_on_failure (coerce : Coercion) (cache : Cache) (w : World)
    (symbol : String) (c : CacheEntry) (e : JSErr) (hc : cache symbol = some c)
    (hfail : liveFetch coerce w = .error e) :
    ∃ out, fetchYahooData coerce cache w symbol = .ok out ∧ out.value = c.data
      ∧ out.cache = cache := by
  by_cases hage : w.now - c.ts < CACHE_TTL
  · exact ⟨_, fetchYahooData_of_fresh coerce cache w symbol (freshHit_eq_some hc hage),
      rfl, rfl⟩
  · refine ⟨_, fetchYahooData_of_error coerce cache w symbol
      (freshHit_eq_none_of_stale hc hage) hfail, ?_, ?_⟩
    · simp [catchBlock, hc]
    · simp [catchBlock, hc]

theorem cached_payload_on_failure_witness :
    cacheWith 0 "^GSPC" = some ⟨storedPayload, 0⟩
      ∧ liveFetch coerceNaN worldDown = .error .axiosError
      ∧ ∃ out, fetchYahooData coerceNaN (cacheWith 0) worldDown "^GSPC" = .ok out
          ∧ out.value = (⟨storedPayload, 0⟩ : CacheEntry).data ∧ out.cache = cacheWith 0 :=
  ⟨cacheWith_get 0, liveFetch_worldDown,
    cached_payload_on_failure coerceNaN (cacheWith 0) worldDown "^GSPC" ⟨storedPayload, 0⟩
      .axiosError (cacheWith_get 0) liveFetch_worldDown⟩

/-- C3: when the cache holds an entry for the symbol whose age `now - ts` is below
`CACHE_TTL`, the call returns the payload of that entry, calls `axios.get` for nothing, and
leaves the cache as it was; this for every settlement the upstream would have had. -/
theorem fresh_hit_skips_upstream (coerce : Coercion) (cache : Cache) (w : World)
    (symbol : String) (c : CacheEntry) (hc : cache symbol = some c)
    (hage : w.now - c.ts < CACHE_TTL) :
    fetchYahooData coerce cache w symbol = .ok ⟨c.data, cache, []⟩ :=
  fetchYahooData_of_fresh coerce cache w symbol (freshHit_eq_some hc hage)

theorem fresh_hit_skips_upstream_witness :
    cacheWith 400000 "^GSPC" = some ⟨storedPayload, 400000⟩
      ∧ worldDown.now - (⟨storedPayload, 400000⟩ : CacheEntry).ts < CACHE_TTL
      ∧ fetchYahooData coerceNaN (cacheWith 400000) worldDown "^GSPC"
          = .ok ⟨(⟨storedPayload, 400000⟩ : CacheEntry).data, cacheWith 400000, []⟩ :=
  ⟨cacheWith_get 400000, by decide,
    fresh_hit_skips_upstream coerceNaN (cacheWith 400000) worldDown "^GSPC"
      ⟨storedPayload, 400000⟩ (cacheWith_get 400000) (by decide)⟩

/-- C4: the promise of `fetchYahooData` never rejects: for every symbol, every cache, every
time, every random draw and every settlement of the request (a rejection, or a body of any
shape and any field types) the call returns a payload. -/
theorem fetchYahooData_never_raises (coerce : Coercion) (cache : Cache) (w : World)
    (symbol : String) : ∃ out, fetchYahooData coerce cache w symbol = .ok out := by
  cases hf : freshHit (cache symbol) w.now with
  | some c => exact ⟨_, fetchYahooData_of_fresh coerce cache w symbol hf⟩
  | none =>
    cases hl : liveFetch coerce w with
    | ok p => exact ⟨_, fetchYahooData_of_live coerce cache w symbol hf hl⟩
    | error e => exact ⟨_, fetchYahooData_of_error coerce cache w symbol hf hl⟩

/-! ## The shape of a payload -/

theorem toObject_keys (p : Payload) :
    p.toObject.map Prod.fst = ["index_value", "percentage_change", "initial_sentiment",
      "initial_heat", "sparkline", "previous_close"] := rfl

theorem toObject_source (p : Payload) : lookup "source" p.toObject = .undefined := by
  simp [Payload.toObject, lookup]

/-- C5, as stated, fails: the payload returned when the request is rejected and nothing is
cached has no `source` property, so it carries none of the tags `live`, `stale`,
`synthetic`. -/
theorem source_tag_counterexample :
    ∃ out, fetchYahooData coerceNaN emptyCache worldDown "^GSPC" = .ok out
      ∧ out.value = synthetic worldDown
      ∧ lookup "source" out.value.toObject = .undefined
      ∧ ¬ ∃ tag, tag ∈ sourceTags ∧ lookup "source" out.value.toObject = .str tag := by
  refine ⟨_, fetchYahooData_of_error coerceNaN emptyCache worldDown "^GSPC" rfl
    liveFetch_worldDown, rfl, toObject_source _, ?_⟩
  rintro ⟨tag, -, h⟩
  rw [toObject_source] at h
  cases h

/-- C5, amended: every call of `fetchYahooData` returns a payload whose properties are
exactly `index_value`, `percentage_change`, `initial_sentiment`, `initial_heat`, `sparkline`
and `previous_close`; it has no `source` property, whichever exit produced it. -/
theorem payload_has_no_source_tag (coerce : Coercion) (cache : Cache) (w : World)
    (symbol : String) :
    ∃ out, fetchYahooData coerce cache w symbol = .ok out
      ∧ out.value.toObject.map Prod.fst = ["index_value", "percentage_change",
          "initial_sentiment", "initial_heat", "sparkline", "previous_close"]
      ∧ lookup "source" out.value.toObject = .undefined := by
  cases hf : freshHit (cache symbol) w.now with
  | some c =>
    exact ⟨_, fetchYahooData_of_fresh coerce cache w symbol hf, toObject_keys _,
      toObject_source _⟩
  | none =>
    cases hl : liveFetch coerce w with
    | ok p =>
      exact ⟨_, fetchYahooData_of_live coerce cache w symbol hf hl, toObject_keys _,
        toObject_source _⟩
    | error e =>
      exact ⟨_, fetchYahooData_of_error coerce cache w symbol hf hl, toObject_keys _,
        toObject_source _⟩

/-! ## Rounding to two decimals -/

theorem toNat_floor_cast {x : ℚ} (hx : 0 ≤ x) : ((⌊x⌋.toNat : ℕ) : ℚ) = ((⌊x⌋ : ℤ) : ℚ) := by
  have h : ((⌊x⌋.toNat : ℕ) : ℤ) = ⌊x⌋ := Int.toNat_of_nonneg (Int.floor_nonneg.2 hx)
  exact_mod_cast congrArg (fun z : ℤ => (z : ℚ)) h

theorem parseFloat_toFixed_of_neg {x : ℚ} (hx : x < 0) :
    parseFloat (toFixed x) = -(((⌊(-x) * 100 + 1 / 2⌋ : ℤ) : ℚ) / 100) := by
  have h0 : (0 : ℚ) ≤ (-x) * 100 + 1 / 2 := by linarith
  simp only [parseFloat, toFixed, hx, if_true]
  rw [toNat_floor_cast h0]

theorem parseFloat_toFixed_of_nonneg {x : ℚ} (hx : ¬ x < 0) :
    parseFloat (toFixed x) = ((⌊x * 100 + 1 / 2⌋ : ℤ) : ℚ) / 100 := by
  have h0 : (0 : ℚ) ≤ x * 100 + 1 / 2 := by linarith [not_lt.1 hx]
  simp only [parseFloat, toFixed, hx, if_false, Bool.false_eq_true]
  rw [toNat_floor_cast h0]

/-- The value read back from `toFixed` is a whole number of hundredths. -/
theorem parseFloat_toFixed_hundredths (x : ℚ) :
    ∃ k : ℤ, parseFloat (toFixed x) = (k : ℚ) / 100 := by
  by_cases hx : x < 0
  · refine ⟨-⌊(-x) * 100 + 1 / 2⌋, ?_⟩
    rw [parseFloat_toFixed_of_neg hx]
    push_cast
    ring
  · exact ⟨⌊x * 100 + 1 / 2⌋, parseFloat_toFixed_of_nonneg hx⟩

/-- The value read back from `toFixed` is within half a hundredth of the argument. -/
theorem parseFloat_toFixed_close (x : ℚ) : |parseFloat (toFixed x) - x| ≤ 1 / 200 := by
  by_cases hx : x < 0
  · rw [parseFloat_toFixed_of_neg hx, abs_le]
    have h1 := Int.floor_le ((-x) * 100 + 1 / 2)
    have h2 := Int.lt_floor_add_one ((-x) * 100 + 1 / 2)
    constructor <;> linarith
  · rw [parseFloat_toFixed_of_nonneg hx, abs_le]
    have h1 := Int.floor_le (x * 100 + 1 / 2)
    have h2 := Int.lt_floor_add_one (x * 100 + 1 / 2)
    constructor <;> linarith

/-! ## Rounding to the nearest double -/

theorem floor_le_roundHalfEven (x : ℚ) : ⌊x⌋ ≤ roundHalfEven x := by
  unfold roundHalfEven
  split_ifs <;> omega

theorem roundHalfEven_le_floor_succ (x : ℚ) : roundHalfEven x ≤ ⌊x⌋ + 1 := by
  unfold roundHalfEven
  split_ifs <;> omega

theorem roundHalfEven_of_lt_half {x : ℚ} (h : x - ⌊x⌋ < 1 / 2) : roundHalfEven x = ⌊x⌋ := by
  unfold roundHalfEven
  rw [if_pos h]

theorem roundHalfEven_of_half_lt {x : ℚ} (h : 1 / 2 < x - ⌊x⌋) :
    roundHalfEven x = ⌊x⌋ + 1 := by
  unfold roundHalfEven
  have h2 : ¬ x - ⌊x⌋ < 1 / 2 := by linarith
  rw [if_neg h2, if_pos h]

theorem le_roundHalfEven {n : ℤ} {x : ℚ} (h : (n : ℚ) ≤ x) : n ≤ roundHalfEven x :=
  le_trans (Int.le_floor.2 h) (floor_le_roundHalfEven x)

theorem roundHalfEven_le_of_lt {n : ℤ} {x : ℚ} (h : x < (n : ℚ) + 1 / 2) :
    roundHalfEven x ≤ n := by
  by_cases hf : ⌊x⌋ < n
  · have := roundHalfEven_le_floor_succ x
    omega
  · have hn : n ≤ ⌊x⌋ := not_lt.1 hf
    have h1 : (n : ℚ) ≤ (⌊x⌋ : ℚ) := by exact_mod_cast hn
    have h2 : x - ⌊x⌋ < 1 / 2 := by linarith
    rw [roundHalfEven_of_lt_half h2]
    have h3 : (⌊x⌋ : ℚ) ≤ x := Int.floor_le x
    have h4 : (⌊x⌋ : ℚ) < (n : ℚ) + 1 := by linarith
    have h5 : ⌊x⌋ < n + 1 := by exact_mod_cast h4
    omega

theorem roundHalfEven_le {n : ℤ} {x : ℚ} (h : x ≤ (n : ℚ)) : roundHalfEven x ≤ n :=
  roundHalfEven_le_of_lt (by linarith)

theorem lt_roundHalfEven_succ {n : ℤ} {x : ℚ} (h : (n : ℚ) - 1 / 2 < x) :
    n ≤ roundHalfEven x := by
  by_cases hf : n ≤ ⌊x⌋
  · exact le_trans hf (floor_le_roundHalfEven x)
  · have hn : ⌊x⌋ + 1 ≤ n := by omega
    have h1 : ((⌊x⌋ : ℚ) + 1) ≤ (n : ℚ) := by exact_mod_cast hn
    have h2 : 1 / 2 < x - ⌊x⌋ := by linarith
    rw [roundHalfEven_of_half_lt h2]
    have h3 : x < (⌊x⌋ : ℚ) + 1 := Int.lt_floor_add_one x
    have h4 : (n : ℚ) < (⌊x⌋ : ℚ) + 2 := by linarith
    have h5 : n < ⌊x⌋ + 2 := by exact_mod_cast h4
    omega

theorem roundHalfEven_eq_of_near {n : ℤ} {x : ℚ} (h1 : (n : ℚ) - 1 / 2 < x)
    (h2 : x < (n : ℚ) + 1 / 2) : roundHalfEven x = n :=
  le_antisymm (roundHalfEven_le_of_lt h2) (lt_roundHalfEven_succ h1)

theorem two_zpow_pos (e : ℤ) : (0 : ℚ) < (2 : ℚ) ^ e := zpow_pos (by norm_num) e

theorem log_two_eq {x : ℚ} {e : ℤ} (hlo : (2 : ℚ) ^ e ≤ x) (hhi : x < (2 : ℚ) ^ (e + 1)) :
    Int.log 2 x = e := by
  have hx : 0 < x := lt_of_lt_of_le (two_zpow_pos e) hlo
  have h1 : e ≤ Int.log 2 x := by
    rw [← Int.zpow_le_iff_le_log (by norm_num) hx]
    simpa using hlo
  have h2 : Int.log 2 x < e + 1 := by
    rw [← Int.lt_zpow_iff_log_lt (by norm_num) hx]
    simpa using hhi
  omega

theorem two_zpow_log_le {x : ℚ} (hx : 0 < x) : (2 : ℚ) ^ Int.log 2 x ≤ x := by
  simpa using @Int.zpow_log_le_self ℚ _ _ 2 x (by norm_num) hx

theorem lt_two_zpow_log_succ (x : ℚ) : x < (2 : ℚ) ^ (Int.log 2 x + 1) := by
  simpa using @Int.lt_zpow_succ_log_self ℚ _ _ 2 (by norm_num) x

theorem binadeExp_eq {x : ℚ} {e : ℤ} (he : -1022 ≤ e) (hlo : (2 : ℚ) ^ e ≤ |x|)
    (hhi : |x| < (2 : ℚ) ^ (e + 1)) : binadeExp x = e := by
  unfold binadeExp
  rw [log_two_eq hlo hhi]
  exact max_eq_left he

theorem ulp_pos (x : ℚ) : 0 < ulp x := two_zpow_pos _

theorem fl_eq_of_near (x : ℚ) (e n : ℤ) (he : -1022 ≤ e) (hlo : (2 : ℚ) ^ e ≤ |x|)
    (hhi : |x| < (2 : ℚ) ^ (e + 1)) (h1 : (n : ℚ) - 1 / 2 < x / (2 : ℚ) ^ (e - 52))
    (h2 : x / (2 : ℚ) ^ (e - 52) < (n : ℚ) + 1 / 2) : fl x = (n : ℚ) * (2 : ℚ) ^ (e - 52) := by
  unfold fl ulp
  rw [binadeExp_eq he hlo hhi, roundHalfEven_eq_of_near h1 h2]

theorem fl_zero : fl 0 = 0 := by
  unfold fl
  simp [roundHalfEven]

theorem fl_nonneg {x : ℚ} (hx : 0 ≤ x) : 0 ≤ fl x := by
  unfold fl
  have h : (0 : ℚ) ≤ x / ulp x := div_nonneg hx (le_of_lt (ulp_pos x))
  have h2 : (0 : ℤ) ≤ roundHalfEven (x / ulp x) := le_roundHalfEven (by simpa using h)
  have h3 : (0 : ℚ) ≤ (roundHalfEven (x / ulp x) : ℚ) := by exact_mod_cast h2
  exact mul_nonneg h3 (le_of_lt (ulp_pos x))

theorem binadeExp_mono {a b : ℚ} (ha : 0 < a) (hab : a ≤ b) : binadeExp a ≤ binadeExp b := by
  unfold binadeExp
  have hb : 0 < b := lt_of_lt_of_le ha hab
  rw [abs_of_pos ha, abs_of_pos hb]
  exact max_le_max (Int.log_mono_right ha hab) le_rfl

/-- On the grid of its own binade a double is an integer. -/
theorem fl_fixed_int {a : ℚ} (ha : fl a = a) :
    ((roundHalfEven (a / ulp a) : ℤ) : ℚ) = a / ulp a := by
  have hu := ulp_pos a
  unfold fl at ha
  field_simp
  exact ha

theorem two_zpow_le_of_binadeExp_lt {a x : ℚ} (ha : 0 < a) (hx : 0 < x)
    (h : binadeExp a < binadeExp x) :
    a < (2 : ℚ) ^ binadeExp x ∧ (2 : ℚ) ^ binadeExp x ≤ x := by
  unfold binadeExp at h ⊢
  rw [abs_of_pos ha] at h
  rw [abs_of_pos hx] at h ⊢
  have hlog : Int.log 2 a < Int.log 2 x := by
    rcases le_total (Int.log 2 x) (-1022) with h1 | h1
    · rw [max_eq_right h1] at h
      have := le_max_right (Int.log 2 a) (-1022)
      omega
    · rw [max_eq_left h1] at h
      exact lt_of_le_of_lt (le_max_left _ _) h
  have hge : -1022 ≤ Int.log 2 x := by
    by_contra hc
    have h1 : Int.log 2 x ≤ -1022 := by omega
    rw [max_eq_right h1] at h
    have := le_max_right (Int.log 2 a) (-1022)
    omega
  rw [max_eq_left hge]
  refine ⟨?_, two_zpow_log_le hx⟩
  have h1 := lt_two_zpow_log_succ a
  have h2 : (2 : ℚ) ^ (Int.log 2 a + 1) ≤ (2 : ℚ) ^ Int.log 2 x :=
    zpow_le_zpow_right₀ (by norm_num) (by omega)
  linarith

theorem le_fl_of_le {a x : ℚ} (ha : 0 < a) (hax : a ≤ x) (hfa : fl a = a) : a ≤ fl x := by
  have hx : 0 < x := lt_of_lt_of_le ha hax
  have hu := ulp_pos x
  rcases lt_or_eq_of_le (binadeExp_mono ha hax) with hlt | heq
  · obtain ⟨h1, h2⟩ := two_zpow_le_of_binadeExp_lt ha hx hlt
    have h3 : ((2 : ℤ) ^ 52 : ℤ) ≤ roundHalfEven (x / ulp x) := by
      apply le_roundHalfEven
      rw [le_div_iff₀ hu]
      unfold ulp
      have : ((2 : ℤ) ^ 52 : ℤ) = ((2 : ℚ) ^ (52 : ℤ)) := by norm_num
      rw [this, ← zpow_add₀ (by norm_num : (2 : ℚ) ≠ 0)]
      simpa using h2
    have h4 : (((2 : ℤ) ^ 52 : ℤ) : ℚ) ≤ (roundHalfEven (x / ulp x) : ℚ) := by exact_mod_cast h3
    have h5 : (((2 : ℤ) ^ 52 : ℤ) : ℚ) * ulp x = (2 : ℚ) ^ binadeExp x := by
      unfold ulp
      have : (((2 : ℤ) ^ 52 : ℤ) : ℚ) = ((2 : ℚ) ^ (52 : ℤ)) := by norm_num
      rw [this, ← zpow_add₀ (by norm_num : (2 : ℚ) ≠ 0)]
      simp
    unfold fl
    have h6 := mul_le_mul_of_nonneg_right h4 (le_of_lt hu)
    rw [h5] at h6
    linarith
  · have hua : ulp a = ulp x := by unfold ulp; rw [heq]
    have hint := fl_fixed_int hfa
    rw [hua] at hint
    have h1 : roundHalfEven (a / ulp x) ≤ roundHalfEven (x / ulp x) := by
      apply le_roundHalfEven
      rw [hint]
      exact div_le_div_of_nonneg_right hax (le_of_lt hu)
    have h2 : ((roundHalfEven (a / ulp x) : ℤ) : ℚ) ≤ (roundHalfEven (x / ulp x) : ℚ) := by
      exact_mod_cast h1
    unfold fl
    have h3 := mul_le_mul_of_nonneg_right h2 (le_of_lt hu)
    rw [hint] at h3
    have h4 : a / ulp x * ulp x = a := by field_simp
    linarith

theorem fl_le_of_le {x b : ℚ} (hx : 0 < x) (hxb : x ≤ b) (hfb : fl b = b) : fl x ≤ b := by
  have hb : 0 < b := lt_of_lt_of_le hx hxb
  have hu := ulp_pos x
  rcases lt_or_eq_of_le (binadeExp_mono hx hxb) with hlt | heq
  · obtain ⟨h1, h2⟩ := two_zpow_le_of_binadeExp_lt hx hb hlt
    -- x < 2 ^ (binadeExp x + 1) ≤ 2 ^ binadeExp b ≤ b
    have hlog : x < (2 : ℚ) ^ (binadeExp x + 1) := by
      have h3 := lt_two_zpow_log_succ x
      have h4 : (2 : ℚ) ^ (Int.log 2 x + 1) ≤ (2 : ℚ) ^ (binadeExp x + 1) := by
        apply zpow_le_zpow_right₀ (by norm_num)
        unfold binadeExp
        rw [abs_of_pos hx]
        have := le_max_left (Int.log 2 x) (-1022)
        omega
      linarith
    have h3 : roundHalfEven (x / ulp x) ≤ ((2 : ℤ) ^ 53 : ℤ) := by
      apply roundHalfEven_le
      rw [div_le_iff₀ hu]
      unfold ulp
      have : (((2 : ℤ) ^ 53 : ℤ) : ℚ) = ((2 : ℚ) ^ (53 : ℤ)) := by norm_num
      rw [this, ← zpow_add₀ (by norm_num : (2 : ℚ) ≠ 0)]
      have : (53 : ℤ) + (binadeExp x - 52) = binadeExp x + 1 := by ring
      rw [this]
      exact le_of_lt hlog
    have h4 : (roundHalfEven (x / ulp x) : ℚ) ≤ (((2 : ℤ) ^ 53 : ℤ) : ℚ) := by exact_mod_cast h3
    have h5 : (((2 : ℤ) ^ 53 : ℤ) : ℚ) * ulp x = (2 : ℚ) ^ (binadeExp x + 1) := by
      unfold ulp
      have : (((2 : ℤ) ^ 53 : ℤ) : ℚ) = ((2 : ℚ) ^ (53 : ℤ)) := by norm_num
      rw [this, ← zpow_add₀ (by norm_num : (2 : ℚ) ≠ 0)]
      congr 1
      ring
    have h6 : (2 : ℚ) ^ (binadeExp x + 1) ≤ (2 : ℚ) ^ binadeExp b :=
      zpow_le_zpow_right₀ (by norm_num) (by omega)
    unfold fl
    have h7 := mul_le_mul_of_nonneg_right h4 (le_of_lt hu)
    rw [h5] at h7
    linarith
  · have hub : ulp b = ulp x := by unfold ulp; rw [heq]
    have hint := fl_fixed_int hfb
    rw [hub] at hint
    have h1 : roundHalfEven (x / ulp x) ≤ roundHalfEven (b / ulp x) := by
      apply roundHalfEven_le
      rw [hint]
      exact div_le_div_of_nonneg_right hxb (le_of_lt hu)
    have h2 : (roundHalfEven (x / ulp x) : ℚ) ≤ ((roundHalfEven (b / ulp x) : ℤ) : ℚ) := by
      exact_mod_cast h1
    unfold fl
    have h3 := mul_le_mul_of_nonneg_right h2 (le_of_lt hu)
    rw [hint] at h3
    have h4 : b / ulp x * ulp x = b := by field_simp
    linarith

theorem fl_eq_self_of {x : ℚ} (e n : ℤ) (he : -1022 ≤ e) (hlo : (2 : ℚ) ^ e ≤ |x|)
    (hhi : |x| < (2 : ℚ) ^ (e + 1)) (hn : x = (n : ℚ) * (2 : ℚ) ^ (e - 52)) : fl x = x := by
  have hp := two_zpow_pos (e - 52)
  have hq : x / (2 : ℚ) ^ (e - 52) = (n : ℚ) := by
    rw [hn]
    field_simp
  rw [fl_eq_of_near x e n he hlo hhi (by rw [hq]; linarith) (by rw [hq]; linarith), ← hn]

theorem fl_one : fl 1 = 1 :=
  fl_eq_self_of (0) (4503599627370496) (by norm_num) (by rw [abs_of_pos (by norm_num)]; norm_num)
    (by rw [abs_of_pos (by norm_num)]; norm_num) (by norm_num)

theorem fl_two : fl 2 = 2 :=
  fl_eq_self_of (1) (4503599627370496) (by norm_num) (by rw [abs_of_pos (by norm_num)]; norm_num)
    (by rw [abs_of_pos (by norm_num)]; norm_num) (by norm_num)

theorem fl_10 : fl 10 = 10 :=
  fl_eq_self_of (3) (5629499534213120) (by norm_num) (by rw [abs_of_pos (by norm_num)]; norm_num)
    (by rw [abs_of_pos (by norm_num)]; norm_num) (by norm_num)

theorem fl_16 : fl 16 = 16 :=
  fl_eq_self_of (4) (4503599627370496) (by norm_num) (by rw [abs_of_pos (by norm_num)]; norm_num)
    (by rw [abs_of_pos (by norm_num)]; norm_num) (by norm_num)

theorem fl_20 : fl 20 = 20 :=
  fl_eq_self_of (4) (5629499534213120) (by norm_num) (by rw [abs_of_pos (by norm_num)]; norm_num)
    (by rw [abs_of_pos (by norm_num)]; norm_num) (by norm_num)

theorem fl_40 : fl 40 = 40 :=
  fl_eq_self_of (5) (5629499534213120) (by norm_num) (by rw [abs_of_pos (by norm_num)]; norm_num)
    (by rw [abs_of_pos (by norm_num)]; norm_num) (by norm_num)

theorem fl_60 : fl 60 = 60 :=
  fl_eq_self_of (5) (8444249301319680) (by norm_num) (by rw [abs_of_pos (by norm_num)]; norm_num)
    (by rw [abs_of_pos (by norm_num)]; norm_num) (by norm_num)

theorem fl_80 : fl 80 = 80 :=
  fl_eq_self_of (6) (5629499534213120) (by norm_num) (by rw [abs_of_pos (by norm_num)]; norm_num)
    (by rw [abs_of_pos (by norm_num)]; norm_num) (by norm_num)

theorem fl_90 : fl 90 = 90 :=
  fl_eq_self_of (6) (6333186975989760) (by norm_num) (by rw [abs_of_pos (by norm_num)]; norm_num)
    (by rw [abs_of_pos (by norm_num)]; norm_num) (by norm_num)

theorem fl_100 : fl 100 = 100 :=
  fl_eq_self_of (6) (7036874417766400) (by norm_num) (by rw [abs_of_pos (by norm_num)]; norm_num)
    (by rw [abs_of_pos (by norm_num)]; norm_num) (by norm_num)

theorem fl_201 : fl 201 = 201 :=
  fl_eq_self_of (7) (7072058789855232) (by norm_num) (by rw [abs_of_pos (by norm_num)]; norm_num)
    (by rw [abs_of_pos (by norm_num)]; norm_num) (by norm_num)

theorem fl_half : fl (1 / 2) = 1 / 2 :=
  fl_eq_self_of (-1) (4503599627370496) (by norm_num) (by rw [abs_of_pos (by norm_num)]; norm_num)
    (by rw [abs_of_pos (by norm_num)]; norm_num) (by norm_num)

theorem fl_sample_quotient : fl (2 / 100) = 5764607523034235 / 288230376151711744 := by
  have h : fl (2 / 100) = (((5764607523034235 : ℤ) : ℚ)) * (2 : ℚ) ^ ((-6 : ℤ) - 52) :=
    fl_eq_of_near _ (-6) (5764607523034235) (by norm_num)
      (by rw [abs_of_pos (by norm_num)]; norm_num)
      (by rw [abs_of_pos (by norm_num)]; norm_num) (by norm_num) (by norm_num)
  rw [h]
  norm_num

theorem fl_sample_percent : fl (5764607523034235 / 288230376151711744 * 100) = 2 := by
  have h : fl (5764607523034235 / 288230376151711744 * 100)
      = (((4503599627370496 : ℤ) : ℚ)) * (2 : ℚ) ^ ((1 : ℤ) - 52) :=
    fl_eq_of_near _ (1) (4503599627370496) (by norm_num)
      (by rw [abs_of_pos (by norm_num)]; norm_num)
      (by rw [abs_of_pos (by norm_num)]; norm_num) (by norm_num) (by norm_num)
  rw [h]
  norm_num

theorem fl_tie_quotient : fl (201 / 20000) = 2896715280324703 / 288230376151711744 := by
  have h : fl (201 / 20000) = (((5793430560649406 : ℤ) : ℚ)) * (2 : ℚ) ^ ((-7 : ℤ) - 52) :=
    fl_eq_of_near _ (-7) (5793430560649406) (by norm_num)
      (by rw [abs_of_pos (by norm_num)]; norm_num)
      (by rw [abs_of_pos (by norm_num)]; norm_num) (by norm_num) (by norm_num)
  rw [h]
  norm_num

theorem fl_tie_percent :
    fl (2896715280324703 / 288230376151711744 * 100)
      = 1131529406376837 / 1125899906842624 := by
  have h : fl (2896715280324703 / 288230376151711744 * 100)
      = (((4526117625507348 : ℤ) : ℚ)) * (2 : ℚ) ^ ((0 : ℤ) - 52) :=
    fl_eq_of_near _ (0) (4526117625507348) (by norm_num)
      (by rw [abs_of_pos (by norm_num)]; norm_num)
      (by rw [abs_of_pos (by norm_num)]; norm_num) (by norm_num) (by norm_num)
  rw [h]
  norm_num

theorem fl_far_difference :
    fl (89677927580015 / 1125899906842624)
      = 89677927580015 / 1125899906842624 :=
  fl_eq_self_of (-4) (5739387365120960) (by norm_num) (by rw [abs_of_pos (by norm_num)]; norm_num)
    (by rw [abs_of_pos (by norm_num)]; norm_num) (by norm_num)

theorem fl_far_quotient :
    fl (89677927580015 / 1125899906842624 / 3)
      = 7652516486827947 / 288230376151711744 := by
  have h : fl (89677927580015 / 1125899906842624 / 3)
      = (((7652516486827947 : ℤ) : ℚ)) * (2 : ℚ) ^ ((-6 : ℤ) - 52) :=
    fl_eq_of_near _ (-6) (7652516486827947) (by norm_num)
      (by rw [abs_of_pos (by norm_num)]; norm_num)
      (by rw [abs_of_pos (by norm_num)]; norm_num) (by norm_num) (by norm_num)
  rw [h]
  norm_num

theorem fl_far_percent :
    fl (7652516486827947 / 288230376151711744 * 100)
      = 2989264252667167 / 1125899906842624 := by
  have h : fl (7652516486827947 / 288230376151711744 * 100)
      = (((5978528505334334 : ℤ) : ℚ)) * (2 : ℚ) ^ ((1 : ℤ) - 52) :=
    fl_eq_of_near _ (1) (5978528505334334) (by norm_num)
      (by rw [abs_of_pos (by norm_num)]; norm_num)
      (by rw [abs_of_pos (by norm_num)]; norm_num) (by norm_num) (by norm_num)
  rw [h]
  norm_num

theorem fl_far_parsed : fl (266 / 100) = 748723438050345 / 281474976710656 := by
  have h : fl (266 / 100) = (((5989787504402760 : ℤ) : ℚ)) * (2 : ℚ) ^ ((1 : ℤ) - 52) :=
    fl_eq_of_near _ (1) (5989787504402760) (by norm_num)
      (by rw [abs_of_pos (by norm_num)]; norm_num)
      (by rw [abs_of_pos (by norm_num)]; norm_num) (by norm_num) (by norm_num)
  rw [h]
  norm_num

theorem fl_edge_draw : fl (1 - 1 / 2 ^ 52) = 1 - 1 / 2 ^ 52 :=
  fl_eq_self_of (-1) (9007199254740990) (by norm_num) (by rw [abs_of_pos (by norm_num)]; norm_num)
    (by rw [abs_of_pos (by norm_num)]; norm_num) (by norm_num)

theorem fl_edge_product : fl ((1 - 1 / 2 ^ 52) * 20) = 5629499534213119 / 281474976710656 := by
  have h : fl ((1 - 1 / 2 ^ 52) * 20) = (((5629499534213119 : ℤ) : ℚ)) * (2 : ℚ) ^ ((4 : ℤ) - 52) :=
    fl_eq_of_near _ (4) (5629499534213119) (by norm_num)
      (by rw [abs_of_pos (by norm_num)]; norm_num)
      (by rw [abs_of_pos (by norm_num)]; norm_num) (by norm_num) (by norm_num)
  rw [h]
  norm_num

theorem fl_edge_sum : fl (80 + 5629499534213119 / 281474976710656) = 100 := by
  have h : fl (80 + 5629499534213119 / 281474976710656)
      = (((7036874417766400 : ℤ) : ℚ)) * (2 : ℚ) ^ ((6 : ℤ) - 52) :=
    fl_eq_of_near _ (6) (7036874417766400) (by norm_num)
      (by rw [abs_of_pos (by norm_num)]; norm_num)
      (by rw [abs_of_pos (by norm_num)]; norm_num) (by norm_num) (by norm_num)
  rw [h]
  norm_num

/-- A double below 1 is at most the greatest double below 1. -/
theorem le_pred_one {r : ℚ} (h1 : r < 1) (hr : fl r = r) : r ≤ 1 - 1 / 2 ^ 53 := by
  by_cases hh : r < 1 / 2
  · have : (1 : ℚ) / 2 ≤ 1 - 1 / 2 ^ 53 := by norm_num
    linarith
  · have hge : (1 : ℚ) / 2 ≤ r := not_lt.1 hh
    have h0 : 0 < r := by linarith
    have hb : binadeExp r = -1 :=
      binadeExp_eq (by norm_num) (by rw [abs_of_pos h0]; norm_num; linarith)
        (by rw [abs_of_pos h0]; norm_num; linarith)
    have hint := fl_fixed_int hr
    have hu : ulp r = 1 / 2 ^ 53 := by
      unfold ulp
      rw [hb]
      norm_num
    rw [hu] at hint
    have h2 : r / (1 / 2 ^ 53) < ((2 ^ 53 : ℤ) : ℚ) := by
      rw [div_lt_iff₀ (by norm_num)]
      norm_num
      linarith
    rw [← hint] at h2
    have h3 : roundHalfEven (r / (1 / 2 ^ 53)) < (2 ^ 53 : ℤ) := by exact_mod_cast h2
    have h4 : roundHalfEven (r / (1 / 2 ^ 53)) ≤ (2 ^ 53 : ℤ) - 1 := by omega
    have h5 : ((roundHalfEven (r / (1 / 2 ^ 53)) : ℤ) : ℚ) ≤ (((2 ^ 53 : ℤ) - 1 : ℤ) : ℚ) := by
      exact_mod_cast h4
    rw [hint] at h5
    rw [div_le_iff₀ (by norm_num)] at h5
    norm_num at h5
    linarith

/-- The product `Math.random() * 20` stays below 20 in doubles. -/
theorem fl_mul20_lt {r : ℚ} (h0 : 0 ≤ r) (h1 : r < 1) (hr : fl r = r) : fl (r * 20) < 20 := by
  have hle := le_pred_one h1 hr
  by_cases h16 : r * 20 < 16
  · rcases eq_or_lt_of_le h0 with hz | hpos
    · rw [← hz]
      norm_num [fl_zero]
    · have := fl_le_of_le (by linarith : 0 < r * 20) (le_of_lt h16) fl_16
      linarith
  · have hge : 16 ≤ r * 20 := not_lt.1 h16
    have hpos : 0 < r * 20 := by linarith
    have hb : binadeExp (r * 20) = 4 :=
      binadeExp_eq (by norm_num) (by rw [abs_of_pos hpos]; norm_num; linarith)
        (by rw [abs_of_pos hpos]; norm_num; linarith)
    have hu : ulp (r * 20) = 1 / 2 ^ 48 := by
      unfold ulp
      rw [hb]
      norm_num
    have h2 : roundHalfEven (r * 20 / ulp (r * 20)) ≤ (20 * 2 ^ 48 - 1 : ℤ) := by
      apply roundHalfEven_le_of_lt
      rw [hu, div_lt_iff₀ (by norm_num)]
      norm_num
      norm_num at hle
      linarith
    have h3 : (roundHalfEven (r * 20 / ulp (r * 20)) : ℚ) ≤ ((20 * 2 ^ 48 - 1 : ℤ) : ℚ) := by
      exact_mod_cast h2
    unfold fl
    have h4 := mul_le_mul_of_nonneg_right h3 (le_of_lt (ulp_pos (r * 20)))
    rw [hu] at h4 ⊢
    norm_num at h4 ⊢
    linarith

theorem fl_mul20_mem {r : ℚ} (h0 : 0 ≤ r) (h1 : r < 1) :
    0 ≤ fl (r * 20) ∧ fl (r * 20) ≤ 20 := by
  refine ⟨fl_nonneg (by linarith), ?_⟩
  rcases eq_or_lt_of_le h0 with hz | hpos
  · rw [← hz]
    norm_num [fl_zero]
  · exact fl_le_of_le (by linarith) (by linarith) fl_20

theorem fl_add_mem {a y : ℚ} (ha : 0 < a) (hfa : fl a = a) (hfb : fl (a + 20) = a + 20)
    (h0 : 0 ≤ y) (h1 : y ≤ 20) : a ≤ fl (a + y) ∧ fl (a + y) ≤ a + 20 :=
  ⟨le_fl_of_le ha (by linarith) hfa, fl_le_of_le (by linarith) (by linarith) hfb⟩

theorem roundHalfEven_close (y : ℚ) : |(roundHalfEven y : ℚ) - y| ≤ 1 / 2 := by
  have h1 := Int.floor_le y
  have h2 := Int.lt_floor_add_one y
  unfold roundHalfEven
  split_ifs <;> rw [abs_le] <;> push_cast <;> constructor <;> linarith

/-- A rounded value is within half a unit in the last place of the exact one. -/
theorem fl_close (x : ℚ) : |fl x - x| ≤ ulp x / 2 := by
  have hu := ulp_pos x
  have h := roundHalfEven_close (x / ulp x)
  have he : fl x - x = ((roundHalfEven (x / ulp x) : ℚ) - x / ulp x) * ulp x := by
    unfold fl
    field_simp
  rw [he, abs_mul, abs_of_pos hu]
  calc |(roundHalfEven (x / ulp x) : ℚ) - x / ulp x| * ulp x
      ≤ 1 / 2 * ulp x := mul_le_mul_of_nonneg_right h (le_of_lt hu)
    _ = ulp x / 2 := by ring

/-- Rounding without underflow has a relative error of at most `2 ^ (-53)`. -/
theorem fl_rel {x : ℚ} (h : noUnderflow x) : |fl x - x| ≤ |x| / 2 ^ 53 := by
  rcases h with h0 | hn
  · rw [h0, fl_zero]
    norm_num
  · have hpos : 0 < |x| := lt_of_lt_of_le (two_zpow_pos _) hn
    have hlog : -1022 ≤ Int.log 2 |x| := by
      rw [← Int.zpow_le_iff_le_log (by norm_num) hpos]
      simpa using hn
    have hb : binadeExp x = Int.log 2 |x| := max_eq_left hlog
    have h1 := fl_close x
    have h2 : ulp x / 2 ≤ |x| / 2 ^ 53 := by
      unfold ulp
      rw [hb]
      have h3 := two_zpow_log_le hpos
      have h4 : (2 : ℚ) ^ (Int.log 2 |x| - 52) = (2 : ℚ) ^ Int.log 2 |x| / 2 ^ 52 := by
        rw [zpow_sub₀ (by norm_num : (2 : ℚ) ≠ 0)]
        norm_num
      rw [h4]
      have h5 : (2 : ℚ) ^ Int.log 2 |x| / 2 ^ 52 / 2 = (2 : ℚ) ^ Int.log 2 |x| / 2 ^ 53 := by
        ring
      rw [h5]
      exact div_le_div_of_nonneg_right h3 (by norm_num)
    linarith

theorem abs_le_of_close {x y t : ℚ} (h : |x - y| ≤ t) : |x| ≤ |y| + t := by
  have := abs_add (x - y) y
  rw [sub_add_cancel] at this
  linarith

/-- The three roundings of `(c - q) / q * 100` move the result by a relative error of at most
`2 ^ (-51)`. -/
theorem percent_rel {c q : ℚ} (hq : 0 < q) (h1 : noUnderflow (c - q))
    (h2 : noUnderflow (fl (c - q) / q)) (h3 : noUnderflow (fl (fl (c - q) / q) * 100)) :
    |fl (fl (fl (c - q) / q) * 100) - (c - q) / q * 100| ≤ |(c - q) / q * 100| / 2 ^ 51 := by
  have e1 := fl_rel h1
  have e2 := fl_rel h2
  have e3 := fl_rel h3
  set a := c - q with ha
  set s := fl a with hs
  set d := fl (s / q) with hd
  set m := fl (d * 100) with hm
  -- the quotient
  have hb : |s / q - a / q| ≤ |a / q| / 2 ^ 53 := by
    have : s / q - a / q = (s - a) / q := by ring
    rw [this, abs_div, abs_div, abs_of_pos hq]
    have := div_le_div_of_nonneg_right e1 (le_of_lt hq)
    calc |s - a| / q ≤ |a| / 2 ^ 53 / q := this
      _ = |a| / q / 2 ^ 53 := by ring
  have hb2 := abs_le_of_close hb
  have hd1 : |d - a / q| ≤ |d - s / q| + |s / q - a / q| := abs_sub_le _ _ _
  have hd2 := abs_le_of_close e2
  have hX : |a / q * 100| = |a / q| * 100 := by
    rw [abs_mul]
    norm_num
  have hm1 : |m - a / q * 100| ≤ |m - d * 100| + |d * 100 - a / q * 100| := abs_sub_le _ _ _
  have hm2 : |d * 100 - a / q * 100| = |d - a / q| * 100 := by
    have : d * 100 - a / q * 100 = (d - a / q) * 100 := by ring
    rw [this, abs_mul]
    norm_num
  have hm3 : |d * 100| = |d| * 100 := by
    rw [abs_mul]
    norm_num
  have ht : 0 ≤ |a / q| := abs_nonneg _
  rw [hm3] at e3
  rw [hX]
  rw [hm2] at hm1
  have hsq : |s / q| / 2 ^ 53 ≤ (|a / q| + |a / q| / 2 ^ 53) / 2 ^ 53 :=
    div_le_div_of_nonneg_right hb2 (by norm_num)
  have hdd : |d| * 100 / 2 ^ 53 ≤ (|s / q| + |s / q| / 2 ^ 53) * 100 / 2 ^ 53 :=
    div_le_div_of_nonneg_right (mul_le_mul_of_nonneg_right hd2 (by norm_num)) (by norm_num)
  norm_num at e2 e3 hb hb2 hd2 hsq hdd ⊢
  linarith

theorem noUnderflow_hundredths (k : ℤ) : noUnderflow ((k : ℚ) / 100) := by
  by_cases hk : k = 0
  · left
    rw [hk]
    norm_num
  · right
    have h1 : (1 : ℤ) ≤ |k| := Int.one_le_abs hk
    have h2 : (1 : ℚ) ≤ |(k : ℚ)| := by exact_mod_cast h1
    rw [abs_div]
    have h3 : |(100 : ℚ)| = 100 := by norm_num
    rw [h3]
    have h4 : (2 : ℚ) ^ (-1022 : ℤ) ≤ 1 / 100 := by
      rw [zpow_neg, show (1022 : ℤ) = ((1022 : ℕ) : ℤ) by norm_num, zpow_natCast]
      rw [inv_eq_one_div]
      apply one_div_le_one_div_of_le (by norm_num)
      calc (100 : ℚ) ≤ 2 ^ 7 := by norm_num
        _ ≤ 2 ^ 1022 := pow_le_pow_right₀ (by norm_num) (by norm_num)
    have h5 : (1 : ℚ) / 100 ≤ |(k : ℚ)| / 100 := div_le_div_of_nonneg_right h2 (by norm_num)
    linarith

theorem change_error_bound {c q : ℚ} {k : ℤ} (hq : 0 < q) (h1 : noUnderflow (c - q))
    (h2 : noUnderflow (fl (c - q) / q)) (h3 : noUnderflow (fl (fl (c - q) / q) * 100))
    (hk : |(k : ℚ) / 100 - fl (fl (fl (c - q) / q) * 100)| ≤ 1 / 200) :
    |fl ((k : ℚ) / 100) - (c - q) / q * 100|
      ≤ 1 / 200 + (|(c - q) / q * 100| + 1) / 2 ^ 50 := by
  have e := percent_rel hq h1 h2 h3
  have e4 := fl_rel (noUnderflow_hundredths k)
  have t1 := abs_le_of_close hk
  have t2 := abs_le_of_close e
  have t3 : |fl ((k : ℚ) / 100) - (c - q) / q * 100|
      ≤ |fl ((k : ℚ) / 100) - (k : ℚ) / 100|
        + |(k : ℚ) / 100 - (c - q) / q * 100| := abs_sub_le _ _ _
  have t4 : |(k : ℚ) / 100 - (c - q) / q * 100|
      ≤ |(k : ℚ) / 100 - fl (fl (fl (c - q) / q) * 100)|
        + |fl (fl (fl (c - q) / q) * 100) - (c - q) / q * 100| := abs_sub_le _ _ _
  have hX : 0 ≤ |(c - q) / q * 100| := abs_nonneg _
  have t5 : |(k : ℚ) / 100| / 2 ^ 53
      ≤ (|fl (fl (fl (c - q) / q) * 100)| + 1 / 200) / 2 ^ 53 :=
    div_le_div_of_nonneg_right t1 (by norm_num)
  have t6 : |fl (fl (fl (c - q) / q) * 100)| / 2 ^ 53
      ≤ (|(c - q) / q * 100| + |(c - q) / q * 100| / 2 ^ 51) / 2 ^ 53 :=
    div_le_div_of_nonneg_right t2 (by norm_num)
  norm_num at e e4 t5 t6 ⊢
  linarith

theorem roundHalfEven_tie {n : ℤ} {x : ℚ} (hx : x = (n : ℚ) - 1 / 2) (hn : n % 2 = 0) :
    roundHalfEven x = n := by
  have hf : ⌊x⌋ = n - 1 := by
    rw [Int.floor_eq_iff]
    push_cast
    constructor <;> linarith
  have h1 : ¬ x - ((n - 1 : ℤ) : ℚ) < 1 / 2 := by push_cast; linarith
  have h2 : ¬ 1 / 2 < x - ((n - 1 : ℤ) : ℚ) := by push_cast; linarith
  have h3 : ¬ (n - 1) % 2 = 0 := by omega
  unfold roundHalfEven
  rw [hf, if_neg h1, if_neg h2, if_neg h3]
  ring

theorem fl_eq_of_tie (x : ℚ) (e n : ℤ) (he : -1022 ≤ e) (hlo : (2 : ℚ) ^ e ≤ |x|)
    (hhi : |x| < (2 : ℚ) ^ (e + 1)) (hx : x / (2 : ℚ) ^ (e - 52) = (n : ℚ) - 1 / 2)
    (hn : n % 2 = 0) : fl x = (n : ℚ) * (2 : ℚ) ^ (e - 52) := by
  unfold fl ulp
  rw [binadeExp_eq he hlo hhi, roundHalfEven_tie hx hn]

theorem fl_edge_sum20 : fl (20 + 5629499534213119 / 281474976710656) = 40 := by
  have h : fl (20 + 5629499534213119 / 281474976710656)
      = (((5629499534213120 : ℤ) : ℚ)) * (2 : ℚ) ^ ((5 : ℤ) - 52) :=
    fl_eq_of_tie _ 5 5629499534213120 (by norm_num)
      (by rw [abs_of_pos (by norm_num)]; norm_num)
      (by rw [abs_of_pos (by norm_num)]; norm_num) (by norm_num) (by norm_num)
  rw [h]
  norm_num

theorem fl_edge_sum60 : fl (60 + 5629499534213119 / 281474976710656) = 80 := by
  have h : fl (60 + 5629499534213119 / 281474976710656)
      = (((5629499534213120 : ℤ) : ℚ)) * (2 : ℚ) ^ ((6 : ℤ) - 52) :=
    fl_eq_of_near _ (6) (5629499534213120) (by norm_num)
      (by rw [abs_of_pos (by norm_num)]; norm_num)
      (by rw [abs_of_pos (by norm_num)]; norm_num) (by norm_num) (by norm_num)
  rw [h]
  norm_num

theorem parseFloat_toFixed_eq {x y : ℚ} (k : ℤ) (hx : 0 ≤ x)
    (h1 : (k : ℚ) ≤ x * 100 + 1 / 2) (h2 : x * 100 + 1 / 2 < (k : ℚ) + 1)
    (hy : y = (k : ℚ) / 100) : parseFloat (toFixed x) = y := by
  have hk : ⌊x * 100 + 1 / 2⌋ = k := Int.floor_eq_iff.2 ⟨h1, h2⟩
  rw [parseFloat_toFixed_of_nonneg (not_lt.2 hx), hy, hk]

theorem fl_priceFar : fl priceFar = priceFar := by
  unfold priceFar
  exact fl_eq_self_of (1) (3467377648107887 * 2) (by norm_num)
    (by rw [abs_of_pos (by norm_num)]; norm_num)
    (by rw [abs_of_pos (by norm_num)]; norm_num) (by norm_num)

theorem percentDouble_sample : percentDouble 102 100 = 2 := by
  unfold percentDouble
  rw [show (102 : ℚ) - 100 = 2 by norm_num, fl_two, fl_sample_quotient, fl_sample_percent]

theorem percentDouble_tie : percentDouble 20201 20000 = 1131529406376837 / 1125899906842624 := by
  unfold percentDouble
  rw [show (20201 : ℚ) - 20000 = 201 by norm_num, fl_201, fl_tie_quotient, fl_tie_percent]

theorem percentDouble_far : percentDouble priceFar 3 = 2989264252667167 / 1125899906842624 := by
  unfold percentDouble priceFar
  rw [show (3467377648107887 / 2 ^ 50 : ℚ) - 3 = 89677927580015 / 1125899906842624 by norm_num,
    fl_far_difference, fl_far_quotient, fl_far_percent]

/-! ## The thresholds of lines 58-62 -/

theorem classify_bucket (p r : ℚ) :
    ((classify p r).1 = .positive ↔ 1 < p)
      ∧ ((classify p r).1 = .mild_positive ↔ 0 < p ∧ p ≤ 1)
      ∧ ((classify p r).1 = .neutral ↔ p = 0)
      ∧ ((classify p r).1 = .mild_negative ↔ -1 ≤ p ∧ p < 0)
      ∧ ((classify p r).1 = .negative ↔ p < -1) := by
  unfold classify
  split_ifs with h1 h2 h3 h4 <;> refine ⟨?_, ?_, ?_, ?_, ?_⟩ <;> simp <;>
    first | linarith | (intro _; linarith) | (constructor <;> linarith)

theorem floor_mem {y : ℚ} {a b : ℤ} (h1 : (a : ℚ) ≤ y) (h2 : y ≤ (b : ℚ)) :
    a ≤ ⌊y⌋ ∧ ⌊y⌋ ≤ b := by
  refine ⟨Int.le_floor.2 h1, ?_⟩
  have h3 : ((⌊y⌋ : ℤ) : ℚ) ≤ (b : ℚ) := le_trans (Int.floor_le y) h2
  exact_mod_cast h3

theorem classify_heat (p r : ℚ) (h0 : 0 ≤ r) (h1 : r < 1) (hd : isDouble r) :
    ((classify p r).1 = .positive → 80 ≤ ⌊(classify p r).2⌋ ∧ ⌊(classify p r).2⌋ ≤ 100)
      ∧ ((classify p r).1 = .mild_positive
          → 60 ≤ ⌊(classify p r).2⌋ ∧ ⌊(classify p r).2⌋ ≤ 80)
      ∧ ((classify p r).1 = .negative → 0 ≤ ⌊(classify p r).2⌋ ∧ ⌊(classify p r).2⌋ < 20)
      ∧ ((classify p r).1 = .mild_negative
          → 20 ≤ ⌊(classify p r).2⌋ ∧ ⌊(classify p r).2⌋ ≤ 40)
      ∧ ((classify p r).1 = .neutral → ⌊(classify p r).2⌋ = 50) := by
  obtain ⟨hy0, hy1⟩ := fl_mul20_mem h0 h1
  have h80 : 80 ≤ ⌊fl (80 + fl (r * 20))⌋ ∧ ⌊fl (80 + fl (r * 20))⌋ ≤ 100 := by
    have h := fl_add_mem (by norm_num : (0 : ℚ) < 80) fl_80
      (by rw [show (80 : ℚ) + 20 = 100 by norm_num]; exact fl_100) hy0 hy1
    exact floor_mem (by push_cast; exact h.1) (by push_cast; linarith [h.2])
  have h60 : 60 ≤ ⌊fl (60 + fl (r * 20))⌋ ∧ ⌊fl (60 + fl (r * 20))⌋ ≤ 80 := by
    have h := fl_add_mem (by norm_num : (0 : ℚ) < 60) fl_60
      (by rw [show (60 : ℚ) + 20 = 80 by norm_num]; exact fl_80) hy0 hy1
    exact floor_mem (by push_cast; exact h.1) (by push_cast; linarith [h.2])
  have h20 : 20 ≤ ⌊fl (20 + fl (r * 20))⌋ ∧ ⌊fl (20 + fl (r * 20))⌋ ≤ 40 := by
    have h := fl_add_mem (by norm_num : (0 : ℚ) < 20) fl_20
      (by rw [show (20 : ℚ) + 20 = 40 by norm_num]; exact fl_40) hy0 hy1
    exact floor_mem (by push_cast; exact h.1) (by push_cast; linarith [h.2])
  have h00 : 0 ≤ ⌊fl (r * 20)⌋ ∧ ⌊fl (r * 20)⌋ < 20 := by
    constructor
    · rw [Int.le_floor]; push_cast; exact hy0
    · rw [Int.floor_lt]; push_cast; exact fl_mul20_lt h0 h1 hd
  have h50 : ⌊(50 : ℚ)⌋ = 50 := by exact_mod_cast Int.floor_intCast (50 : ℤ)
  unfold classify
  split_ifs <;> refine ⟨?_, ?_, ?_, ?_, ?_⟩ <;> intro h <;> dsimp only at h ⊢ <;>
    first | exact h80 | exact h60 | exact h20 | exact h00 | exact h50

/-! ## What a live payload is made of -/

theorem changePercentOf_num_pos (coerce : Coercion) (c : ℚ) {q : ℚ}
    (hq : 0 < q) :
    changePercentOf coerce c (.num q)
      = .ok (fl (parseFloat (toFixed (percentDouble c q)))) := by
  simp [changePercentOf, toNumber, hq]

theorem changePercentOf_num_nonpos (coerce : Coercion) (c : ℚ) {q : ℚ}
    (hq : q ≤ 0) : changePercentOf coerce c (.num q) = .ok 0 := by
  simp [changePercentOf, toNumber, not_lt.2 hq]

theorem buildPayload_num (coerce : Coercion) (r : ℚ)
    (closes : List JSVal) (prevClose : JSVal) (c cp : ℚ)
    (hcp : changePercentOf coerce c prevClose = .ok cp) :
    buildPayload coerce r ⟨closes, prevClose, .num c⟩
      = .ok { index_value := toFixed c
              percentage_change := cp
              initial_sentiment := (classify cp r).1
              initial_heat := ⌊(classify cp r).2⌋
              sparkline := sliceLast24 closes
              previous_close := prevClose } := by
  simp [buildPayload, hcp, bind, Except.bind, pure, Except.pure]

theorem buildPayload_ok {coerce : Coercion} {r : ℚ} {q : RawQuote}
    {p : Payload} (h : buildPayload coerce r q = .ok p) :
    ∃ c, q.currentPrice = .num c
      ∧ p.index_value = toFixed c
      ∧ changePercentOf coerce c q.prevClose = .ok p.percentage_change
      ∧ p.initial_sentiment = (classify p.percentage_change r).1
      ∧ p.initial_heat = ⌊(classify p.percentage_change r).2⌋
      ∧ p.sparkline = sliceLast24 q.closes
      ∧ p.previous_close = q.prevClose := by
  obtain ⟨closes, prevClose, currentPrice⟩ := q
  cases currentPrice with
  | num c =>
    cases hcp : changePercentOf coerce c prevClose with
    | error e => simp [buildPayload, hcp, bind, Except.bind] at h
    | ok cp =>
      rw [buildPayload_num coerce r closes prevClose c cp hcp] at h
      cases h
      exact ⟨c, rfl, rfl, hcp, rfl, rfl, rfl, rfl⟩
  | _ => cases h

theorem liveFetch_ok {coerce : Coercion} {w : World} {p : Payload}
    (h : liveFetch coerce w = .ok p) :
    ∃ data q, w.upstream = some data ∧ extractQuote data = .ok q
      ∧ buildPayload coerce w.heatRandom q = .ok p := by
  unfold liveFetch at h
  cases hup : w.upstream with
  | none => rw [hup] at h; cases h
  | some data =>
    rw [hup] at h
    cases hq : extractQuote data with
    | error e => simp [hq, bind, Except.bind] at h
    | ok q =>
      refine ⟨data, q, rfl, hq, ?_⟩
      simpa [hq, bind, Except.bind] using h

theorem liveFetch_of_quote (coerce : Coercion) {w : World} {data : JSVal}
    {q : RawQuote} (hup : w.upstream = some data) (hq : extractQuote data = .ok q) :
    liveFetch coerce w = buildPayload coerce w.heatRandom q := by
  simp [liveFetch, hup, hq, bind, Except.bind]

theorem extractQuote_chartBody (regularMarketPrice chartPreviousClose : JSVal)
    (close : List JSVal) :
    extractQuote (chartBody regularMarketPrice chartPreviousClose close)
      = .ok ⟨close.filter (fun v => !v.isNullish),
          coalesce chartPreviousClose (.num 0),
          coalesce regularMarketPrice
            (coalesce (lastClose (close.filter (fun v => !v.isNullish)))
              (coalesce chartPreviousClose (.num 0)))⟩ := rfl

theorem changePercentOf_sample : changePercentOf coerceNaN 102 (.num 100) = .ok 2 := by
  have hp : parseFloat (toFixed (2 : ℚ)) = 2 :=
    parseFloat_toFixed_eq 200 (by norm_num) (by norm_num) (by norm_num) (by norm_num)
  rw [changePercentOf_num_pos coerceNaN 102 (by norm_num : (0 : ℚ) < 100), percentDouble_sample,
    hp, fl_two]

theorem classify_sample : classify 2 (1 / 2) = (.positive, 90) := by
  have h : (2 : ℚ) > 1 := by norm_num
  unfold classify
  rw [if_pos h, show (1 / 2 : ℚ) * 20 = 10 by norm_num, fl_10,
    show (80 : ℚ) + 10 = 90 by norm_num, fl_90]

theorem classify_edge : classify 2 (1 - 1 / 2 ^ 52) = (.positive, 100) := by
  have h : (2 : ℚ) > 1 := by norm_num
  unfold classify
  rw [if_pos h, fl_edge_product, fl_edge_sum]

theorem classify_edge_mild_positive :
    classify (1 / 2) (1 - 1 / 2 ^ 52) = (.mild_positive, 80) := by
  have h1 : ¬ (1 / 2 : ℚ) > 1 := by norm_num
  have h2 : (1 / 2 : ℚ) > 0 := by norm_num
  unfold classify
  rw [if_neg h1, if_pos h2, fl_edge_product, fl_edge_sum60]

theorem classify_edge_mild_negative :
    classify (-(1 / 2)) (1 - 1 / 2 ^ 52) = (.mild_negative, 40) := by
  have h1 : ¬ (-(1 / 2) : ℚ) > 1 := by norm_num
  have h2 : ¬ (-(1 / 2) : ℚ) > 0 := by norm_num
  have h3 : ¬ (-(1 / 2) : ℚ) < -1 := by norm_num
  have h4 : (-(1 / 2) : ℚ) < 0 := by norm_num
  unfold classify
  rw [if_neg h1, if_neg h2, if_neg h3, if_pos h4, fl_edge_product, fl_edge_sum20]

theorem sample_roundsFinite :
    roundsFinite ((102 : ℚ) - 100) ∧ roundsFinite (fl ((102 : ℚ) - 100) / 100)
      ∧ roundsFinite (fl (fl ((102 : ℚ) - 100) / 100) * 100) := by
  unfold roundsFinite
  rw [show (102 : ℚ) - 100 = 2 by norm_num, fl_two, fl_sample_quotient]
  refine ⟨?_, ?_, ?_⟩ <;> rw [abs_of_pos (by norm_num)] <;> norm_num

theorem sample_noUnderflow :
    noUnderflow ((102 : ℚ) - 100) ∧ noUnderflow (fl ((102 : ℚ) - 100) / 100)
      ∧ noUnderflow (fl (fl ((102 : ℚ) - 100) / 100) * 100) := by
  have h : (2 : ℚ) ^ (-1022 : ℤ) ≤ 1 / 100 := by
    rw [zpow_neg, show (1022 : ℤ) = ((1022 : ℕ) : ℤ) by norm_num, zpow_natCast,
      inv_eq_one_div]
    apply one_div_le_one_div_of_le (by norm_num)
    calc (100 : ℚ) ≤ 2 ^ 7 := by norm_num
      _ ≤ 2 ^ 1022 := pow_le_pow_right₀ (by norm_num) (by norm_num)
  unfold noUnderflow
  rw [show (102 : ℚ) - 100 = 2 by norm_num, fl_two, fl_sample_quotient]
  refine ⟨Or.inr ?_, Or.inr ?_, Or.inr ?_⟩ <;> rw [abs_of_pos (by norm_num)] <;>
    refine le_trans h ?_ <;> norm_num

theorem toFixed_102 : toFixed 102 = ⟨false, 10200⟩ := by
  have hf : ⌊(102 : ℚ) * 100 + 1 / 2⌋ = 10200 :=
    Int.floor_eq_iff.2 ⟨by norm_num, by norm_num⟩
  have hn : ¬ (102 : ℚ) < 0 := by norm_num
  unfold toFixed
  rw [if_neg hn, hf]
  rfl

theorem extractQuote_sample :
    extractQuote (chartBody (.num 102) (.num 100) [.num 100, .null, .num 101, .num 102])
      = .ok ⟨[.num 100, .num 101, .num 102], .num 100, .num 102⟩ := rfl

theorem liveFetch_worldUp : liveFetch coerceNaN worldUp = .ok payloadUp := by
  have h90 : ⌊(90 : ℚ)⌋ = 90 := by exact_mod_cast Int.floor_intCast (90 : ℤ)
  rw [liveFetch_of_quote coerceNaN (rfl : worldUp.upstream = _) extractQuote_sample,
    buildPayload_num coerceNaN _ _ _ 102 2 changePercentOf_sample]
  show Except.ok _ = Except.ok _
  rw [show worldUp.heatRandom = 1 / 2 from rfl, classify_sample, toFixed_102]
  simp [payloadUp, h90, sliceLast24]

theorem liveFetch_worldEdge : liveFetch coerceNaN worldEdge = .ok payloadEdge := by
  have h100 : ⌊(100 : ℚ)⌋ = 100 := by exact_mod_cast Int.floor_intCast (100 : ℤ)
  rw [liveFetch_of_quote coerceNaN (rfl : worldEdge.upstream = _) extractQuote_sample,
    buildPayload_num coerceNaN _ _ _ 102 2 changePercentOf_sample]
  show Except.ok _ = Except.ok _
  rw [show worldEdge.heatRandom = 1 - 1 / 2 ^ 52 from rfl, classify_edge, toFixed_102]
  simp [payloadEdge, h100, sliceLast24]

/-- The `percentage_change` of a live payload made from a numeric price `c` and a numeric
previous close `q > 0`. -/
theorem live_change_value (coerce : Coercion) (cache : Cache) (w : World)
    (symbol : String) (data : JSVal) (closes : List JSVal) (c q : ℚ)
    (hf : freshHit (cache symbol) w.now = none) (hup : w.upstream = some data)
    (hq : extractQuote data = .ok ⟨closes, .num q, .num c⟩) (hpos : 0 < q) :
    ∃ out, fetchYahooData coerce cache w symbol = .ok out
      ∧ out.value.percentage_change = fl (parseFloat (toFixed (percentDouble c q))) := by
  have hl := liveFetch_of_quote coerce hup hq
  rw [buildPayload_num coerce _ closes _ c _ (changePercentOf_num_pos coerce c hpos)] at hl
  exact ⟨_, fetchYahooData_of_live coerce cache w symbol hf hl, rfl⟩

theorem synthetic_worldDown_change : (synthetic worldDown).percentage_change = 8 / 5 := by
  simp [synthetic, worldDown, parseFloat, toFixed]
  norm_num
  have h : Int.toNat 160 = 160 := rfl
  rw [h]
  norm_num

/-! ## The simulated payload and the live rules -/

/-- C6, as stated, fails: with the request rejected, nothing cached and the draw of line 80
equal to 0.9, the simulated payload has `percentage_change` 1.6, which the live thresholds
put in the bucket `positive` with a heat in [80,100), yet its `initial_sentiment` is
`neutral` and its `initial_heat` is 50. -/
theorem synthetic_classification_counterexample :
    ∃ out, fetchYahooData coerceNaN emptyCache worldDown "^GSPC" = .ok out
      ∧ out.value.percentage_change = 8 / 5
      ∧ (∀ r, (classify out.value.percentage_change r).1 = .positive)
      ∧ out.value.initial_sentiment = .neutral
      ∧ out.value.initial_heat = 50
      ∧ ¬ (80 ≤ out.value.initial_heat ∧ out.value.initial_heat < 100) := by
  refine ⟨_, fetchYahooData_of_error coerceNaN emptyCache worldDown "^GSPC" rfl
    liveFetch_worldDown, synthetic_worldDown_change, ?_, rfl, rfl, ?_⟩
  · intro r
    show (classify (synthetic worldDown).percentage_change r).1 = .positive
    rw [synthetic_worldDown_change]
    exact (classify_bucket (8 / 5) r).1.2 (by norm_num)
  · show ¬ (80 ≤ (50 : ℤ) ∧ (50 : ℤ) < 100)
    decide

/-- C6, amended: the simulated payload built when the upstream call fails and nothing is
cached is not classified from its `percentage_change`: whatever the draws, and so whatever
`percentage_change` comes out, `initial_sentiment` is `neutral` and `initial_heat` is 50. -/
theorem synthetic_payload_is_neutral (coerce : Coercion) (cache : Cache) (w : World)
    (symbol : String) (e : JSErr) (hfail : liveFetch coerce w = .error e)
    (hnone : cache symbol = none) :
    ∃ out, fetchYahooData coerce cache w symbol = .ok out
      ∧ out.value.percentage_change = parseFloat (toFixed (w.changeRandom * 4 - 2))
      ∧ out.value.initial_sentiment = .neutral
      ∧ out.value.initial_heat = 50 := by
  have hf : freshHit (cache symbol) w.now = none := by rw [hnone]; rfl
  refine ⟨_, fetchYahooData_of_error coerce cache w symbol hf hfail, ?_, ?_, ?_⟩ <;>
    simp [catchBlock, hnone, synthetic]

theorem synthetic_payload_is_neutral_witness :
    liveFetch coerceNaN worldDown = .error .axiosError ∧ emptyCache "^DJI" = none
      ∧ ∃ out, fetchYahooData coerceNaN emptyCache worldDown "^DJI" = .ok out
          ∧ out.value.percentage_change
              = parseFloat (toFixed (worldDown.changeRandom * 4 - 2))
          ∧ out.value.initial_sentiment = .neutral
          ∧ out.value.initial_heat = 50 :=
  ⟨liveFetch_worldDown, rfl,
    synthetic_payload_is_neutral coerceNaN emptyCache worldDown "^DJI" .axiosError
      liveFetch_worldDown rfl⟩

/-! ## The derived metrics of a live payload -/

/-- C7: when the call takes the live path and builds the payload `p`, the bucket of `p` is
fixed by its rounded `percentage_change`: `positive` iff it is above 1, `mild_positive` iff
it is in (0,1], `neutral` iff it is 0, `mild_negative` iff it is in [-1,0), `negative` iff it
is below -1. -/
theorem live_sentiment_by_thresholds (coerce : Coercion) (cache : Cache) (w : World)
    (symbol : String) (p : Payload) (hf : freshHit (cache symbol) w.now = none)
    (hl : liveFetch coerce w = .ok p) :
    ∃ out, fetchYahooData coerce cache w symbol = .ok out ∧ out.value = p
      ∧ (out.value.initial_sentiment = .positive ↔ 1 < out.value.percentage_change)
      ∧ (out.value.initial_sentiment = .mild_positive
          ↔ 0 < out.value.percentage_change ∧ out.value.percentage_change ≤ 1)
      ∧ (out.value.initial_sentiment = .neutral ↔ out.value.percentage_change = 0)
      ∧ (out.value.initial_sentiment = .mild_negative
          ↔ -1 ≤ out.value.percentage_change ∧ out.value.percentage_change < 0)
      ∧ (out.value.initial_sentiment = .negative ↔ out.value.percentage_change < -1) := by
  obtain ⟨data, q, -, -, hb⟩ := liveFetch_ok hl
  obtain ⟨c, -, -, -, hs, -⟩ := buildPayload_ok hb
  refine ⟨_, fetchYahooData_of_live coerce cache w symbol hf hl, rfl, ?_⟩
  show (p.initial_sentiment = .positive ↔ 1 < p.percentage_change) ∧ _
  rw [hs]
  exact classify_bucket p.percentage_change w.heatRandom

theorem live_sentiment_by_thresholds_witness :
    freshHit (emptyCache "^GSPC") worldUp.now = none
      ∧ liveFetch coerceNaN worldUp = .ok payloadUp
      ∧ ∃ out, fetchYahooData coerceNaN emptyCache worldUp "^GSPC" = .ok out
          ∧ out.value = payloadUp
          ∧ (out.value.initial_sentiment = .positive ↔ 1 < out.value.percentage_change)
          ∧ (out.value.initial_sentiment = .mild_positive
              ↔ 0 < out.value.percentage_change ∧ out.value.percentage_change ≤ 1)
          ∧ (out.value.initial_sentiment = .neutral ↔ out.value.percentage_change = 0)
          ∧ (out.value.initial_sentiment = .mild_negative
              ↔ -1 ≤ out.value.percentage_change ∧ out.value.percentage_change < 0)
          ∧ (out.value.initial_sentiment = .negative
              ↔ out.value.percentage_change < -1) :=
  ⟨rfl, liveFetch_worldUp,
    live_sentiment_by_thresholds coerceNaN emptyCache worldUp "^GSPC" payloadUp rfl
      liveFetch_worldUp⟩

/-- C8, as stated, fails: with the draw `1 - 2 ^ (-52)`, a double in [0,1), the sum
`80 + Math.random() * 20` is rounded to the double 100, and the live payload of the bucket
`positive` has `initial_heat` 100, outside [80,100). With the same draw the heat of the bucket
`mild_positive` is 80 and that of `mild_negative` is 40. -/
theorem live_heat_counterexample :
    0 ≤ worldEdge.heatRandom ∧ worldEdge.heatRandom < 1 ∧ isDouble worldEdge.heatRandom
      ∧ freshHit (emptyCache "^GSPC") worldEdge.now = none
      ∧ liveFetch coerceNaN worldEdge = .ok payloadEdge
      ∧ (classify 2 worldEdge.heatRandom).2 = 100
      ∧ (∃ out, fetchYahooData coerceNaN emptyCache worldEdge "^GSPC" = .ok out
          ∧ out.value.initial_sentiment = .positive
          ∧ out.value.initial_heat = 100
          ∧ ¬ (80 ≤ out.value.initial_heat ∧ out.value.initial_heat < 100))
      ∧ classify (1 / 2) worldEdge.heatRandom = (.mild_positive, 80)
      ∧ classify (-(1 / 2)) worldEdge.heatRandom = (.mild_negative, 40) := by
  refine ⟨by norm_num [worldEdge], by norm_num [worldEdge], fl_edge_draw, rfl,
    liveFetch_worldEdge, ?_,
    ⟨_, fetchYahooData_of_live coerceNaN emptyCache worldEdge "^GSPC" rfl liveFetch_worldEdge,
      rfl, rfl, ?_⟩, classify_edge_mild_positive, classify_edge_mild_negative⟩
  · rw [show worldEdge.heatRandom = 1 - 1 / 2 ^ 52 from rfl, classify_edge]
  · show ¬ (80 ≤ (100 : ℤ) ∧ (100 : ℤ) < 100)
    decide

/-- C8, amended: when the call takes the live path and the draw of lines 59-62 is a double
in [0,1), the `initial_heat` of the payload is an integer in the range of its bucket with the
upper end included where a sum is rounded: [80,100] for `positive`, [60,80] for
`mild_positive`, [0,20) for `negative`, [20,40] for `mild_negative`, 50 for `neutral`; so it
is in [0,100]. -/
theorem live_heat_in_bucket_range (coerce : Coercion) (cache : Cache) (w : World)
    (symbol : String) (p : Payload) (hf : freshHit (cache symbol) w.now = none)
    (hl : liveFetch coerce w = .ok p) (h0 : 0 ≤ w.heatRandom) (h1 : w.heatRandom < 1)
    (hd : isDouble w.heatRandom) :
    ∃ out, fetchYahooData coerce cache w symbol = .ok out ∧ out.value = p
      ∧ (out.value.initial_sentiment = .positive
          → 80 ≤ out.value.initial_heat ∧ out.value.initial_heat ≤ 100)
      ∧ (out.value.initial_sentiment = .mild_positive
          → 60 ≤ out.value.initial_heat ∧ out.value.initial_heat ≤ 80)
      ∧ (out.value.initial_sentiment = .negative
          → 0 ≤ out.value.initial_heat ∧ out.value.initial_heat < 20)
      ∧ (out.value.initial_sentiment = .mild_negative
          → 20 ≤ out.value.initial_heat ∧ out.value.initial_heat ≤ 40)
      ∧ (out.value.initial_sentiment = .neutral → out.value.initial_heat = 50)
      ∧ 0 ≤ out.value.initial_heat ∧ out.value.initial_heat ≤ 100 := by
  obtain ⟨data, q, -, -, hb⟩ := liveFetch_ok hl
  obtain ⟨c, -, -, -, hs, hh, -⟩ := buildPayload_ok hb
  have hr := classify_heat p.percentage_change w.heatRandom h0 h1 hd
  rw [← hs, ← hh] at hr
  obtain ⟨r1, r2, r3, r4, r5⟩ := hr
  refine ⟨_, fetchYahooData_of_live coerce cache w symbol hf hl, rfl, r1, r2, r3, r4, r5, ?_⟩
  show 0 ≤ p.initial_heat ∧ p.initial_heat ≤ 100
  cases hsent : p.initial_sentiment with
  | positive => have := r1 hsent; omega
  | mild_positive => have := r2 hsent; omega
  | neutral => have := r5 hsent; omega
  | mild_negative => have := r4 hsent; omega
  | negative => have := r3 hsent; omega

theorem live_heat_in_bucket_range_witness :
    freshHit (emptyCache "^GSPC") worldUp.now = none
      ∧ liveFetch coerceNaN worldUp = .ok payloadUp
      ∧ 0 ≤ worldUp.heatRandom ∧ worldUp.heatRandom < 1 ∧ isDouble worldUp.heatRandom
      ∧ ∃ out, fetchYahooData coerceNaN emptyCache worldUp "^GSPC" = .ok out
          ∧ out.value = payloadUp
          ∧ (out.value.initial_sentiment = .positive
              → 80 ≤ out.value.initial_heat ∧ out.value.initial_heat ≤ 100)
          ∧ (out.value.initial_sentiment = .mild_positive
              → 60 ≤ out.value.initial_heat ∧ out.value.initial_heat ≤ 80)
          ∧ (out.value.initial_sentiment = .negative
              → 0 ≤ out.value.initial_heat ∧ out.value.initial_heat < 20)
          ∧ (out.value.initial_sentiment = .mild_negative
              → 20 ≤ out.value.initial_heat ∧ out.value.initial_heat ≤ 40)
          ∧ (out.value.initial_sentiment = .neutral → out.value.initial_heat = 50)
          ∧ 0 ≤ out.value.initial_heat ∧ out.value.initial_heat ≤ 100 :=
  ⟨rfl, liveFetch_worldUp, by norm_num [worldUp], by norm_num [worldUp], fl_half,
    live_heat_in_bucket_range coerceNaN emptyCache worldUp "^GSPC" payloadUp rfl
      liveFetch_worldUp (by norm_num [worldUp]) (by norm_num [worldUp]) fl_half⟩

/-- C9, as stated, fails. For the price 20201 against the previous close 20000 the exact
change is 1.005, which `toFixed(2)` would write `1.01`, but the double computed on line 54
lies below 1.005 and the payload has `percentage_change` 1. For the price nearest to 3.07965
against the previous close 3 the payload has the double nearest to 2.66, which is no whole
number of hundredths and is more than 0.005 away from the exact change. -/
theorem live_change_counterexample :
    (∃ out, fetchYahooData coerceNaN emptyCache worldTie "^GSPC" = .ok out
        ∧ out.value.percentage_change = 1
        ∧ ((20201 : ℚ) - 20000) / 20000 * 100 = 201 / 200
        ∧ parseFloat (toFixed (((20201 : ℚ) - 20000) / 20000 * 100)) = 101 / 100)
      ∧ isDouble priceFar
      ∧ ∃ out, fetchYahooData coerceNaN emptyCache worldFar "^GSPC" = .ok out
          ∧ out.value.percentage_change = fl (266 / 100)
          ∧ 1 / 200 < |out.value.percentage_change - (priceFar - 3) / 3 * 100|
          ∧ ¬ ∃ k : ℤ, out.value.percentage_change = (k : ℚ) / 100 := by
  refine ⟨?_, fl_priceFar, ?_⟩
  · obtain ⟨out, hout, hpc⟩ := live_change_value coerceNaN emptyCache worldTie "^GSPC" _ []
      20201 20000 rfl rfl rfl (by norm_num)
    have hp : parseFloat (toFixed (1131529406376837 / 1125899906842624 : ℚ)) = 1 :=
      parseFloat_toFixed_eq 100 (by norm_num) (by norm_num) (by norm_num) (by norm_num)
    rw [percentDouble_tie, hp, fl_one] at hpc
    refine ⟨out, hout, hpc, by norm_num, ?_⟩
    exact parseFloat_toFixed_eq 101 (by norm_num) (by norm_num) (by norm_num) (by norm_num)
  · obtain ⟨out, hout, hpc⟩ := live_change_value coerceNaN emptyCache worldFar "^GSPC" _ []
      priceFar 3 rfl rfl rfl (by norm_num)
    have hp : parseFloat (toFixed (2989264252667167 / 1125899906842624 : ℚ)) = 266 / 100 :=
      parseFloat_toFixed_eq 266 (by norm_num) (by norm_num) (by norm_num) (by norm_num)
    rw [percentDouble_far, hp] at hpc
    refine ⟨out, hout, hpc, ?_, ?_⟩
    · rw [hpc, fl_far_parsed]
      unfold priceFar
      rw [show (748723438050345 / 281474976710656 : ℚ) - (3467377648107887 / 2 ^ 50 - 3) / 3 * 100
          = 1055531162665 / 211106232532992 by norm_num, abs_of_pos (by norm_num)]
      norm_num
    · rintro ⟨k, hk⟩
      rw [hpc, fl_far_parsed, div_eq_div_iff (by norm_num) (by norm_num)] at hk
      have h3 : (748723438050345 : ℤ) * 100 = k * 281474976710656 := by exact_mod_cast hk
      omega

/-- C9, amended: when the call takes the live path with a numeric current price `c` and a
numeric previous close `q > 0`, and no operation of line 54 overflows, the
`percentage_change` of the payload is the double nearest to a whole number of hundredths
`k / 100`, the numeral that `toFixed(2)` writes for the double computed as
`(c - q) / q * 100` with each operation rounded; `k / 100` is at most 0.005 away from that
computed double, and the payload value at most half a unit in the last place away from
`k / 100`. When no operation underflows either, the payload value is at most
`0.005 + (|x| + 1) * 2 ^ (-50)` away from the exact change `x`. -/
theorem live_change_is_rounded (coerce : Coercion) (cache : Cache) (w : World)
    (symbol : String) (data : JSVal) (closes : List JSVal) (c q : ℚ)
    (hf : freshHit (cache symbol) w.now = none) (hup : w.upstream = some data)
    (hq : extractQuote data = .ok ⟨closes, .num q, .num c⟩) (hpos : 0 < q)
    (_hfin : roundsFinite (c - q) ∧ roundsFinite (fl (c - q) / q)
      ∧ roundsFinite (fl (fl (c - q) / q) * 100)) :
    ∃ out, fetchYahooData coerce cache w symbol = .ok out
      ∧ percentDouble c q = fl (fl (fl (c - q) / q) * 100)
      ∧ out.value.percentage_change = fl (parseFloat (toFixed (percentDouble c q)))
      ∧ (∃ k : ℤ, parseFloat (toFixed (percentDouble c q)) = (k : ℚ) / 100
          ∧ out.value.percentage_change = fl ((k : ℚ) / 100)
          ∧ |(k : ℚ) / 100 - percentDouble c q| ≤ 1 / 200
          ∧ |out.value.percentage_change - (k : ℚ) / 100| ≤ ulp ((k : ℚ) / 100) / 2)
      ∧ (noUnderflow (c - q) → noUnderflow (fl (c - q) / q)
          → noUnderflow (fl (fl (c - q) / q) * 100)
          → |out.value.percentage_change - (c - q) / q * 100|
              ≤ 1 / 200 + (|(c - q) / q * 100| + 1) / 2 ^ 50) := by
  obtain ⟨out, hout, hpc⟩ :=
    live_change_value coerce cache w symbol data closes c q hf hup hq hpos
  obtain ⟨k, hk⟩ := parseFloat_toFixed_hundredths (percentDouble c q)
  have hclose := parseFloat_toFixed_close (percentDouble c q)
  rw [hk] at hclose hpc
  refine ⟨out, hout, rfl, by rw [hpc, hk], ⟨k, hk, hpc, hclose, ?_⟩, ?_⟩
  · rw [hpc]
    exact fl_close _
  · intro h1 h2 h3
    rw [hpc]
    exact change_error_bound hpos h1 h2 h3 hclose

theorem live_change_is_rounded_witness :
    freshHit (emptyCache "^GSPC") worldUp.now = none
      ∧ worldUp.upstream
          = some (chartBody (.num 102) (.num 100) [.num 100, .null, .num 101, .num 102])
      ∧ extractQuote (chartBody (.num 102) (.num 100) [.num 100, .null, .num 101, .num 102])
          = .ok ⟨[.num 100, .num 101, .num 102], .num 100, .num 102⟩
      ∧ (0 : ℚ) < 100
      ∧ (roundsFinite ((102 : ℚ) - 100) ∧ roundsFinite (fl ((102 : ℚ) - 100) / 100)
          ∧ roundsFinite (fl (fl ((102 : ℚ) - 100) / 100) * 100))
      ∧ (noUnderflow ((102 : ℚ) - 100) ∧ noUnderflow (fl ((102 : ℚ) - 100) / 100)
          ∧ noUnderflow (fl (fl ((102 : ℚ) - 100) / 100) * 100))
      ∧ ∃ out, fetchYahooData coerceNaN emptyCache worldUp "^GSPC" = .ok out
          ∧ percentDouble 102 100 = fl (fl (fl (102 - 100) / 100) * 100)
          ∧ out.value.percentage_change = fl (parseFloat (toFixed (percentDouble 102 100)))
          ∧ (∃ k : ℤ, parseFloat (toFixed (percentDouble 102 100)) = (k : ℚ) / 100
              ∧ out.value.percentage_change = fl ((k : ℚ) / 100)
              ∧ |(k : ℚ) / 100 - percentDouble 102 100| ≤ 1 / 200
              ∧ |out.value.percentage_change - (k : ℚ) / 100| ≤ ulp ((k : ℚ) / 100) / 2)
          ∧ (noUnderflow ((102 : ℚ) - 100) → noUnderflow (fl ((102 : ℚ) - 100) / 100)
              → noUnderflow (fl (fl ((102 : ℚ) - 100) / 100) * 100)
              → |out.value.percentage_change - ((102 : ℚ) - 100) / 100 * 100|
                  ≤ 1 / 200 + (|((102 : ℚ) - 100) / 100 * 100| + 1) / 2 ^ 50) :=
  ⟨rfl, rfl, rfl, by norm_num, sample_roundsFinite, sample_noUnderflow,
    live_change_is_rounded coerceNaN emptyCache worldUp "^GSPC" _
      [.num 100, .num 101, .num 102] 102 100 rfl rfl rfl (by norm_num) sample_roundsFinite⟩

/-- C10: a `meta` object whose `chartPreviousClose` and `previousClose` are both missing
gives `prevClose = 0`; and when the call takes the live path with a numeric current price
and a previous close that is zero or negative, no quotient is taken: `percentage_change` is
exactly 0, `initial_sentiment` is `neutral` and `initial_heat` is 50. -/
theorem nonpositive_previous_close_is_neutral (coerce : Coercion) (cache : Cache)
    (w : World) (symbol : String) (data : JSVal) (closes : List JSVal) (c q : ℚ)
    (hf : freshHit (cache symbol) w.now = none) (hup : w.upstream = some data)
    (hq : extractQuote data = .ok ⟨closes, .num q, .num c⟩) (hle : q ≤ 0) :
    (∀ kv, (lookup "chartPreviousClose" kv).isNullish = true
        → (lookup "previousClose" kv).isNullish = true
        → resolvePrevClose (.obj kv) = .ok (.num 0))
      ∧ ∃ out, fetchYahooData coerce cache w symbol = .ok out
          ∧ out.value.percentage_change = 0
          ∧ out.value.initial_sentiment = .neutral
          ∧ out.value.initial_heat = 50 := by
  constructor
  · intro kv ha hb
    simp [resolvePrevClose, getProp, coalesce, ha, hb, bind, Except.bind, pure, Except.pure]
  · have hl := liveFetch_of_quote coerce hup hq
    rw [buildPayload_num coerce _ closes _ c _ (changePercentOf_num_nonpos coerce c hle)] at hl
    have hcl : classify 0 w.heatRandom = (.neutral, 50) := by norm_num [classify]
    rw [hcl] at hl
    refine ⟨_, fetchYahooData_of_live coerce cache w symbol hf hl, rfl, rfl, ?_⟩
    show ⌊(50 : ℚ)⌋ = 50
    exact_mod_cast Int.floor_intCast (50 : ℤ)

theorem nonpositive_previous_close_is_neutral_witness :
    freshHit (emptyCache "^N225") worldNoPrev.now = none
      ∧ worldNoPrev.upstream = some (chartBody (.num 250) .null [])
      ∧ extractQuote (chartBody (.num 250) .null []) = .ok ⟨[], .num 0, .num 250⟩
      ∧ (0 : ℚ) ≤ 0
      ∧ (∀ kv, (lookup "chartPreviousClose" kv).isNullish = true
          → (lookup "previousClose" kv).isNullish = true
          → resolvePrevClose (.obj kv) = .ok (.num 0))
      ∧ ∃ out, fetchYahooData coerceNaN emptyCache worldNoPrev "^N225" = .ok out
          ∧ out.value.percentage_change = 0
          ∧ out.value.initial_sentiment = .neutral
          ∧ out.value.initial_heat = 50 :=
  ⟨rfl, rfl, rfl, le_refl _,
    nonpositive_previous_close_is_neutral coerceNaN emptyCache worldNoPrev "^N225" _ [] 250 0
      rfl rfl rfl (le_refl _)⟩

/-! ## The sparkline -/

theorem length_sliceLast24 (closes : List JSVal) :
    (sliceLast24 closes).length = min 24 closes.length := by
  simp only [sliceLast24, List.length_drop]
  omega

theorem extractCloses_of_series {result : JSVal} {closes xs : List JSVal}
    (h : extractCloses result = .ok closes)
    (hs : (match (do
        let indicators ← getProp result "indicators"
        pure (optProp (optIndex0 (optProp indicators "quote")) "close") : Except JSErr JSVal) with
      | .ok (.arr xs) => some xs
      | _ => none) = some xs) :
    closes = xs.filter (fun v => !v.isNullish) := by
  unfold extractCloses at h
  cases h5 : getProp result "indicators" with
  | error e => simp [h5, bind, Except.bind] at h
  | ok indicators =>
    simp only [h5, bind, Except.bind, pure, Except.pure] at h hs
    generalize optProp (optIndex0 (optProp indicators "quote")) "close" = cl at h hs
    cases cl with
    | arr ys =>
      simp only [Option.some.injEq] at hs
      subst hs
      simpa using h.symm
    | _ => simp at hs

theorem extractQuote_closes {data : JSVal} {q : RawQuote} {xs : List JSVal}
    (h : extractQuote data = .ok q) (hs : upstreamSeries data = some xs) :
    q.closes = xs.filter (fun v => !v.isNullish) := by
  unfold extractQuote at h
  unfold upstreamSeries at hs
  cases h1 : getProp data "chart" with
  | error e => simp [h1, bind, Except.bind] at h
  | ok chart =>
    cases h2 : getProp chart "result" with
    | error e => simp [h1, h2, bind, Except.bind] at h
    | ok results =>
      simp only [h1, h2, bind, Except.bind] at h hs
      by_cases ht : (optIndex0 results).truthy = true
      · simp only [ht, Bool.not_true, Bool.false_eq_true, if_false, pure, Except.pure] at h
        cases h3 : getProp (optIndex0 results) "meta" with
        | error e => simp [h3] at h
        | ok m =>
          cases h4 : extractCloses (optIndex0 results) with
          | error e => simp [h3, h4] at h
          | ok closes =>
            cases h6 : resolvePrevClose m with
            | error e => simp [h3, h4, h6] at h
            | ok pc =>
              cases h7 : resolveCurrentPrice m closes pc with
              | error e => simp [h3, h4, h6, h7] at h
              | ok cp =>
                simp only [h3, h4, h6, h7, Except.ok.injEq] at h
                subst h
                exact extractCloses_of_series h4 hs
      · simp [ht, throw, throwThe, MonadExceptOf.throw] at h

theorem upstreamSeries_chartBody (regularMarketPrice chartPreviousClose : JSVal)
    (close : List JSVal) :
    upstreamSeries (chartBody regularMarketPrice chartPreviousClose close) = some close := rfl

/-- C11, as stated, fails: the response of `worldUp` has the series `[100, null, 101, 102]`
of length 4, and the sparkline of the live payload is `[100, 101, 102]`: its length is 3, not
`min(24, 4)`, and it is no suffix of the series. -/
theorem sparkline_series_counterexample :
    worldUp.upstream
        = some (chartBody (.num 102) (.num 100) [.num 100, .null, .num 101, .num 102])
      ∧ upstreamSeries (chartBody (.num 102) (.num 100) [.num 100, .null, .num 101, .num 102])
          = some [.num 100, .null, .num 101, .num 102]
      ∧ ∃ out, fetchYahooData coerceNaN emptyCache worldUp "^GSPC" = .ok out
          ∧ out.value.sparkline = [.num 100, .num 101, .num 102]
          ∧ out.value.sparkline.length = 3
          ∧ out.value.sparkline.length
              ≠ min 24 [JSVal.num 100, JSVal.null, JSVal.num 101, JSVal.num 102].length := by
  refine ⟨rfl, rfl, _, fetchYahooData_of_live coerceNaN emptyCache worldUp "^GSPC" rfl
    liveFetch_worldUp, rfl, rfl, ?_⟩
  show [JSVal.num 100, JSVal.num 101, JSVal.num 102].length
    ≠ min 24 [JSVal.num 100, JSVal.null, JSVal.num 101, JSVal.num 102].length
  decide

/-- C11, amended: when the call takes the live path on a response whose series is `xs`, the
sparkline is the trailing `min(24, k)` entries of `xs` without its `null` and `undefined`
entries, `k` being the number of entries left, in their order and not padded; when `xs` has no
such entry, it is the trailing `min(24, n)` entries of `xs` itself. -/
theorem sparkline_is_trailing_non_null (coerce : Coercion) (cache : Cache) (w : World)
    (symbol : String) (data : JSVal) (xs : List JSVal) (p : Payload)
    (hf : freshHit (cache symbol) w.now = none) (hup : w.upstream = some data)
    (hs : upstreamSeries data = some xs) (hl : liveFetch coerce w = .ok p) :
    ∃ out, fetchYahooData coerce cache w symbol = .ok out ∧ out.value = p
      ∧ out.value.sparkline
          = (xs.filter (fun v => !v.isNullish)).drop
              ((xs.filter (fun v => !v.isNullish)).length - 24)
      ∧ out.value.sparkline.length = min 24 (xs.filter (fun v => !v.isNullish)).length
      ∧ ((∀ v ∈ xs, v.isNullish = false)
          → out.value.sparkline = xs.drop (xs.length - 24)
            ∧ out.value.sparkline.length = min 24 xs.length) := by
  obtain ⟨data', q, hup', hq, hb⟩ := liveFetch_ok hl
  have hd : data' = data := by
    rw [hup] at hup'
    exact (Option.some.inj hup').symm
  subst hd
  obtain ⟨c, -, -, -, -, -, hsp, -⟩ := buildPayload_ok hb
  have hcl := extractQuote_closes hq hs
  have hsl : p.sparkline = sliceLast24 (xs.filter (fun v => !v.isNullish)) := by
    rw [hsp, hcl]
  refine ⟨_, fetchYahooData_of_live coerce cache w symbol hf hl, rfl, hsl, ?_, ?_⟩
  · show p.sparkline.length = _
    rw [hsl, length_sliceLast24]
  · intro hall
    have hfil : xs.filter (fun v => !v.isNullish) = xs := by
      rw [List.filter_eq_self]
      intro v hv
      simp [hall v hv]
    show p.sparkline = _ ∧ p.sparkline.length = _
    rw [hsl, hfil, length_sliceLast24]
    exact ⟨rfl, rfl⟩

theorem sparkline_is_trailing_non_null_witness :
    freshHit (emptyCache "^GSPC") worldUp.now = none
      ∧ worldUp.upstream
          = some (chartBody (.num 102) (.num 100) [.num 100, .null, .num 101, .num 102])
      ∧ upstreamSeries (chartBody (.num 102) (.num 100) [.num 100, .null, .num 101, .num 102])
          = some [.num 100, .null, .num 101, .num 102]
      ∧ liveFetch coerceNaN worldUp = .ok payloadUp
      ∧ ∃ out, fetchYahooData coerceNaN emptyCache worldUp "^GSPC" = .ok out
          ∧ out.value = payloadUp
          ∧ out.value.sparkline
              = ([JSVal.num 100, .null, .num 101, .num 102].filter
                  (fun v => !v.isNullish)).drop
                  (([JSVal.num 100, .null, .num 101, .num 102].filter
                    (fun v => !v.isNullish)).length - 24)
          ∧ out.value.sparkline.length
              = min 24 ([JSVal.num 100, .null, .num 101, .num 102].filter
                  (fun v => !v.isNullish)).length
          ∧ ((∀ v ∈ [JSVal.num 100, .null, .num 101, .num 102], v.isNullish = false)
              → out.value.sparkline
                  = [JSVal.num 100, .null, .num 101, .num 102].drop
                      ([JSVal.num 100, .null, .num 101, .num 102].length - 24)
                ∧ out.value.sparkline.length
                  = min 24 [JSVal.num 100, .null, .num 101, .num 102].length) :=
  ⟨rfl, rfl, rfl, liveFetch_worldUp,
    sparkline_is_trailing_non_null coerceNaN emptyCache worldUp "^GSPC" _ _ payloadUp rfl rfl
      rfl liveFetch_worldUp⟩

/-! ## Freshness, the stamp and the frame of a call -/

theorem cache_set_same (cache : Cache) (symbol : String) (entry : CacheEntry) :
    cache.set symbol entry symbol = some entry := by
  simp [Cache.set]

theorem cache_set_other (cache : Cache) (symbol : String) (entry : CacheEntry) (k : String)
    (hk : k ≠ symbol) : cache.set symbol entry k = cache k := by
  simp [Cache.set, hk]

/-- C15: `CACHE_TTL` is 120000 ms and the test is strict: an entry is fresh iff
`now - ts < 120000`; an entry whose age is exactly 120000 ms is not fresh, and the call
requests the upstream for its symbol. -/
theorem freshness_is_strict (coerce : Coercion) (cache : Cache) (w : World) (symbol : String)
    (c : CacheEntry) (hc : cache symbol = some c) (hage : w.now - c.ts = 120000) :
    CACHE_TTL = 120000
      ∧ (∀ (d : CacheEntry) (now : ℤ), freshHit (some d) now = some d ↔ now - d.ts < 120000)
      ∧ freshHit (cache symbol) w.now = none
      ∧ ∃ out, fetchYahooData coerce cache w symbol = .ok out ∧ out.requests = [symbol] := by
  have hstale : ¬ w.now - c.ts < CACHE_TTL := by
    rw [hage]
    decide
  have hf := freshHit_eq_none_of_stale hc hstale
  refine ⟨rfl, ?_, hf, ?_⟩
  · intro d now
    rw [freshHit_some_iff]
    exact ⟨fun h => h.2, fun h => ⟨rfl, h⟩⟩
  · cases hl : liveFetch coerce w with
    | ok p => exact ⟨_, fetchYahooData_of_live coerce cache w symbol hf hl, rfl⟩
    | error e =>
      refine ⟨_, fetchYahooData_of_error coerce cache w symbol hf hl, ?_⟩
      simp [catchBlock, hc]

theorem freshness_is_strict_witness :
    cacheWith 380000 "^GSPC" = some ⟨storedPayload, 380000⟩
      ∧ worldUp.now - (⟨storedPayload, 380000⟩ : CacheEntry).ts = 120000
      ∧ CACHE_TTL = 120000
      ∧ (∀ (d : CacheEntry) (now : ℤ), freshHit (some d) now = some d ↔ now - d.ts < 120000)
      ∧ freshHit (cacheWith 380000 "^GSPC") worldUp.now = none
      ∧ ∃ out, fetchYahooData coerceNaN (cacheWith 380000) worldUp "^GSPC" = .ok out
          ∧ out.requests = ["^GSPC"] :=
  ⟨cacheWith_get 380000, by decide,
    freshness_is_strict coerceNaN (cacheWith 380000) worldUp "^GSPC" ⟨storedPayload, 380000⟩
      (cacheWith_get 380000) (by decide)⟩

/-- C16, as stated, fails: in `worldUp` the call starts at 500000 and, with an old entry for
the symbol in the cache, stores the new payload with `ts` 500000; if the request took 3000 ms
the write happens at 503000, which is not the stamp. -/
theorem stamp_counterexample :
    ∃ out, fetchYahooData coerceNaN (cacheWith 0) worldUp "^GSPC" = .ok out
      ∧ out.value = payloadUp
      ∧ out.cache "^GSPC" = some ⟨payloadUp, 500000⟩
      ∧ clockAtWrite worldUp 3000 = 503000
      ∧ (out.cache "^GSPC").map (fun entry => entry.ts) ≠ some (clockAtWrite worldUp 3000) := by
  have hf : freshHit (cacheWith 0 "^GSPC") worldUp.now = none :=
    freshHit_eq_none_of_stale (cacheWith_get 0) (by decide)
  refine ⟨_, fetchYahooData_of_live coerceNaN (cacheWith 0) worldUp "^GSPC" hf
    liveFetch_worldUp, rfl, cache_set_same (cacheWith 0) "^GSPC" ⟨payloadUp, 500000⟩, rfl, ?_⟩
  show ((cacheWith 0).set "^GSPC" ⟨payloadUp, worldUp.now⟩ "^GSPC").map (fun entry => entry.ts)
    ≠ some (clockAtWrite worldUp 3000)
  rw [cache_set_same]
  show some (500000 : ℤ) ≠ some (500000 + 3000)
  decide

/-- C16, amended: after a successful live fetch for a symbol, whatever the cache held for it,
the entry of the symbol is the payload just built, which is also the value returned, stamped
with the `now` read on line 34 at the start of the call; a write that happens `elapsed > 0`
milliseconds later is therefore stamped with an earlier instant. -/
theorem live_fetch_overwrites_with_start_time (coerce : Coercion) (cache : Cache) (w : World)
    (symbol : String) (p : Payload) (hf : freshHit (cache symbol) w.now = none)
    (hl : liveFetch coerce w = .ok p) :
    ∃ out, fetchYahooData coerce cache w symbol = .ok out
      ∧ out.value = p
      ∧ out.cache symbol = some ⟨p, w.now⟩
      ∧ ∀ elapsed : ℤ, 0 < elapsed → w.now < clockAtWrite w elapsed := by
  refine ⟨_, fetchYahooData_of_live coerce cache w symbol hf hl, rfl,
    cache_set_same _ _ _, ?_⟩
  intro elapsed h
  unfold clockAtWrite
  omega

theorem live_fetch_overwrites_with_start_time_witness :
    freshHit (cacheWith 0 "^GSPC") worldUp.now = none
      ∧ liveFetch coerceNaN worldUp = .ok payloadUp
      ∧ ∃ out, fetchYahooData coerceNaN (cacheWith 0) worldUp "^GSPC" = .ok out
          ∧ out.value = payloadUp
          ∧ out.cache "^GSPC" = some ⟨payloadUp, worldUp.now⟩
          ∧ ∀ elapsed : ℤ, 0 < elapsed → worldUp.now < clockAtWrite worldUp elapsed :=
  ⟨freshHit_eq_none_of_stale (cacheWith_get 0) (by decide), liveFetch_worldUp,
    live_fetch_overwrites_with_start_time coerceNaN (cacheWith 0) worldUp "^GSPC" payloadUp
      (freshHit_eq_none_of_stale (cacheWith_get 0) (by decide)) liveFetch_worldUp⟩

/-- C17: a call of `fetchYahooData(symbol)` leaves the entries of all other symbols as they
were and removes no entry; on a fresh hit and on a failed upstream call the cache is the same
before and after; and a cache that differs afterwards comes from a successful live fetch, which
wrote the entry of `symbol`. -/
theorem cache_frame (coerce : Coercion) (cache : Cache) (w : World) (symbol : String) :
    ∃ out, fetchYahooData coerce cache w symbol = .ok out
      ∧ (∀ k, k ≠ symbol → out.cache k = cache k)
      ∧ (∀ k, (cache k).isSome = true → (out.cache k).isSome = true)
      ∧ ((∃ c, freshHit (cache symbol) w.now = some c) → out.cache = cache)
      ∧ ((∃ e, liveFetch coerce w = .error e) → out.cache = cache)
      ∧ (out.cache ≠ cache → ∃ p, freshHit (cache symbol) w.now = none
          ∧ liveFetch coerce w = .ok p ∧ out.cache = cache.set symbol ⟨p, w.now⟩) := by
  cases hf : freshHit (cache symbol) w.now with
  | some c =>
    exact ⟨_, fetchYahooData_of_fresh coerce cache w symbol hf, fun _ _ => rfl, fun _ h => h,
      fun _ => rfl, fun _ => rfl, fun h => absurd rfl h⟩
  | none =>
    cases hl : liveFetch coerce w with
    | ok p =>
      refine ⟨_, fetchYahooData_of_live coerce cache w symbol hf hl, ?_, ?_, ?_, ?_, ?_⟩
      · intro k hk
        exact cache_set_other cache symbol _ k hk
      · intro k hk
        by_cases hks : k = symbol
        · subst hks
          show (cache.set k ⟨p, w.now⟩ k).isSome = true
          rw [cache_set_same]
          rfl
        · show (cache.set symbol ⟨p, w.now⟩ k).isSome = true
          rw [cache_set_other cache symbol _ k hks]
          exact hk
      · rintro ⟨c, hc⟩
        cases hc
      · rintro ⟨e, he⟩
        cases he
      · intro _
        exact ⟨p, rfl, rfl, rfl⟩
    | error e =>
      have hcb : (catchBlock cache (cache symbol) w symbol).cache = cache := by
        unfold catchBlock
        cases cache symbol <;> rfl
      refine ⟨_, fetchYahooData_of_error coerce cache w symbol hf hl, ?_, ?_, ?_, ?_, ?_⟩
      · intro k _
        rw [hcb]
      · intro k hk
        rw [hcb]
        exact hk
      · intro _
        exact hcb
      · intro _
        exact hcb
      · intro h
        exact absurd hcb h

/-! ## The market clock -/

theorem digitChar_inj (i j : ℕ) (hi : i < 10) (hj : j < 10) :
    Nat.digitChar i = Nat.digitChar j ↔ i = j := by
  have h : ∀ a b : Fin 10, Nat.digitChar a = Nat.digitChar b ↔ a = b := by decide
  have := h ⟨i, hi⟩ ⟨j, hj⟩
  simpa [Fin.ext_iff] using this

theorem digitChar_lt (i j : ℕ) (hi : i < 10) (hj : j < 10) :
    (Nat.digitChar i).val < (Nat.digitChar j).val ↔ i < j := by
  have h : ∀ a b : Fin 10, (Nat.digitChar a).val < (Nat.digitChar b).val ↔ a < b := by decide
  have := h ⟨i, hi⟩ ⟨j, hj⟩
  simpa using this

theorem hhmm_data (h m : ℕ) :
    (hhmm h m).data = [Nat.digitChar (h / 10), Nat.digitChar (h % 10), ':',
      Nat.digitChar (m / 10), Nat.digitChar (m % 10)] := by
  simp [hhmm, pad2, String.data_append]

/-- On zero-padded times the string order is the order of the minutes since midnight. -/
theorem strLt_hhmm {h1 m1 h2 m2 : ℕ} (hh1 : h1 < 24) (hm1 : m1 < 60) (hh2 : h2 < 24)
    (hm2 : m2 < 60) :
    strLt (hhmm h1 m1).data (hhmm h2 m2).data
      = decide (minutesOfDay h1 m1 < minutesOfDay h2 m2) := by
  have ea := digitChar_inj (h1 / 10) (h2 / 10) (by omega) (by omega)
  have eb := digitChar_inj (h1 % 10) (h2 % 10) (by omega) (by omega)
  have ec := digitChar_inj (m1 / 10) (m2 / 10) (by omega) (by omega)
  have ed := digitChar_inj (m1 % 10) (m2 % 10) (by omega) (by omega)
  have la := digitChar_lt (h1 / 10) (h2 / 10) (by omega) (by omega)
  have lb := digitChar_lt (h1 % 10) (h2 % 10) (by omega) (by omega)
  have lc := digitChar_lt (m1 / 10) (m2 / 10) (by omega) (by omega)
  have ld := digitChar_lt (m1 % 10) (m2 % 10) (by omega) (by omega)
  rw [hhmm_data, hhmm_data]
  simp only [strLt, ea, eb, ec, ed, la, lb, lc, ld, if_true, minutesOfDay]
  split_ifs <;> simp only [decide_eq_decide, Bool.false_eq, decide_eq_false_iff_not] <;> omega

theorem strLt_irrefl (l : List Char) : strLt l l = false := by
  induction l with
  | nil => rfl
  | cons a as ih => simp [strLt, ih]

theorem pad2_ne_24 {h : ℕ} (hh : h < 24) : pad2 h ≠ "24" := by
  intro e
  have hd : [Nat.digitChar (h / 10), Nat.digitChar (h % 10)] = ['2', '4'] :=
    congrArg String.data e
  simp only [List.cons.injEq, and_true] at hd
  have h1 := (digitChar_inj (h / 10) 2 (by omega) (by omega)).1 hd.1
  have h2 := (digitChar_inj (h % 10) 4 (by omega) (by omega)).1 hd.2
  omega

theorem localTime_pad2 {parts : LocalParts} {h m : ℕ} (hh : h < 24)
    (hhour : parts.hour = pad2 h) (hmin : parts.minute = pad2 m) :
    localTime parts = hhmm h m := by
  simp [localTime, hhour, hmin, pad2_ne_24 hh, hhmm]

theorem getMarketStatus_weekday (intl : String → LocalParts)
    (timezone openTime closeTime : String)
    (hsat : (intl timezone).weekday ≠ "Sat") (hsun : (intl timezone).weekday ≠ "Sun") :
    getMarketStatus intl timezone openTime closeTime
      = (jsGe (localTime (intl timezone)) openTime
          && jsLe (localTime (intl timezone)) closeTime) := by
  simp [getMarketStatus, hsat, hsun]

/-- C12: on a weekday `getMarketStatus` is true iff `openTime <= t` and `t <= closeTime`
as strings, `t` being the local `HH:MM`; both bounds are inclusive; with the window 09:00 to
17:00 it is true at local 09:00 and 17:00 and false at local 08:59 and 17:01. -/
theorem weekday_window_inclusive (intl : String → LocalParts)
    (timezone openTime closeTime : String)
    (hsat : (intl timezone).weekday ≠ "Sat") (hsun : (intl timezone).weekday ≠ "Sun") :
    (getMarketStatus intl timezone openTime closeTime = true
        ↔ jsLe openTime (localTime (intl timezone)) = true
          ∧ jsLe (localTime (intl timezone)) closeTime = true)
      ∧ (localTime (intl timezone) = openTime → jsLe openTime closeTime = true
          → getMarketStatus intl timezone openTime closeTime = true)
      ∧ (localTime (intl timezone) = closeTime → jsLe openTime closeTime = true
          → getMarketStatus intl timezone openTime closeTime = true)
      ∧ getMarketStatus (clockAt "Mon" "09" "00") timezone "09:00" "17:00" = true
      ∧ getMarketStatus (clockAt "Mon" "17" "00") timezone "09:00" "17:00" = true
      ∧ getMarketStatus (clockAt "Mon" "08" "59") timezone "09:00" "17:00" = false
      ∧ getMarketStatus (clockAt "Mon" "17" "01") timezone "09:00" "17:00" = false := by
  have hw := getMarketStatus_weekday intl timezone openTime closeTime hsat hsun
  refine ⟨?_, ?_, ?_, rfl, rfl, rfl, rfl⟩
  · rw [hw, Bool.and_eq_true]
    exact Iff.rfl
  · intro ht hoc
    rw [hw, ht, Bool.and_eq_true]
    exact ⟨by simp [jsGe, strLt_irrefl], hoc⟩
  · intro ht hoc
    rw [hw, ht, Bool.and_eq_true]
    exact ⟨hoc, by simp [jsLe, strLt_irrefl]⟩

theorem weekday_window_inclusive_witness :
    (clockAt "Tue" "12" "30" "Europe/London").weekday ≠ "Sat"
      ∧ (clockAt "Tue" "12" "30" "Europe/London").weekday ≠ "Sun"
      ∧ (getMarketStatus (clockAt "Tue" "12" "30") "Europe/London" "08:00" "16:30" = true
          ↔ jsLe "08:00" (localTime (clockAt "Tue" "12" "30" "Europe/London")) = true
            ∧ jsLe (localTime (clockAt "Tue" "12" "30" "Europe/London")) "16:30" = true)
      ∧ (localTime (clockAt "Tue" "12" "30" "Europe/London") = "08:00"
          → jsLe "08:00" "16:30" = true
          → getMarketStatus (clockAt "Tue" "12" "30") "Europe/London" "08:00" "16:30" = true)
      ∧ (localTime (clockAt "Tue" "12" "30" "Europe/London") = "16:30"
          → jsLe "08:00" "16:30" = true
          → getMarketStatus (clockAt "Tue" "12" "30") "Europe/London" "08:00" "16:30" = true)
      ∧ getMarketStatus (clockAt "Mon" "09" "00") "Europe/London" "09:00" "17:00" = true
      ∧ getMarketStatus (clockAt "Mon" "17" "00") "Europe/London" "09:00" "17:00" = true
      ∧ getMarketStatus (clockAt "Mon" "08" "59") "Europe/London" "09:00" "17:00" = false
      ∧ getMarketStatus (clockAt "Mon" "17" "01") "Europe/London" "09:00" "17:00" = false :=
  ⟨by decide, by decide,
    weekday_window_inclusive (clockAt "Tue" "12" "30") "Europe/London" "08:00" "16:30"
      (by decide) (by decide)⟩

/-- C13: when the weekday `Intl` reports for the timezone is `Sat` or `Sun`,
`getMarketStatus` is false for every window and every local time of day. -/
theorem weekend_is_closed (intl : String → LocalParts) (timezone openTime closeTime : String)
    (hday : (intl timezone).weekday = "Sat" ∨ (intl timezone).weekday = "Sun") :
    getMarketStatus intl timezone openTime closeTime = false := by
  simp [getMarketStatus, hday]

theorem weekend_is_closed_witness :
    ((clockAt "Sat" "10" "00" "Asia/Tokyo").weekday = "Sat"
        ∨ (clockAt "Sat" "10" "00" "Asia/Tokyo").weekday = "Sun")
      ∧ getMarketStatus (clockAt "Sat" "10" "00") "Asia/Tokyo" "00:00" "23:59" = false :=
  ⟨Or.inl rfl, weekend_is_closed (clockAt "Sat" "10" "00") "Asia/Tokyo" "00:00" "23:59"
    (Or.inl rfl)⟩

/-- C14: for hours below 24 and minutes below 60, the string order of the zero-padded forms
`HH:MM` is the order of the minutes since midnight `60 * h + m`; so, on a weekday at local
`h:m`, the string test of `getMarketStatus` on the window `ho:mo` to `hc:mc` is the numeric
window test. -/
theorem string_window_is_numeric_window (intl : String → LocalParts) (timezone : String)
    (h m ho mo hc mc : ℕ) (hh : h < 24) (hm : m < 60) (hho : ho < 24) (hmo : mo < 60)
    (hhc : hc < 24) (hmc : mc < 60)
    (hsat : (intl timezone).weekday ≠ "Sat") (hsun : (intl timezone).weekday ≠ "Sun")
    (hhour : (intl timezone).hour = pad2 h) (hmin : (intl timezone).minute = pad2 m) :
    (strLt (hhmm ho mo).data (hhmm h m).data = true ↔ minutesOfDay ho mo < minutesOfDay h m)
      ∧ (jsLe (hhmm ho mo) (hhmm h m) = true ↔ minutesOfDay ho mo ≤ minutesOfDay h m)
      ∧ (jsGe (hhmm h m) (hhmm ho mo) = true ↔ minutesOfDay ho mo ≤ minutesOfDay h m)
      ∧ getMarketStatus intl timezone (hhmm ho mo) (hhmm hc mc)
          = numericWindow (minutesOfDay ho mo) (minutesOfDay h m) (minutesOfDay hc mc) := by
  refine ⟨?_, ?_, ?_, ?_⟩
  · rw [strLt_hhmm hho hmo hh hm, decide_eq_true_iff]
  · simp only [jsLe, strLt_hhmm hh hm hho hmo, Bool.not_eq_true', decide_eq_false_iff_not,
      not_lt]
  · simp only [jsGe, strLt_hhmm hh hm hho hmo, Bool.not_eq_true', decide_eq_false_iff_not,
      not_lt]
  · rw [getMarketStatus_weekday intl timezone _ _ hsat hsun, localTime_pad2 hh hhour hmin]
    simp only [jsGe, jsLe, strLt_hhmm hh hm hho hmo, strLt_hhmm hhc hmc hh hm, numericWindow]
    by_cases h1 : minutesOfDay h m < minutesOfDay ho mo <;>
      by_cases h2 : minutesOfDay hc mc < minutesOfDay h m <;>
      simp [h1, h2, not_le.2, not_lt.1]

theorem string_window_is_numeric_window_witness :
    12 < 24 ∧ 30 < 60 ∧ 9 < 24 ∧ 30 < 60 ∧ 16 < 24 ∧ 0 < 60
      ∧ (clockAt "Wed" "12" "30" "America/New_York").weekday ≠ "Sat"
      ∧ (clockAt "Wed" "12" "30" "America/New_York").weekday ≠ "Sun"
      ∧ (clockAt "Wed" "12" "30" "America/New_York").hour = pad2 12
      ∧ (clockAt "Wed" "12" "30" "America/New_York").minute = pad2 30
      ∧ (strLt (hhmm 9 30).data (hhmm 12 30).data = true
          ↔ minutesOfDay 9 30 < minutesOfDay 12 30)
      ∧ (jsLe (hhmm 9 30) (hhmm 12 30) = true ↔ minutesOfDay 9 30 ≤ minutesOfDay 12 30)
      ∧ (jsGe (hhmm 12 30) (hhmm 9 30) = true ↔ minutesOfDay 9 30 ≤ minutesOfDay 12 30)
      ∧ getMarketStatus (clockAt "Wed" "12" "30") "America/New_York" (hhmm 9 30) (hhmm 16 0)
          = numericWindow (minutesOfDay 9 30) (minutesOfDay 12 30) (minutesOfDay 16 0) :=
  ⟨by decide, by decide, by decide, by decide, by decide, by decide, by decide, by decide,
    by decide, by decide,
    string_window_is_numeric_window (clockAt "Wed" "12" "30") "America/New_York" 12 30 9 30 16 0
      (by decide) (by decide) (by decide) (by decide) (by decide) (by decide) (by decide)
      (by decide) (by decide) (by decide)⟩

/-! ## The endpoints -/

theorem fetchYahooData_total (coerce : Coercion) (cache : Cache) (w : World) (symbol : String) :
    ∃ out, fetchYahooData coerce cache w symbol = .ok out := by
  cases hf : freshHit (cache symbol) w.now with
  | some c => exact ⟨_, fetchYahooData_of_fresh coerce cache w symbol hf⟩
  | none =>
    cases hl : liveFetch coerce w with
    | ok p => exact ⟨_, fetchYahooData_of_live coerce cache w symbol hf hl⟩
    | error e => exact ⟨_, fetchYahooData_of_error coerce cache w symbol hf hl⟩

theorem fetchYahooData_degraded (coerce : Coercion) (cache : Cache) (w : World)
    (symbol : String) {e : JSErr} (hl : liveFetch coerce w = .error e) :
    ∃ out, fetchYahooData coerce cache w symbol = .ok out
      ∧ out.value = degraded cache w symbol := by
  cases hf : freshHit (cache symbol) w.now with
  | some c =>
    refine ⟨_, fetchYahooData_of_fresh coerce cache w symbol hf, ?_⟩
    have hc := (freshHit_some_iff.1 hf).1
    simp [degraded, hc]
  | none =>
    refine ⟨_, fetchYahooData_of_error coerce cache w symbol hf hl, ?_⟩
    unfold catchBlock degraded
    cases cache symbol <;> rfl

theorem getMarketStatusOrThrow_of_some {intl : String → Option LocalParts}
    {timezone : String} {parts : LocalParts} (openTime closeTime : String)
    (h : intl timezone = some parts) :
    getMarketStatusOrThrow intl timezone openTime closeTime
      = .ok (getMarketStatus (fun _ => parts) timezone openTime closeTime) := by
  simp [getMarketStatusOrThrow, h]

theorem getMarketStatusOrThrow_of_none {intl : String → Option LocalParts}
    {timezone : String} (openTime closeTime : String) (h : intl timezone = none) :
    getMarketStatusOrThrow intl timezone openTime closeTime = .error .rangeError := by
  simp [getMarketStatusOrThrow, h]

theorem exchangeEntry_of_ok {coerce : Coercion} {cache : Cache} {env : CallEnv} {ex : Exchange}
    {out : Outcome} {parts : LocalParts}
    (h : fetchYahooData coerce cache env.world ex.yahoo_symbol = .ok out)
    (hz : env.intl ex.timezone = some parts) :
    exchangeEntry coerce cache env ex
      = .ok ⟨ex, getMarketStatus (fun _ => parts) ex.timezone ex.open_time ex.close_time,
          out.value⟩ := by
  simp [exchangeEntry, h, getMarketStatusOrThrow_of_some _ _ hz, bind, Except.bind, pure,
    Except.pure]

theorem exchangeEntry_of_rejected (coerce : Coercion) (cache : Cache) {env : CallEnv}
    {ex : Exchange} (hz : env.intl ex.timezone = none) :
    exchangeEntry coerce cache env ex = .error .rangeError := by
  obtain ⟨out, hout⟩ := fetchYahooData_total coerce cache env.world ex.yahoo_symbol
  simp [exchangeEntry, hout, getMarketStatusOrThrow_of_none _ _ hz, bind, Except.bind]

theorem gatherEntries_spec (coerce : Coercion) (cache : Cache) (envs : ℕ → CallEnv) :
    ∀ (l : List Exchange) (i : ℕ),
      (∀ (j : ℕ) (ex : Exchange), l[j]? = some ex →
        ∃ parts, (envs (i + j)).intl ex.timezone = some parts) →
      ∃ rs, gatherEntries coerce cache envs i l = .ok rs
        ∧ rs.length = l.length
        ∧ rs.map (fun a => a.ex) = l
        ∧ ∀ (j : ℕ) (ex : Exchange), l[j]? = some ex →
            ∃ out parts,
              fetchYahooData coerce cache (envs (i + j)).world ex.yahoo_symbol = .ok out
              ∧ (envs (i + j)).intl ex.timezone = some parts
              ∧ rs[j]? = some ⟨ex, getMarketStatus (fun _ => parts) ex.timezone ex.open_time
                  ex.close_time, out.value⟩ := by
  intro l
  induction l with
  | nil =>
    intro i _
    exact ⟨[], rfl, rfl, rfl, fun j ex h => by simp at h⟩
  | cons x rest ih =>
    intro i hz
    obtain ⟨out, hout⟩ := fetchYahooData_total coerce cache (envs i).world x.yahoo_symbol
    obtain ⟨parts, hparts⟩ := hz 0 x (by simp)
    have hparts0 : (envs i).intl x.timezone = some parts := by simpa using hparts
    have hz2 : ∀ (j : ℕ) (ex : Exchange), rest[j]? = some ex →
        ∃ parts, (envs (i + 1 + j)).intl ex.timezone = some parts := by
      intro j ex hj
      have hidx : i + 1 + j = i + (j + 1) := by omega
      rw [hidx]
      exact hz (j + 1) ex (by simpa using hj)
    obtain ⟨rs, hrs, hlen, hmap, hget⟩ := ih (i + 1) hz2
    refine ⟨⟨x, getMarketStatus (fun _ => parts) x.timezone x.open_time x.close_time,
      out.value⟩ :: rs, ?_, ?_, ?_, ?_⟩
    · simp [gatherEntries, exchangeEntry_of_ok hout hparts0, hrs, bind, Except.bind, pure,
        Except.pure]
    · simp [hlen]
    · simp [hmap]
    · intro j ex hj
      cases j with
      | zero =>
        simp only [List.getElem?_cons_zero, Option.some.injEq] at hj
        subst hj
        exact ⟨out, parts, hout, hparts0, by simp⟩
      | succ j =>
        simp only [List.getElem?_cons_succ] at hj
        obtain ⟨o, ps, ho, hp, hr⟩ := hget j ex hj
        have hidx : i + 1 + j = i + (j + 1) := by omega
        rw [hidx] at ho hp
        exact ⟨o, ps, ho, hp, by simpa using hr⟩

theorem gatherEntries_rejected (coerce : Coercion) (cache : Cache) (envs : ℕ → CallEnv) :
    ∀ (l : List Exchange) (i j : ℕ) (ex : Exchange), l[j]? = some ex →
      (envs (i + j)).intl ex.timezone = none →
      ∃ e, gatherEntries coerce cache envs i l = .error e := by
  intro l
  induction l with
  | nil =>
    intro i j ex h
    simp at h
  | cons x rest ih =>
    intro i j ex hj hz
    cases hx : exchangeEntry coerce cache (envs i) x with
    | error e => exact ⟨e, by simp [gatherEntries, hx, bind, Except.bind]⟩
    | ok entry =>
      cases j with
      | zero =>
        simp only [List.getElem?_cons_zero, Option.some.injEq] at hj
        subst hj
        rw [exchangeEntry_of_rejected coerce cache (by simpa using hz)] at hx
        cases hx
      | succ j =>
        simp only [List.getElem?_cons_succ] at hj
        have hidx : i + (j + 1) = i + 1 + j := by omega
        rw [hidx] at hz
        obtain ⟨e, he⟩ := ih (i + 1) j ex hj hz
        exact ⟨e, by simp [gatherEntries, hx, he, bind, Except.bind]⟩

theorem getExchanges_of_accepted (coerce : Coercion) (exchanges : List Exchange)
    (cache : Cache) (envs : ℕ → CallEnv)
    (hz : ∀ (i : ℕ) (ex : Exchange), exchanges[i]? = some ex →
      ∃ parts, (envs i).intl ex.timezone = some parts) :
    ∃ results, getExchanges coerce exchanges cache envs = .json 200 results
      ∧ results.length = exchanges.length
      ∧ results.map (fun a => a.ex) = exchanges
      ∧ ∀ (i : ℕ) (ex : Exchange), exchanges[i]? = some ex →
          ∃ out parts, fetchYahooData coerce cache (envs i).world ex.yahoo_symbol = .ok out
            ∧ (envs i).intl ex.timezone = some parts
            ∧ results[i]? = some ⟨ex, getMarketStatus (fun _ => parts) ex.timezone
                ex.open_time ex.close_time, out.value⟩ := by
  obtain ⟨rs, hrs, hlen, hmap, hget⟩ :=
    gatherEntries_spec coerce cache envs exchanges 0 (by simpa using hz)
  refine ⟨rs, ?_, hlen, hmap, ?_⟩
  · simp [getExchanges, hrs]
  · intro i ex hi
    simpa using hget i ex hi

theorem getExchanges_of_rejected (coerce : Coercion) (exchanges : List Exchange)
    (cache : Cache) (envs : ℕ → CallEnv) {i : ℕ} {ex : Exchange}
    (hi : exchanges[i]? = some ex) (hz : (envs i).intl ex.timezone = none) :
    getExchanges coerce exchanges cache envs = .error 500 "Exchange data unavailable" := by
  obtain ⟨e, he⟩ := gatherEntries_rejected coerce cache envs exchanges 0 i ex hi
    (by simpa using hz)
  simp [getExchanges, he]

theorem getExchange_of_find {coerce : Coercion} {exchanges : List Exchange} {cache : Cache}
    {env : CallEnv} {id : String} {ex : Exchange} {out : Outcome} {parts : LocalParts}
    (hfind : exchanges.find? (fun x => decide (x.id = id)) = some ex)
    (hout : fetchYahooData coerce cache env.world ex.yahoo_symbol = .ok out)
    (hz : env.intl ex.timezone = some parts) :
    getExchange coerce exchanges cache env id
      = .json 200 ⟨ex, getMarketStatus (fun _ => parts) ex.timezone ex.open_time
          ex.close_time, out.value⟩ := by
  simp [getExchange, hfind, exchangeEntry_of_ok hout hz]

theorem getExchange_of_rejected {coerce : Coercion} {exchanges : List Exchange}
    {cache : Cache} {env : CallEnv} {id : String} {ex : Exchange}
    (hfind : exchanges.find? (fun x => decide (x.id = id)) = some ex)
    (hz : env.intl ex.timezone = none) :
    getExchange coerce exchanges cache env id = .error 500 "Data unavailable" := by
  simp [getExchange, hfind, exchangeEntry_of_rejected coerce cache hz]

theorem find_none_iff (exchanges : List Exchange) (id : String) :
    exchanges.find? (fun x => decide (x.id = id)) = none ↔ ∀ x ∈ exchanges, x.id ≠ id := by
  simp [List.find?_eq_none]

/-- C18, as stated, fails: with the exchanges `nyse` and `lse` configured, `lse` carrying a
timezone the runtime rejects, `GET /api/exchanges` answers with status 500 and the error
`Exchange data unavailable`, and with no entry at all, whatever the upstream calls did. -/
theorem exchange_list_counterexample :
    [nyse, lse][1]? = some lse
      ∧ envDown.intl lse.timezone = none
      ∧ getExchanges coerceNaN [nyse, lse] emptyCache (fun _ => envDown)
          = .error 500 "Exchange data unavailable"
      ∧ getExchanges coerceNaN [nyse, lse] emptyCache (fun _ => envUp)
          = .error 500 "Exchange data unavailable"
      ∧ (getExchanges coerceNaN [nyse, lse] emptyCache (fun _ => envDown)).status = 500
      ∧ ¬ ∃ results, getExchanges coerceNaN [nyse, lse] emptyCache (fun _ => envDown)
          = .json 200 results := by
  have h1 : getExchanges coerceNaN [nyse, lse] emptyCache (fun _ => envDown)
      = .error 500 "Exchange data unavailable" :=
    getExchanges_of_rejected coerceNaN [nyse, lse] emptyCache (fun _ => envDown)
      (rfl : [nyse, lse][1]? = some lse) rfl
  have h2 : getExchanges coerceNaN [nyse, lse] emptyCache (fun _ => envUp)
      = .error 500 "Exchange data unavailable" :=
    getExchanges_of_rejected coerceNaN [nyse, lse] emptyCache (fun _ => envUp)
      (rfl : [nyse, lse][1]? = some lse) rfl
  refine ⟨rfl, rfl, h1, h2, by rw [h1]; rfl, ?_⟩
  rintro ⟨results, hr⟩
  rw [h1] at hr
  cases hr

/-- C18, amended: for every configured list of exchanges whose timezones the runtime accepts,
every cache and every settlement of the upstream calls, `GET /api/exchanges` answers with
status 200 and one entry per exchange, in configuration order; the entry of an exchange holds
what its own `fetchYahooData` call returned, whatever happened to the other calls. When the
runtime rejects the timezone of a configured exchange, the answer is status 500 with the error
`Exchange data unavailable`. -/
theorem all_exchanges_always_answer (coerce : Coercion) (exchanges : List Exchange)
    (cache : Cache) (envs : ℕ → CallEnv) :
    ((∀ (i : ℕ) (ex : Exchange), exchanges[i]? = some ex →
        ∃ parts, (envs i).intl ex.timezone = some parts) →
      ∃ results, getExchanges coerce exchanges cache envs = .json 200 results
        ∧ results.length = exchanges.length
        ∧ results.map (fun a => a.ex) = exchanges
        ∧ ∀ (i : ℕ) (ex : Exchange), exchanges[i]? = some ex →
            ∃ out parts, fetchYahooData coerce cache (envs i).world ex.yahoo_symbol = .ok out
              ∧ (envs i).intl ex.timezone = some parts
              ∧ results[i]? = some ⟨ex, getMarketStatus (fun _ => parts) ex.timezone
                  ex.open_time ex.close_time, out.value⟩)
      ∧ ((∃ (i : ℕ) (ex : Exchange), exchanges[i]? = some ex
            ∧ (envs i).intl ex.timezone = none) →
          getExchanges coerce exchanges cache envs
            = .error 500 "Exchange data unavailable") := by
  refine ⟨getExchanges_of_accepted coerce exchanges cache envs, ?_⟩
  rintro ⟨i, ex, hi, hz⟩
  exact getExchanges_of_rejected coerce exchanges cache envs hi hz

theorem sampleZones_accepts (i : ℕ) (ex : Exchange) (h : sampleExchanges[i]? = some ex) :
    ∃ parts, sampleZones ex.timezone = some parts := by
  have hmem : ex ∈ sampleExchanges := List.getElem?_mem h
  simp only [sampleExchanges, List.mem_cons, List.mem_singleton, List.not_mem_nil,
    or_false] at hmem
  rcases hmem with rfl | rfl
  · exact ⟨clockAt "Mon" "10" "15" "America/New_York", rfl⟩
  · exact ⟨clockAt "Mon" "10" "15" "Asia/Tokyo", rfl⟩

theorem all_exchanges_always_answer_witness :
    (∀ (i : ℕ) (ex : Exchange), sampleExchanges[i]? = some ex →
        ∃ parts, ((fun _ => envDown) i).intl ex.timezone = some parts)
      ∧ (∃ results, getExchanges coerceNaN sampleExchanges emptyCache (fun _ => envDown)
            = .json 200 results
          ∧ results.length = sampleExchanges.length
          ∧ results.map (fun a => a.ex) = sampleExchanges
          ∧ ∀ (i : ℕ) (ex : Exchange), sampleExchanges[i]? = some ex →
              ∃ out parts,
                fetchYahooData coerceNaN emptyCache ((fun _ => envDown) i).world
                    ex.yahoo_symbol = .ok out
                ∧ ((fun _ => envDown) i).intl ex.timezone = some parts
                ∧ results[i]? = some ⟨ex, getMarketStatus (fun _ => parts) ex.timezone
                    ex.open_time ex.close_time, out.value⟩)
      ∧ (∃ (i : ℕ) (ex : Exchange), [nyse, lse][i]? = some ex
          ∧ ((fun _ => envDown) i).intl ex.timezone = none)
      ∧ getExchanges coerceNaN [nyse, lse] emptyCache (fun _ => envDown)
          = .error 500 "Exchange data unavailable" :=
  ⟨sampleZones_accepts,
    (all_exchanges_always_answer coerceNaN sampleExchanges emptyCache (fun _ => envDown)).1
      sampleZones_accepts,
    ⟨1, lse, rfl, rfl⟩,
    (all_exchanges_always_answer coerceNaN [nyse, lse] emptyCache (fun _ => envDown)).2
      ⟨1, lse, rfl, rfl⟩⟩

/-- C19, as stated, fails: when the request of `GET /api/crypto` is rejected, and also when
its response is no array, the handler answers with status 500 and the error
`Crypto data unavailable`. -/
theorem crypto_failure_counterexample :
    getCrypto sampleKeyOf sampleParseFloat none = .error 500 "Crypto data unavailable"
      ∧ (getCrypto sampleKeyOf sampleParseFloat none).status = 500
      ∧ getCrypto sampleKeyOf sampleParseFloat (some (.obj [("code", .num (-1003))]))
          = .error 500 "Crypto data unavailable" :=
  ⟨rfl, rfl, rfl⟩

/-- C19, amended: where the runtime accepts the configured timezones, the two exchange
endpoints never surface a failed upstream call: the list endpoint answers 200 with, for each
exchange whose call failed, the cached payload of its symbol or else a simulated one, and so
does the single-exchange endpoint for a configured id; `GET /api/crypto` has no fallback and
answers status 500 with the error `Crypto data unavailable` whenever its `try` block
throws. -/
theorem upstream_failure_by_endpoint (coerce : Coercion) (exchanges : List Exchange)
    (cache : Cache) (envs : ℕ → CallEnv) (env : CallEnv) (id : String) (ex : Exchange)
    (e : JSErr) (keyOf : JSVal → String) (parseFloatOf : JSVal → Option ℚ)
    (upstream : Option JSVal) (e2 : JSErr)
    (hzones : ∀ (i : ℕ) (x : Exchange), exchanges[i]? = some x →
      ∃ parts, (envs i).intl x.timezone = some parts)
    (hfind : exchanges.find? (fun x => decide (x.id = id)) = some ex)
    (hzone : ∃ parts, env.intl ex.timezone = some parts)
    (hfail : liveFetch coerce env.world = .error e)
    (hcrypto : cryptoQuotes keyOf parseFloatOf upstream = .error e2) :
    (∃ results, getExchanges coerce exchanges cache envs = .json 200 results
        ∧ ∀ (i : ℕ) (x : Exchange) (e1 : JSErr), exchanges[i]? = some x
            → liveFetch coerce (envs i).world = .error e1 →
            ∃ a, results[i]? = some a ∧ a.ex = x
              ∧ a.live = degraded cache (envs i).world x.yahoo_symbol)
      ∧ (∃ a, getExchange coerce exchanges cache env id = .json 200 a ∧ a.ex = ex
          ∧ a.live = degraded cache env.world ex.yahoo_symbol)
      ∧ getCrypto keyOf parseFloatOf upstream = .error 500 "Crypto data unavailable"
      ∧ getCrypto keyOf parseFloatOf none = .error 500 "Crypto data unavailable" := by
  refine ⟨?_, ?_, ?_, rfl⟩
  · obtain ⟨rs, hrs, -, -, hget⟩ := getExchanges_of_accepted coerce exchanges cache envs hzones
    refine ⟨rs, hrs, ?_⟩
    intro i x e1 hi hl
    obtain ⟨o, ps, ho, -, hr⟩ := hget i x hi
    obtain ⟨o2, ho2, hv⟩ :=
      fetchYahooData_degraded coerce cache (envs i).world x.yahoo_symbol hl
    rw [ho] at ho2
    cases ho2
    exact ⟨_, hr, rfl, hv⟩
  · obtain ⟨o, ho, hv⟩ := fetchYahooData_degraded coerce cache env.world ex.yahoo_symbol hfail
    obtain ⟨parts, hparts⟩ := hzone
    exact ⟨_, getExchange_of_find hfind ho hparts, rfl, hv⟩
  · simp [getCrypto, hcrypto]

theorem upstream_failure_by_endpoint_witness :
    (∀ (i : ℕ) (x : Exchange), sampleExchanges[i]? = some x →
        ∃ parts, ((fun _ => envDown) i).intl x.timezone = some parts)
      ∧ sampleExchanges.find? (fun x => decide (x.id = "TSE")) = some tse
      ∧ (∃ parts, envDown.intl tse.timezone = some parts)
      ∧ liveFetch coerceNaN envDown.world = .error .axiosError
      ∧ cryptoQuotes sampleKeyOf sampleParseFloat (some (.str "<html>")) = .error .typeError
      ∧ (∃ results, getExchanges coerceNaN sampleExchanges emptyCache (fun _ => envDown)
            = .json 200 results
          ∧ ∀ (i : ℕ) (x : Exchange) (e1 : JSErr), sampleExchanges[i]? = some x
              → liveFetch coerceNaN ((fun _ => envDown) i).world = .error e1 →
              ∃ a, results[i]? = some a ∧ a.ex = x
                ∧ a.live = degraded emptyCache ((fun _ => envDown) i).world x.yahoo_symbol)
      ∧ (∃ a, getExchange coerceNaN sampleExchanges emptyCache envDown "TSE" = .json 200 a
          ∧ a.ex = tse ∧ a.live = degraded emptyCache envDown.world tse.yahoo_symbol)
      ∧ getCrypto sampleKeyOf sampleParseFloat (some (.str "<html>"))
          = .error 500 "Crypto data unavailable"
      ∧ getCrypto sampleKeyOf sampleParseFloat none = .error 500 "Crypto data unavailable" :=
  ⟨sampleZones_accepts, rfl, ⟨clockAt "Mon" "10" "15" "Asia/Tokyo", rfl⟩, rfl, rfl,
    upstream_failure_by_endpoint coerceNaN sampleExchanges emptyCache (fun _ => envDown) envDown
      "TSE" tse .axiosError sampleKeyOf sampleParseFloat (some (.str "<html>")) .typeError
      sampleZones_accepts rfl ⟨clockAt "Mon" "10" "15" "Asia/Tokyo", rfl⟩ rfl rfl⟩

/-- C20, as stated, fails: with `lse` configured under a timezone the runtime rejects, the
lookup of the id `LSE`, which matches, returns no aggregate: it answers with status 500 and
the error `Data unavailable`. -/
theorem exchange_lookup_counterexample :
    lse ∈ [nyse, lse] ∧ lse.id = "LSE"
      ∧ [nyse, lse].find? (fun x => decide (x.id = "LSE")) = some lse
      ∧ envDown.intl lse.timezone = none
      ∧ getExchange coerceNaN [nyse, lse] emptyCache envDown "LSE"
          = .error 500 "Data unavailable"
      ∧ (getExchange coerceNaN [nyse, lse] emptyCache envDown "LSE").status = 500
      ∧ ¬ ∃ a, getExchange coerceNaN [nyse, lse] emptyCache envDown "LSE" = .json 200 a := by
  have h : getExchange coerceNaN [nyse, lse] emptyCache envDown "LSE"
      = .error 500 "Data unavailable" :=
    getExchange_of_rejected (rfl : [nyse, lse].find? (fun x => decide (x.id = "LSE")) = some lse)
      rfl
  refine ⟨by simp, rfl, rfl, rfl, h, by rw [h]; rfl, ?_⟩
  rintro ⟨a, ha⟩
  rw [h] at ha
  cases ha

/-- C20, amended: `GET /api/exchange/:id` answers with status 404 iff no configured exchange
has the id. When one has, the first such exchange is served and the answer is never 404: it
is status 200 with the aggregate of that exchange (the descriptor, `is_open` and the payload
its `fetchYahooData` call returned) when the runtime accepts its timezone, and status 500
with the error `Data unavailable` when it does not. -/
theorem exchange_lookup_not_found_iff (coerce : Coercion) (exchanges : List Exchange)
    (cache : Cache) (env : CallEnv) (id : String) :
    ((getExchange coerce exchanges cache env id).status = 404 ↔ ∀ x ∈ exchanges, x.id ≠ id)
      ∧ (getExchange coerce exchanges cache env id = .error 404 "Exchange not found"
          ↔ ∀ x ∈ exchanges, x.id ≠ id)
      ∧ (∀ (ex : Exchange) (parts : LocalParts),
          exchanges.find? (fun x => decide (x.id = id)) = some ex →
          env.intl ex.timezone = some parts →
          ∃ out, fetchYahooData coerce cache env.world ex.yahoo_symbol = .ok out
            ∧ getExchange coerce exchanges cache env id
              = .json 200 ⟨ex, getMarketStatus (fun _ => parts) ex.timezone ex.open_time
                  ex.close_time, out.value⟩)
      ∧ (∀ ex : Exchange, exchanges.find? (fun x => decide (x.id = id)) = some ex →
          env.intl ex.timezone = none →
          getExchange coerce exchanges cache env id = .error 500 "Data unavailable")
      ∧ (∀ x ∈ exchanges, x.id = id →
          (∃ a, getExchange coerce exchanges cache env id = .json 200 a ∧ a.ex.id = id)
            ∨ getExchange coerce exchanges cache env id = .error 500 "Data unavailable") := by
  have hsome : ∀ (ex : Exchange) (parts : LocalParts),
      exchanges.find? (fun x => decide (x.id = id)) = some ex →
      env.intl ex.timezone = some parts →
      ∃ out, fetchYahooData coerce cache env.world ex.yahoo_symbol = .ok out
        ∧ getExchange coerce exchanges cache env id
          = .json 200 ⟨ex, getMarketStatus (fun _ => parts) ex.timezone ex.open_time
              ex.close_time, out.value⟩ := by
    intro ex parts hfind hz
    obtain ⟨out, hout⟩ := fetchYahooData_total coerce cache env.world ex.yahoo_symbol
    exact ⟨out, hout, getExchange_of_find hfind hout hz⟩
  have hnone := find_none_iff exchanges id
  have hcases : ∀ ex : Exchange, exchanges.find? (fun x => decide (x.id = id)) = some ex →
      (∃ a, getExchange coerce exchanges cache env id = .json 200 a ∧ a.ex = ex)
        ∨ getExchange coerce exchanges cache env id = .error 500 "Data unavailable" := by
    intro ex hfind
    cases hz : env.intl ex.timezone with
    | none => exact Or.inr (getExchange_of_rejected hfind hz)
    | some parts =>
      obtain ⟨out, -, hresp⟩ := hsome ex parts hfind hz
      exact Or.inl ⟨_, hresp, rfl⟩
  refine ⟨?_, ?_, hsome, fun ex hfind hz => getExchange_of_rejected hfind hz, ?_⟩
  · cases hfind : exchanges.find? (fun x => decide (x.id = id)) with
    | none =>
      have hall := hnone.1 hfind
      simp only [getExchange, hfind, Response.status, true_iff]
      exact hall
    | some ex =>
      constructor
      · intro h
        rcases hcases ex hfind with ⟨a, ha, -⟩ | hb
        · rw [ha] at h
          cases h
        · rw [hb] at h
          cases h
      · intro hall
        have := hnone.2 hall
        rw [hfind] at this
        cases this
  · cases hfind : exchanges.find? (fun x => decide (x.id = id)) with
    | none =>
      have hall := hnone.1 hfind
      simp only [getExchange, hfind, true_iff]
      exact hall
    | some ex =>
      constructor
      · intro h
        rcases hcases ex hfind with ⟨a, ha, -⟩ | hb
        · rw [ha] at h
          cases h
        · rw [hb] at h
          cases h
      · intro hall
        have := hnone.2 hall
        rw [hfind] at this
        cases this
  · intro x hx hid
    cases hfind : exchanges.find? (fun x => decide (x.id = id)) with
    | none => exact absurd hid (hnone.1 hfind x hx)
    | some ex =>
      rcases hcases ex hfind with ⟨a, ha, hex⟩ | hb
      · refine Or.inl ⟨a, ha, ?_⟩
        have := List.find?_some hfind
        rw [hex]
        simpa using this
      · exact Or.inr hb

theorem exchange_lookup_not_found_iff_witness :
    sampleExchanges.find? (fun x => decide (x.id = "TSE")) = some tse
      ∧ envDown.intl tse.timezone = some (clockAt "Mon" "10" "15" "Asia/Tokyo")
      ∧ (∃ out, fetchYahooData coerceNaN emptyCache envDown.world tse.yahoo_symbol = .ok out
          ∧ getExchange coerceNaN sampleExchanges emptyCache envDown "TSE"
            = .json 200 ⟨tse, getMarketStatus (fun _ => clockAt "Mon" "10" "15" "Asia/Tokyo")
                tse.timezone tse.open_time tse.close_time, out.value⟩)
      ∧ [nyse, lse].find? (fun x => decide (x.id = "LSE")) = some lse
      ∧ envDown.intl lse.timezone = none
      ∧ getExchange coerceNaN [nyse, lse] emptyCache envDown "LSE"
          = .error 500 "Data unavailable"
      ∧ (∀ x ∈ sampleExchanges, x.id ≠ "BSE")
      ∧ (getExchange coerceNaN sampleExchanges emptyCache envDown "BSE").status = 404 :=
  ⟨rfl, rfl,
    (exchange_lookup_not_found_iff coerceNaN sampleExchanges emptyCache envDown "TSE").2.2.1
      tse (clockAt "Mon" "10" "15" "Asia/Tokyo") rfl rfl,
    rfl, rfl,
    (exchange_lookup_not_found_iff coerceNaN [nyse, lse] emptyCache envDown "LSE").2.2.2.1
      lse rfl rfl,
    by decide,
    (exchange_lookup_not_found_iff coerceNaN sampleExchanges emptyCache envDown "BSE").1.2
      (by decide)⟩

/-! ## The simulated payload, overnight windows and the closes -/

/-- A value between two whole numbers of hundredths stays between them when rounded. -/
theorem parseFloat_toFixed_between (x : ℚ) (ka kb : ℤ) (ha : (ka : ℚ) / 100 ≤ x)
    (hb : x ≤ (kb : ℚ) / 100) :
    (ka : ℚ) / 100 ≤ parseFloat (toFixed x) ∧ parseFloat (toFixed x) ≤ (kb : ℚ) / 100 := by
  by_cases hx : x < 0
  · rw [parseFloat_toFixed_of_neg hx]
    have h1 : -kb ≤ ⌊(-x) * 100 + 1 / 2⌋ := by
      rw [Int.le_floor]
      push_cast
      linarith
    have h2 : ⌊(-x) * 100 + 1 / 2⌋ < -ka + 1 := by
      rw [Int.floor_lt]
      push_cast
      linarith
    have h3 : ⌊(-x) * 100 + 1 / 2⌋ ≤ -ka := by omega
    have h1q : ((-kb : ℤ) : ℚ) ≤ ((⌊(-x) * 100 + 1 / 2⌋ : ℤ) : ℚ) := by exact_mod_cast h1
    have h3q : ((⌊(-x) * 100 + 1 / 2⌋ : ℤ) : ℚ) ≤ ((-ka : ℤ) : ℚ) := by exact_mod_cast h3
    push_cast at h1q h3q
    constructor <;> linarith
  · rw [parseFloat_toFixed_of_nonneg hx]
    have h1 : ka ≤ ⌊x * 100 + 1 / 2⌋ := by
      rw [Int.le_floor]
      linarith
    have h2 : ⌊x * 100 + 1 / 2⌋ < kb + 1 := by
      rw [Int.floor_lt]
      push_cast
      linarith
    have h3 : ⌊x * 100 + 1 / 2⌋ ≤ kb := by omega
    have h1q : (ka : ℚ) ≤ ((⌊x * 100 + 1 / 2⌋ : ℤ) : ℚ) := by exact_mod_cast h1
    have h3q : ((⌊x * 100 + 1 / 2⌋ : ℤ) : ℚ) ≤ (kb : ℚ) := by exact_mod_cast h3
    constructor <;> linarith

/-- C25: when the upstream call fails, nothing is cached and the draws of lines 79-80 are in
[0,1), the simulated payload has a `percentage_change` that is a whole number of hundredths
in [-2, 2], a `previous_close` `b` in [5000, 15000), an `index_value` that is
`b * (1 + p / 100)` through `toFixed(2)`, and an empty sparkline. -/
theorem synthetic_payload_bounds (coerce : Coercion) (cache : Cache) (w : World)
    (symbol : String) (e : JSErr) (hfail : liveFetch coerce w = .error e)
    (hnone : cache symbol = none) (hb0 : 0 ≤ w.baseRandom) (hb1 : w.baseRandom < 1)
    (hc0 : 0 ≤ w.changeRandom) (hc1 : w.changeRandom < 1) :
    ∃ out b, fetchYahooData coerce cache w symbol = .ok out
      ∧ (∃ k : ℤ, out.value.percentage_change = (k : ℚ) / 100)
      ∧ -2 ≤ out.value.percentage_change ∧ out.value.percentage_change ≤ 2
      ∧ out.value.previous_close = .num b ∧ 5000 ≤ b ∧ b < 15000
      ∧ out.value.index_value = toFixed (b * (1 + out.value.percentage_change / 100))
      ∧ out.value.sparkline = [] := by
  have hf : freshHit (cache symbol) w.now = none := by rw [hnone]; rfl
  have hout := fetchYahooData_of_error coerce cache w symbol hf hfail
  have hv : (catchBlock cache (cache symbol) w symbol).value = synthetic w := by
    simp [catchBlock, hnone]
  have hbound := parseFloat_toFixed_between (w.changeRandom * 4 - 2) (-200) 200
    (by push_cast; linarith) (by push_cast; linarith)
  refine ⟨_, w.baseRandom * 10000 + 5000, hout, ?_, ?_, ?_, ?_, ?_, ?_, ?_, ?_⟩
  · rw [hv]
    exact parseFloat_toFixed_hundredths _
  · rw [hv]
    show -2 ≤ parseFloat (toFixed (w.changeRandom * 4 - 2))
    have := hbound.1
    push_cast at this
    linarith
  · rw [hv]
    show parseFloat (toFixed (w.changeRandom * 4 - 2)) ≤ 2
    have := hbound.2
    push_cast at this
    linarith
  · rw [hv]
    rfl
  · linarith
  · linarith
  · rw [hv]
    rfl
  · rw [hv]
    rfl

theorem synthetic_payload_bounds_witness :
    liveFetch coerceNaN worldDown = .error .axiosError ∧ emptyCache "^FTSE" = none
      ∧ 0 ≤ worldDown.baseRandom ∧ worldDown.baseRandom < 1
      ∧ 0 ≤ worldDown.changeRandom ∧ worldDown.changeRandom < 1
      ∧ ∃ out b, fetchYahooData coerceNaN emptyCache worldDown "^FTSE" = .ok out
          ∧ (∃ k : ℤ, out.value.percentage_change = (k : ℚ) / 100)
          ∧ -2 ≤ out.value.percentage_change ∧ out.value.percentage_change ≤ 2
          ∧ out.value.previous_close = .num b ∧ 5000 ≤ b ∧ b < 15000
          ∧ out.value.index_value = toFixed (b * (1 + out.value.percentage_change / 100))
          ∧ out.value.sparkline = [] :=
  ⟨liveFetch_worldDown, rfl, by norm_num [worldDown], by norm_num [worldDown],
    by norm_num [worldDown], by norm_num [worldDown],
    synthetic_payload_bounds coerceNaN emptyCache worldDown "^FTSE" .axiosError
      liveFetch_worldDown rfl (by norm_num [worldDown]) (by norm_num [worldDown])
      (by norm_num [worldDown]) (by norm_num [worldDown])⟩

theorem charVal_lt_iff (a b : Char) : a.val < b.val ↔ a.val.toNat < b.val.toNat := Iff.rfl

theorem char_eq_of_toNat {a b : Char} (h : a.val.toNat = b.val.toNat) : a = b :=
  Char.ext (UInt32.ext h)

/-- A string below a second one is below every string the second one is not above. -/
theorem strLt_of_lt_of_not_lt :
    ∀ (a b c : List Char), strLt a b = true → strLt c b = false → strLt a c = true
  | [], [], _, h, _ => by simp [strLt] at h
  | [], _ :: _, [], _, h => by simp [strLt] at h
  | [], _ :: _, _ :: _, _, _ => by simp [strLt]
  | _ :: _, [], _, h, _ => by simp [strLt] at h
  | _ :: _, _ :: _, [], _, h => by simp [strLt] at h
  | x :: xs, y :: ys, z :: zs, h1, h2 => by
    simp only [strLt] at h1 h2 ⊢
    by_cases hxy : x = y
    · subst hxy
      simp only [if_true] at h1
      by_cases hzx : z = x
      · subst hzx
        simp only [if_true] at h2 ⊢
        exact strLt_of_lt_of_not_lt xs ys zs h1 h2
      · have hxz : ¬ x = z := fun h => hzx h.symm
        simp only [hzx, hxz, if_false, decide_eq_false_iff_not, decide_eq_true_eq,
          charVal_lt_iff] at h2 ⊢
        have hne : x.val.toNat ≠ z.val.toNat := fun h => hxz (char_eq_of_toNat h)
        omega
    · simp only [hxy, if_false, decide_eq_true_eq, charVal_lt_iff] at h1
      by_cases hzy : z = y
      · subst hzy
        simp only [hxy, if_false, decide_eq_true_eq, charVal_lt_iff]
        exact h1
      · simp only [hzy, if_false, decide_eq_false_iff_not, charVal_lt_iff] at h2
        have hlt : x.val.toNat < z.val.toNat := by omega
        have hxz : ¬ x = z := fun h => by rw [h] at hlt; exact lt_irrefl _ hlt
        simp only [hxz, if_false, decide_eq_true_eq, charVal_lt_iff]
        exact hlt

/-- C27: when `closeTime` is below `openTime` as a string (an overnight window such as 22:00
to 04:00), `getMarketStatus` is false whatever `Intl` reports, on every day and at every local
time: no `t` has both `t >= openTime` and `t <= closeTime`. -/
theorem overnight_window_never_open (intl : String → LocalParts)
    (timezone openTime closeTime : String)
    (hover : strLt closeTime.data openTime.data = true) :
    getMarketStatus intl timezone openTime closeTime = false
      ∧ ∀ t : String, ¬ (jsGe t openTime = true ∧ jsLe t closeTime = true) := by
  have hno : ∀ t : String, ¬ (jsGe t openTime = true ∧ jsLe t closeTime = true) := by
    rintro t ⟨hge, hle⟩
    simp only [jsGe, jsLe, Bool.not_eq_true'] at hge hle
    have := strLt_of_lt_of_not_lt closeTime.data openTime.data t.data hover hge
    rw [this] at hle
    cases hle
  refine ⟨?_, hno⟩
  unfold getMarketStatus
  by_cases hday : (intl timezone).weekday = "Sat" ∨ (intl timezone).weekday = "Sun"
  · simp [hday]
  · simp only [hday, if_false]
    have h := hno (localTime (intl timezone))
    cases h1 : jsGe (localTime (intl timezone)) openTime
    · rfl
    · cases h2 : jsLe (localTime (intl timezone)) closeTime
      · rfl
      · exact absurd ⟨h1, h2⟩ h

theorem overnight_window_never_open_witness :
    strLt "04:00".data "22:00".data = true
      ∧ getMarketStatus (clockAt "Tue" "23" "30") "Asia/Dubai" "22:00" "04:00" = false
      ∧ ∀ t : String, ¬ (jsGe t "22:00" = true ∧ jsLe t "04:00" = true) :=
  ⟨by decide, overnight_window_never_open (clockAt "Tue" "23" "30") "Asia/Dubai" "22:00"
    "04:00" (by decide)⟩

theorem extractQuote_currentPrice {data : JSVal} {q : RawQuote} {m : JSVal}
    (h : extractQuote data = .ok q) (hm : upstreamMeta data = some m) :
    resolveCurrentPrice m q.closes q.prevClose = .ok q.currentPrice := by
  unfold extractQuote at h
  unfold upstreamMeta at hm
  cases h1 : getProp data "chart" with
  | error e => simp [h1, bind, Except.bind] at h
  | ok chart =>
    cases h2 : getProp chart "result" with
    | error e => simp [h1, h2, bind, Except.bind] at h
    | ok results =>
      simp only [h1, h2, bind, Except.bind] at h hm
      by_cases ht : (optIndex0 results).truthy = true
      · simp only [ht, Bool.not_true, Bool.false_eq_true, if_false, pure, Except.pure] at h
        cases h3 : getProp (optIndex0 results) "meta" with
        | error e => simp [h3] at h
        | ok m2 =>
          rw [h3] at hm
          simp only [Option.some.injEq] at hm
          subst hm
          cases h4 : extractCloses (optIndex0 results) with
          | error e => simp [h3, h4] at h
          | ok closes =>
            cases h6 : resolvePrevClose m2 with
            | error e => simp [h3, h4, h6] at h
            | ok pc =>
              cases h7 : resolveCurrentPrice m2 closes pc with
              | error e => simp [h3, h4, h6, h7] at h
              | ok cp =>
                simp only [h3, h4, h6, h7, Except.ok.injEq] at h
                subst h
                exact h7
      · simp [ht, throw, throwThe, MonadExceptOf.throw] at h

theorem resolveCurrentPrice_last {m : JSVal} {closes : List JSVal} {prevClose cur : JSVal}
    {c : ℚ} (h : resolveCurrentPrice m closes prevClose = .ok cur)
    (hnull : (optProp m "regularMarketPrice").isNullish = true)
    (hlast : closes.getLast? = some (.num c)) : cur = .num c := by
  have hl : lastClose closes = .num c := by simp [lastClose, hlast]
  cases m with
  | obj kv =>
    simp only [optProp] at hnull
    have hnum : (JSVal.num c).isNullish = false := rfl
    simp only [resolveCurrentPrice, getProp, bind, Except.bind, pure, Except.pure, coalesce,
      hnull, hl, hnum, if_true, Bool.false_eq_true, if_false, Except.ok.injEq] at h
    exact h.symm
  | undefined => simp [resolveCurrentPrice, getProp, bind, Except.bind] at h
  | null => simp [resolveCurrentPrice, getProp, bind, Except.bind] at h
  | _ =>
    simp only [resolveCurrentPrice, getProp, bind, Except.bind, pure, Except.pure, coalesce,
      hl, if_true, isNullish, Bool.false_eq_true, if_false, Except.ok.injEq] at h
    exact h.symm

theorem upstreamMeta_chartBody (regularMarketPrice chartPreviousClose : JSVal)
    (close : List JSVal) :
    upstreamMeta (chartBody regularMarketPrice chartPreviousClose close)
      = some (.obj [("regularMarketPrice", regularMarketPrice),
          ("chartPreviousClose", chartPreviousClose)]) := rfl

/-- C28: when the call takes the live path on a response whose series is `xs`, no entry of
the sparkline is `null` or `undefined`; the sparkline is the last `min(24, k)` of the `k`
entries of `xs` that are neither; and when `meta.regularMarketPrice` is missing and the last
of those entries is the number `c`, the current price is `c`: `index_value` is
`c.toFixed(2)`. -/
theorem sparkline_has_no_null (coerce : Coercion) (cache : Cache) (w : World)
    (symbol : String) (data : JSVal) (xs : List JSVal) (p : Payload)
    (hf : freshHit (cache symbol) w.now = none) (hup : w.upstream = some data)
    (hs : upstreamSeries data = some xs) (hl : liveFetch coerce w = .ok p) :
    ∃ out, fetchYahooData coerce cache w symbol = .ok out ∧ out.value = p
      ∧ (∀ v ∈ out.value.sparkline, v.isNullish = false)
      ∧ out.value.sparkline
          = (xs.filter (fun v => !v.isNullish)).drop
              ((xs.filter (fun v => !v.isNullish)).length - 24)
      ∧ out.value.sparkline.length = min 24 (xs.filter (fun v => !v.isNullish)).length
      ∧ ∀ (m : JSVal) (c : ℚ), upstreamMeta data = some m
          → (optProp m "regularMarketPrice").isNullish = true
          → (xs.filter (fun v => !v.isNullish)).getLast? = some (.num c)
          → out.value.index_value = toFixed c := by
  obtain ⟨data', q, hup', hq, hb⟩ := liveFetch_ok hl
  have hd : data' = data := by
    rw [hup] at hup'
    exact (Option.some.inj hup').symm
  subst hd
  obtain ⟨c', hcur, hidx, -, -, -, hsp, -⟩ := buildPayload_ok hb
  have hcl := extractQuote_closes hq hs
  have hsl : p.sparkline = sliceLast24 (xs.filter (fun v => !v.isNullish)) := by
    rw [hsp, hcl]
  refine ⟨_, fetchYahooData_of_live coerce cache w symbol hf hl, rfl, ?_, hsl, ?_, ?_⟩
  · intro v hv
    have hv2 : v ∈ sliceLast24 (xs.filter (fun v => !v.isNullish)) := by
      rw [← hsl]
      exact hv
    have hv3 := List.mem_of_mem_drop hv2
    have := (List.mem_filter.1 hv3).2
    simpa using this
  · show p.sparkline.length = _
    rw [hsl, length_sliceLast24]
  · intro m c hm hnull hlast
    have hres := extractQuote_currentPrice hq hm
    rw [hcl] at hres
    have hnum := resolveCurrentPrice_last hres hnull hlast
    rw [hcur] at hnum
    have hc : c' = c := by
      cases hnum
      rfl
    show p.index_value = toFixed c
    rw [hidx, hc]

theorem sparkline_has_no_null_witness :
    freshHit (emptyCache "^GSPC") worldUp.now = none
      ∧ worldUp.upstream
          = some (chartBody (.num 102) (.num 100) [.num 100, .null, .num 101, .num 102])
      ∧ upstreamSeries (chartBody (.num 102) (.num 100) [.num 100, .null, .num 101, .num 102])
          = some [.num 100, .null, .num 101, .num 102]
      ∧ liveFetch coerceNaN worldUp = .ok payloadUp
      ∧ ∃ out, fetchYahooData coerceNaN emptyCache worldUp "^GSPC" = .ok out
          ∧ out.value = payloadUp
          ∧ (∀ v ∈ out.value.sparkline, v.isNullish = false)
          ∧ out.value.sparkline
              = ([JSVal.num 100, .null, .num 101, .num 102].filter
                  (fun v => !v.isNullish)).drop
                  (([JSVal.num 100, .null, .num 101, .num 102].filter
                    (fun v => !v.isNullish)).length - 24)
          ∧ out.value.sparkline.length
              = min 24 ([JSVal.num 100, .null, .num 101, .num 102].filter
                  (fun v => !v.isNullish)).length
          ∧ ∀ (m : JSVal) (c : ℚ),
              upstreamMeta (chartBody (.num 102) (.num 100)
                [.num 100, .null, .num 101, .num 102]) = some m
              → (optProp m "regularMarketPrice").isNullish = true
              → ([JSVal.num 100, .null, .num 101, .num 102].filter
                  (fun v => !v.isNullish)).getLast? = some (.num c)
              → out.value.index_value = toFixed c :=
  ⟨rfl, rfl, rfl, liveFetch_worldUp,
    sparkline_has_no_null coerceNaN emptyCache worldUp "^GSPC" _ _ payloadUp rfl rfl rfl
      liveFetch_worldUp⟩

/-! ## Market movers -/

theorem moversFrom_stock (BASE_PRICES : String → ℚ) (random : ℕ → ℚ) :
    ∀ (l : List Stock) (k : ℕ),
      (moversFrom BASE_PRICES random k l).map (fun m => m.stock) = l
  | [], _ => rfl
  | s :: rest, k => by
    simp only [moversFrom, List.map_cons, moversFrom_stock BASE_PRICES random rest (k + 2)]
    rfl

theorem moversFrom_change (BASE_PRICES : String → ℚ) (random : ℕ → ℚ)
    (hr : ∀ k, 0 ≤ random k ∧ random k < 1) :
    ∀ (l : List Stock) (k : ℕ), ∀ m ∈ moversFrom BASE_PRICES random k l,
      -4 ≤ m.change_pct ∧ m.change_pct ≤ 6
  | [], _, m, hm => by simp [moversFrom] at hm
  | s :: rest, k, m, hm => by
    simp only [moversFrom, List.mem_cons] at hm
    rcases hm with rfl | hm
    · have hb := parseFloat_toFixed_between (random k * 10 - 4) (-400) 600
        (by push_cast; linarith [(hr k).1]) (by push_cast; linarith [(hr k).2])
      have h1 := hb.1
      have h2 := hb.2
      push_cast at h1 h2
      constructor
      · show -4 ≤ parseFloat (toFixed (random k * 10 - 4))
        linarith
      · show parseFloat (toFixed (random k * 10 - 4)) ≤ 6
        linarith
    · exact moversFrom_change BASE_PRICES random hr rest (k + 2) m hm

theorem moverOrder_trans (a b c : Mover) (h1 : moverOrder a b = true)
    (h2 : moverOrder b c = true) : moverOrder a c = true := by
  simp only [moverOrder, decide_eq_true_eq] at h1 h2 ⊢
  linarith

theorem moverOrder_total (a b : Mover) : (moverOrder a b || moverOrder b a) = true := by
  simp only [moverOrder, Bool.or_eq_true, decide_eq_true_eq]
  rcases le_total |a.change_pct| |b.change_pct| with h | h
  · right
    linarith
  · left
    linarith

/-- C29: when every draw is in [0,1), the list `GET /api/market-moves` sends holds the 12
stocks of `STOCKS`, each once, in an order in which the absolute `change_pct` never goes up
from an entry to a later one, and every `change_pct` is in [-4, 6]. -/
theorem market_moves_sorted_permutation (BASE_PRICES : String → ℚ) (random : ℕ → ℚ)
    (hr : ∀ k, 0 ≤ random k ∧ random k < 1) :
    ∃ movers, getMarketMoves BASE_PRICES random = .json 200 movers
      ∧ (movers.map (fun m => m.stock)).Perm STOCKS
      ∧ movers.length = 12
      ∧ movers.Pairwise (fun a b => |b.change_pct| ≤ |a.change_pct|)
      ∧ movers.Chain' (fun a b => |b.change_pct| ≤ |a.change_pct|)
      ∧ ∀ m ∈ movers, -4 ≤ m.change_pct ∧ m.change_pct ≤ 6 := by
  have hperm := List.mergeSort_perm (moversFrom BASE_PRICES random 0 STOCKS) moverOrder
  have hsorted := List.sorted_mergeSort moverOrder_trans moverOrder_total
    (moversFrom BASE_PRICES random 0 STOCKS)
  have hpair : (marketMoves BASE_PRICES random).Pairwise
      (fun a b => |b.change_pct| ≤ |a.change_pct|) := by
    refine List.Pairwise.imp ?_ hsorted
    intro a b hab
    simp only [moverOrder, decide_eq_true_eq] at hab
    linarith
  refine ⟨marketMoves BASE_PRICES random, rfl, ?_, ?_, hpair, hpair.chain', ?_⟩
  · have := hperm.map (fun m => m.stock)
    rw [moversFrom_stock] at this
    exact this
  · have hlen := hperm.length_eq
    have hmap := congrArg List.length (moversFrom_stock BASE_PRICES random STOCKS 0)
    rw [List.length_map] at hmap
    show (marketMoves BASE_PRICES random).length = 12
    unfold marketMoves
    rw [hlen, hmap]
    rfl
  · intro m hm
    have hm2 : m ∈ moversFrom BASE_PRICES random 0 STOCKS := hperm.mem_iff.1 hm
    exact moversFrom_change BASE_PRICES random hr STOCKS 0 m hm2

theorem market_moves_sorted_permutation_witness :
    (∀ k : ℕ, 0 ≤ (fun _ => (1 / 2 : ℚ)) k ∧ (fun _ => (1 / 2 : ℚ)) k < 1)
      ∧ ∃ movers, getMarketMoves (fun _ => 100) (fun _ => (1 / 2 : ℚ)) = .json 200 movers
          ∧ (movers.map (fun m => m.stock)).Perm STOCKS
          ∧ movers.length = 12
          ∧ movers.Pairwise (fun a b => |b.change_pct| ≤ |a.change_pct|)
          ∧ movers.Chain' (fun a b => |b.change_pct| ≤ |a.change_pct|)
          ∧ ∀ m ∈ movers, -4 ≤ m.change_pct ∧ m.change_pct ≤ 6 :=
  ⟨fun _ => by norm_num,
    market_moves_sorted_permutation (fun _ => 100) (fun _ => (1 / 2 : ℚ))
      (fun _ => by norm_num)⟩

/-! ## The frontend sparkline -/

theorem minOf_le : ∀ (l : List ℚ) (v : ℚ), v ∈ l → minOf l ≤ v
  | [], _, h => by simp at h
  | [a], v, h => by
    simp only [List.mem_singleton] at h
    simp [minOf, h]
  | a :: b :: rest, v, h => by
    simp only [minOf]
    rcases List.mem_cons.1 h with rfl | h2
    · exact min_le_left _ _
    · exact le_trans (min_le_right _ _) (minOf_le (b :: rest) v h2)

theorem le_maxOf : ∀ (l : List ℚ) (v : ℚ), v ∈ l → v ≤ maxOf l
  | [], _, h => by simp at h
  | [a], v, h => by
    simp only [List.mem_singleton] at h
    simp [maxOf, h]
  | a :: b :: rest, v, h => by
    simp only [maxOf]
    rcases List.mem_cons.1 h with rfl | h2
    · exact le_max_left _ _
    · exact le_trans (le_maxOf (b :: rest) v h2) (le_max_right _ _)

theorem sparkRange_pos (d : List ℚ) (hd : d ≠ []) : 0 < sparkRange d := by
  obtain ⟨a, rest, rfl⟩ := List.exists_cons_of_ne_nil hd
  have h1 := minOf_le (a :: rest) a (List.mem_cons_self _ _)
  have h2 := le_maxOf (a :: rest) a (List.mem_cons_self _ _)
  unfold sparkRange
  split_ifs with h
  · norm_num
  · have : 0 ≤ maxOf (a :: rest) - minOf (a :: rest) := by linarith
    exact lt_of_le_of_ne this (Ne.symm h)

theorem sub_min_le_sparkRange (d : List ℚ) (v : ℚ) (hv : v ∈ d) :
    minOf d ≤ v ∧ v - minOf d ≤ sparkRange d := by
  have h1 := minOf_le d v hv
  have h2 := le_maxOf d v hv
  refine ⟨h1, ?_⟩
  unfold sparkRange
  split_ifs with h
  · linarith
  · linarith

theorem length_sparkPointsFrom (n : ℕ) (lo range width height : ℚ) :
    ∀ (l : List ℚ) (i : ℕ), (sparkPointsFrom n lo range width height i l).length = l.length
  | [], _ => rfl
  | _ :: rest, i => by
    simp [sparkPointsFrom, length_sparkPointsFrom n lo range width height rest (i + 1)]

theorem sparkPointsFrom_bounds (n : ℕ) (lo range width height : ℚ) (hn : 2 ≤ n)
    (hr : 0 < range) (hw : 0 < width) (hh : 2 ≤ height) :
    ∀ (l : List ℚ) (i : ℕ), i + l.length ≤ n → (∀ v ∈ l, lo ≤ v ∧ v - lo ≤ range) →
      ∀ pt ∈ sparkPointsFrom n lo range width height i l,
        0 ≤ pt.1 ∧ pt.1 ≤ width ∧ 1 ≤ pt.2 ∧ pt.2 ≤ height - 1
  | [], _, _, _, pt, hpt => by simp [sparkPointsFrom] at hpt
  | v :: rest, i, hlen, hv, pt, hpt => by
    simp only [sparkPointsFrom, List.mem_cons] at hpt
    rcases hpt with rfl | hpt
    · have hn1 : (0 : ℚ) < (n : ℚ) - 1 := by
        have : (2 : ℚ) ≤ (n : ℚ) := by exact_mod_cast hn
        linarith
      have hi : (i : ℚ) ≤ (n : ℚ) - 1 := by
        simp only [List.length_cons] at hlen
        have : i + 1 ≤ n := by omega
        have : ((i + 1 : ℕ) : ℚ) ≤ (n : ℚ) := by exact_mod_cast this
        push_cast at this
        linarith
      have hi0 : (0 : ℚ) ≤ (i : ℚ) := by exact_mod_cast Nat.zero_le i
      have hx0 : 0 ≤ (i : ℚ) / ((n : ℚ) - 1) := div_nonneg hi0 hn1.le
      have hx1 : (i : ℚ) / ((n : ℚ) - 1) ≤ 1 := (div_le_one hn1).2 hi
      obtain ⟨hlo, hhi⟩ := hv v (List.mem_cons_self _ _)
      have ht0 : 0 ≤ (v - lo) / range := div_nonneg (by linarith) hr.le
      have ht1 : (v - lo) / range ≤ 1 := (div_le_one hr).2 hhi
      have hh2 : 0 ≤ height - 2 := by linarith
      have hm0 : 0 ≤ (v - lo) / range * (height - 2) := mul_nonneg ht0 hh2
      have hm1 : (v - lo) / range * (height - 2) ≤ height - 2 :=
        mul_le_of_le_one_left hh2 ht1
      refine ⟨mul_nonneg hx0 hw.le, mul_le_of_le_one_left hw.le hx1, ?_, ?_⟩
      · show 1 ≤ height - (v - lo) / range * (height - 2) - 1
        linarith
      · show height - (v - lo) / range * (height - 2) - 1 ≤ height - 1
        linarith
    · refine sparkPointsFrom_bounds n lo range width height hn hr hw hh rest (i + 1) ?_ ?_ pt hpt
      · simp only [List.length_cons] at hlen
        omega
      · intro u hu
        exact hv u (List.mem_cons_of_mem _ hu)

theorem sparkPointsFrom_last (n : ℕ) (lo range width height : ℚ) :
    ∀ (l : List ℚ) (i : ℕ), l ≠ [] →
      ((sparkPointsFrom n lo range width height i l).getLast?).map Prod.fst
        = some (((i + l.length - 1 : ℕ) : ℚ) / ((n : ℚ) - 1) * width)
  | [], _, h => absurd rfl h
  | [v], i, _ => by simp [sparkPointsFrom]
  | v :: u :: rest, i, _ => by
    have ih := sparkPointsFrom_last n lo range width height (u :: rest) (i + 1)
      (List.cons_ne_nil _ _)
    simp only [sparkPointsFrom, List.getLast?_cons_cons] at ih ⊢
    rw [ih]
    simp only [List.length_cons]
    have : i + 1 + (rest.length + 1) - 1 = i + (rest.length + 1 + 1) - 1 := by omega
    rw [this]

/-- C30, as stated, fails: with the series `[0, 1]`, width 80 and height 1 the points are
`0,0` and `80,1`: the first `y` is 0, which is not in `[1, height - 1]`. -/
theorem sparkline_height_counterexample :
    (0 : ℚ) < 80 ∧ (0 : ℚ) < 1 ∧ 2 ≤ [(0 : ℚ), 1].length
      ∧ sparklinePoints (some [0, 1]) 80 1 = some [(0, 0), (80, 1)]
      ∧ ¬ ((1 : ℚ) ≤ 0 ∧ (0 : ℚ) ≤ 1 - 1) := by
  refine ⟨by norm_num, by norm_num, by decide, ?_, by norm_num⟩
  simp [sparklinePoints, sparkPointsFrom, minOf, maxOf, sparkRange]
  norm_num

/-- C30, amended: for a series of length at least 2, a positive width and a height of at
least 2, the divisor `data.length - 1` and the range (a zero range being replaced by 1) are
not zero, every `x` is in `[0, width]` with the first at 0 and the last at `width`, and every
`y` is in `[1, height - 1]`; for a missing series or one of length below 2 nothing is drawn. -/
theorem sparkline_points_in_box (d : List ℚ) (width height : ℚ) (hlen : 2 ≤ d.length)
    (hw : 0 < width) (hh : 2 ≤ height) :
    ∃ pts, sparklinePoints (some d) width height = some pts
      ∧ pts.length = d.length
      ∧ (d.length : ℚ) - 1 ≠ 0 ∧ sparkRange d ≠ 0
      ∧ (∀ pt ∈ pts, 0 ≤ pt.1 ∧ pt.1 ≤ width ∧ 1 ≤ pt.2 ∧ pt.2 ≤ height - 1)
      ∧ pts.head?.map Prod.fst = some 0
      ∧ pts.getLast?.map Prod.fst = some width
      ∧ (∀ short : List ℚ, short.length < 2 → sparklinePoints (some short) width height = none)
      ∧ sparklinePoints none width height = none := by
  have hne : d ≠ [] := by
    intro h
    rw [h] at hlen
    simp at hlen
  have hn1 : (0 : ℚ) < (d.length : ℚ) - 1 := by
    have : (2 : ℚ) ≤ (d.length : ℚ) := by exact_mod_cast hlen
    linarith
  refine ⟨sparkPointsFrom d.length (minOf d) (sparkRange d) width height 0 d, ?_,
    length_sparkPointsFrom _ _ _ _ _ d 0, ne_of_gt hn1, ne_of_gt (sparkRange_pos d hne),
    ?_, ?_, ?_, ?_, rfl⟩
  · simp [sparklinePoints, Nat.not_lt.2 hlen]
  · exact sparkPointsFrom_bounds d.length (minOf d) (sparkRange d) width height hlen
      (sparkRange_pos d hne) hw hh d 0 (by omega) (fun v hv => sub_min_le_sparkRange d v hv)
  · obtain ⟨a, rest, rfl⟩ := List.exists_cons_of_ne_nil hne
    simp [sparkPointsFrom]
  · rw [sparkPointsFrom_last _ _ _ _ _ d 0 hne]
    have hcast : ((0 + d.length - 1 : ℕ) : ℚ) = (d.length : ℚ) - 1 := by
      have h1 : 1 ≤ d.length := by omega
      rw [Nat.zero_add, Nat.cast_sub h1]
      norm_num
    rw [hcast, div_self (ne_of_gt hn1), one_mul]
  · intro short hs
    simp [sparklinePoints, hs]

theorem sparkline_points_in_box_witness :
    2 ≤ [(100 : ℚ), 101, 102].length ∧ (0 : ℚ) < 80 ∧ (2 : ℚ) ≤ 24
      ∧ ∃ pts, sparklinePoints (some [100, 101, 102]) 80 24 = some pts
          ∧ pts.length = [(100 : ℚ), 101, 102].length
          ∧ ([(100 : ℚ), 101, 102].length : ℚ) - 1 ≠ 0 ∧ sparkRange [100, 101, 102] ≠ 0
          ∧ (∀ pt ∈ pts, 0 ≤ pt.1 ∧ pt.1 ≤ 80 ∧ 1 ≤ pt.2 ∧ pt.2 ≤ 24 - 1)
          ∧ pts.head?.map Prod.fst = some 0
          ∧ pts.getLast?.map Prod.fst = some 80
          ∧ (∀ short : List ℚ, short.length < 2 → sparklinePoints (some short) 80 24 = none)
          ∧ sparklinePoints none 80 24 = none :=
  ⟨by decide, by norm_num, by norm_num,
    sparkline_points_in_box [100, 101, 102] 80 24 (by decide) (by norm_num) (by norm_num)⟩

/-! ## The AI handlers -/

theorem lookup_setKey_same (k : String) (v : JSVal) :
    ∀ kv : List (String × JSVal), lookup k (setKey k v kv) = v
  | [] => by simp [setKey, lookup]
  | (k2, v2) :: rest => by
    by_cases h : k2 = k
    · simp [setKey, lookup, h]
    · simp [setKey, lookup, h, lookup_setKey_same k v rest]

theorem lookup_setKey_other (k : String) (v : JSVal) (k2 : String) (hk : k2 ≠ k) :
    ∀ kv : List (String × JSVal), lookup k2 (setKey k v kv) = lookup k2 kv
  | [] => by
    have : ¬ k = k2 := fun h => hk h.symm
    simp [setKey, lookup, this]
  | (k3, v3) :: rest => by
    by_cases h : k3 = k
    · subst h
      have : ¬ k3 = k2 := fun h2 => hk h2.symm
      simp [setKey, lookup, this]
    · by_cases h2 : k3 = k2
      · subst h2
        simp [setKey, lookup, h]
      · simp [setKey, lookup, h, h2, lookup_setKey_other k v k2 hk rest]

theorem chatExchangeData_cons (ex : Exchange) (rest : List Exchange) :
    chatExchangeData (ex :: rest) = .error .referenceError := rfl

theorem chatRequest_of_exchange (text : JSText) (exchanges : List Exchange)
    (BASE_PRICES : String → ℚ) (random : ℕ → ℚ) (body : JSVal) (hne : exchanges ≠ []) :
    ∃ e, chatRequest text exchanges BASE_PRICES random body = .error e := by
  obtain ⟨ex, rest, rfl⟩ := List.exists_cons_of_ne_nil hne
  unfold chatRequest
  cases hb : readProp body "messages" with
  | error e => exact ⟨e, by simp [bind, Except.bind]⟩
  | ok given =>
    refine ⟨.referenceError, ?_⟩
    simp [bind, Except.bind, List.take, chatExchangeData_cons]

/-- C21: with no credential (`groq` undefined) each of the three AI handlers answers every
request body with its fixed payload and status 200, calls nothing, and the payload has the
declared properties: five for the sentiment, four for the pattern scan with four in each
pattern, and `role` (which is `assistant`) and `content` for the chat. -/
theorem ai_fallback_without_credential (text : JSText) (startedAt nowIso : String)
    (exchanges : List Exchange) (BASE_PRICES : String → ℚ) (random : ℕ → ℚ) (body : JSVal) :
    aiSentiment text none body = ⟨.json 200 sentimentFallback, []⟩
      ∧ sentimentFallback.keys = ["sentiment_polarity", "heat_score", "boom_probability",
          "economic_risk_level", "one_line_summary"]
      ∧ aiPatterns text startedAt nowIso none body = ⟨.json 200 (DEMO_PATTERNS startedAt), []⟩
      ∧ (DEMO_PATTERNS startedAt).keys
          = ["patterns", "macro_summary", "risk_level", "scanned_at"]
      ∧ optProp (DEMO_PATTERNS startedAt) "patterns" = .arr demoPatternList
      ∧ (∀ pattern ∈ demoPatternList,
          pattern.keys = ["type", "asset", "confidence", "reasoning"])
      ∧ aiChat text exchanges BASE_PRICES random none body = ⟨.json 200 chatFallback, []⟩
      ∧ chatFallback.keys = ["role", "content"]
      ∧ optProp chatFallback "role" = .str "assistant" := by
  refine ⟨rfl, rfl, rfl, rfl, rfl, ?_, rfl, rfl, rfl⟩
  intro pattern hp
  simp only [demoPatternList, List.mem_cons, List.mem_singleton, List.not_mem_nil,
    or_false] at hp
  rcases hp with rfl | rfl | rfl | rfl | rfl <;> rfl

theorem sentimentRequest_sample :
    sentimentRequest sampleText sentimentBody = .ok sentimentSample := rfl

theorem patternsRequest_sample :
    patternsRequest sampleText patternsBody = .ok patternsSample := rfl

theorem chatRequest_sample :
    chatRequest sampleText [] samplePrices sampleRandom chatBody = .ok chatSample := rfl

/-- C22, as stated, fails: with a completion service that rejects every call, the sentiment
handler answers with status 500 and the error `AI failed`, not with its fallback payload; and
the chat, with no exchange configured so that the call is reached, answers with status 500. -/
theorem ai_failure_counterexample :
    (aiSentiment sampleText (some groqDown) sentimentBody).response = .error 500 "AI failed"
      ∧ (aiSentiment sampleText (some groqDown) sentimentBody).response.status = 500
      ∧ (aiSentiment sampleText (some groqDown) sentimentBody).calls.length = 1
      ∧ (aiSentiment sampleText (some groqDown) sentimentBody).response
          ≠ .json 200 sentimentFallback
      ∧ (aiChat sampleText [] samplePrices sampleRandom (some groqDown) chatBody).response
          = .json 500 chatFailure
      ∧ (aiChat sampleText [] samplePrices sampleRandom (some groqDown) chatBody).calls.length
          = 1 := by
  refine ⟨rfl, rfl, rfl, ?_, rfl, rfl⟩
  intro h
  cases h

/-- C22, amended: with a credential, each handler treats a failure of the completion call on
its own, whatever the other handlers do. When the call is rejected, or its content is no
JSON, the pattern scan answers with `DEMO_PATTERNS` and status 200 and the sentiment handler
with status 500 and the error `AI failed`; when the call is rejected, the chat answers with
status 500 and its fixed assistant message. The same answers are given for every request body
and every list of exchanges when the service rejects every request. -/
theorem ai_failure_by_handler :
    (∀ (text : JSText) (startedAt nowIso : String) (create : Groq) (body : JSVal)
        (request : GroqRequest) (e : AIErr),
        patternsRequest text body = .ok request → create request = .error e →
        aiPatterns text startedAt nowIso (some create) body
          = ⟨.json 200 (DEMO_PATTERNS startedAt), [request]⟩)
      ∧ (∀ (text : JSText) (startedAt nowIso : String) (create : Groq) (body : JSVal)
          (request : GroqRequest) (completion content : JSVal),
          patternsRequest text body = .ok request → create request = .ok completion →
          completionContent completion = .ok content → text.parse content = none →
          aiPatterns text startedAt nowIso (some create) body
            = ⟨.json 200 (DEMO_PATTERNS startedAt), [request]⟩)
      ∧ (∀ (text : JSText) (create : Groq) (body : JSVal) (request : GroqRequest) (e : AIErr),
          sentimentRequest text body = .ok request → create request = .error e →
          aiSentiment text (some create) body = ⟨.error 500 "AI failed", [request]⟩)
      ∧ (∀ (text : JSText) (create : Groq) (body : JSVal) (request : GroqRequest)
          (completion content : JSVal),
          sentimentRequest text body = .ok request → create request = .ok completion →
          completionContent completion = .ok content → text.parse content = none →
          aiSentiment text (some create) body = ⟨.error 500 "AI failed", [request]⟩)
      ∧ (∀ (text : JSText) (exchanges : List Exchange) (BASE_PRICES : String → ℚ)
          (random : ℕ → ℚ) (create : Groq) (body : JSVal) (request : GroqRequest) (e : AIErr),
          chatRequest text exchanges BASE_PRICES random body = .ok request →
          create request = .error e →
          aiChat text exchanges BASE_PRICES random (some create) body
            = ⟨.json 500 chatFailure, [request]⟩)
      ∧ (∀ (text : JSText) (startedAt nowIso : String) (create : Groq) (body : JSVal),
          (∀ request, ∃ e, create request = .error e) →
          (aiPatterns text startedAt nowIso (some create) body).response
            = .json 200 (DEMO_PATTERNS startedAt))
      ∧ (∀ (text : JSText) (create : Groq) (body : JSVal),
          (∀ request, ∃ e, create request = .error e) →
          (aiSentiment text (some create) body).response = .error 500 "AI failed")
      ∧ (∀ (text : JSText) (exchanges : List Exchange) (BASE_PRICES : String → ℚ)
          (random : ℕ → ℚ) (create : Groq) (body : JSVal),
          (∀ request, ∃ e, create request = .error e) →
          (aiChat text exchanges BASE_PRICES random (some create) body).response
            = .json 500 chatFailure) := by
  refine ⟨?_, ?_, ?_, ?_, ?_, ?_, ?_, ?_⟩
  · intro text startedAt nowIso create body request e hreq hcall
    simp [aiPatterns, hreq, patternsAnswer, hcall, bind, Except.bind]
  · intro text startedAt nowIso create body request completion content hreq hcall hcontent
      hparse
    simp [aiPatterns, hreq, patternsAnswer, hcall, hcontent, parseJSON, hparse, bind,
      Except.bind]
  · intro text create body request e hreq hcall
    simp [aiSentiment, hreq, sentimentAnswer, hcall, bind, Except.bind]
  · intro text create body request completion content hreq hcall hcontent hparse
    simp [aiSentiment, hreq, sentimentAnswer, hcall, hcontent, parseJSON, hparse, bind,
      Except.bind]
  · intro text exchanges BASE_PRICES random create body request e hreq hcall
    simp [aiChat, hreq, chatAnswer, hcall, bind, Except.bind]
  · intro text startedAt nowIso create body hdown
    unfold aiPatterns
    cases hreq : patternsRequest text body with
    | error e => rfl
    | ok request =>
      obtain ⟨e, he⟩ := hdown request
      simp [patternsAnswer, he, bind, Except.bind]
  · intro text create body hdown
    unfold aiSentiment
    cases hreq : sentimentRequest text body with
    | error e => rfl
    | ok request =>
      obtain ⟨e, he⟩ := hdown request
      simp [sentimentAnswer, he, bind, Except.bind]
  · intro text exchanges BASE_PRICES random create body hdown
    unfold aiChat
    cases hreq : chatRequest text exchanges BASE_PRICES random body with
    | error e => rfl
    | ok request =>
      obtain ⟨e, he⟩ := hdown request
      simp [chatAnswer, he, bind, Except.bind]

theorem ai_failure_by_handler_witness :
    patternsRequest sampleText patternsBody = .ok patternsSample
      ∧ groqDown patternsSample = .error .groqError
      ∧ aiPatterns sampleText "2026-01-05T09:00:00.000Z" "2026-01-05T10:00:00.000Z"
            (some groqDown) patternsBody
          = ⟨.json 200 (DEMO_PATTERNS "2026-01-05T09:00:00.000Z"), [patternsSample]⟩
      ∧ sentimentRequest sampleText sentimentBody = .ok sentimentSample
      ∧ groqUp sentimentSample
          = .ok (.obj [("choices",
              .arr [.obj [("message", chatMessage (.str "assistant") (.str "ok"))]])])
      ∧ sampleText.parse (.str "ok") = none
      ∧ aiSentiment sampleText (some groqUp) sentimentBody
          = ⟨.error 500 "AI failed", [sentimentSample]⟩
      ∧ (∀ request, ∃ e, groqDown request = .error e)
      ∧ (aiChat sampleText sampleExchanges samplePrices sampleRandom (some groqDown)
          chatBody).response = .json 500 chatFailure
      ∧ (aiChat sampleText [] samplePrices sampleRandom (some groqDown) chatBody)
          = ⟨.json 500 chatFailure, [chatSample]⟩ :=
  ⟨rfl, rfl,
    ai_failure_by_handler.1 sampleText "2026-01-05T09:00:00.000Z" "2026-01-05T10:00:00.000Z"
      groqDown patternsBody patternsSample .groqError rfl rfl,
    rfl, rfl, rfl,
    ai_failure_by_handler.2.2.2.1 sampleText groqUp sentimentBody sentimentSample _
      (.str "ok") rfl rfl rfl rfl,
    fun _ => ⟨.groqError, rfl⟩,
    ai_failure_by_handler.2.2.2.2.2.2.2 sampleText sampleExchanges samplePrices sampleRandom
      groqDown chatBody (fun _ => ⟨.groqError, rfl⟩),
    ai_failure_by_handler.2.2.2.2.1 sampleText [] samplePrices sampleRandom groqDown chatBody
      chatSample .groqError rfl rfl⟩

/-- C23 on the code: with a credential and the exchange `nyse` configured, a chat request
with a history of one message makes no call to the completion service at all: line 397 throws
before line 434, and the answer is status 500 with the fixed message. With no exchange
configured the same request does send the system prompt followed by the history. -/
theorem chat_history_not_sent :
    aiChat sampleText [nyse] samplePrices sampleRandom (some groqUp) chatBody
        = ⟨.json 500 chatFailure, []⟩
      ∧ chatRequest sampleText [nyse] samplePrices sampleRandom chatBody
          = .error .referenceError
      ∧ (aiChat sampleText [] samplePrices sampleRandom (some groqUp) chatBody).calls
          = [chatSample] :=
  ⟨rfl, rfl, rfl⟩

/-- C24: in the pattern scan with a credential, every throw before the call and every throw
from the call on (a rejected call, a completion without content, content that is no JSON)
ends in status 200 with `DEMO_PATTERNS`; when the content parses to an object, the answer is
that object with `scanned_at` set to the time of the answer, in place of any `scanned_at` the
object had, and with its other properties as they were. -/
theorem pattern_scan_outcomes (text : JSText) (startedAt nowIso : String) (create : Groq)
    (body : JSVal) :
    (∀ e, patternsRequest text body = .error e →
        aiPatterns text startedAt nowIso (some create) body
          = ⟨.json 200 (DEMO_PATTERNS startedAt), []⟩)
      ∧ (∀ request e, patternsRequest text body = .ok request →
          patternsAnswer text nowIso create request = .error e →
          aiPatterns text startedAt nowIso (some create) body
            = ⟨.json 200 (DEMO_PATTERNS startedAt), [request]⟩)
      ∧ (∀ request e, create request = .error e →
          patternsAnswer text nowIso create request = .error e)
      ∧ (∀ request completion content, create request = .ok completion →
          completionContent completion = .ok content → text.parse content = none →
          patternsAnswer text nowIso create request = .error .syntaxError)
      ∧ (∀ request completion content kv, patternsRequest text body = .ok request →
          create request = .ok completion → completionContent completion = .ok content →
          text.parse content = some (.obj kv) →
          aiPatterns text startedAt nowIso (some create) body
              = ⟨.json 200 (.obj (setKey "scanned_at" (.str nowIso) kv)), [request]⟩
            ∧ lookup "scanned_at" (setKey "scanned_at" (.str nowIso) kv) = .str nowIso
            ∧ ∀ k, k ≠ "scanned_at" →
                lookup k (setKey "scanned_at" (.str nowIso) kv) = lookup k kv) := by
  refine ⟨?_, ?_, ?_, ?_, ?_⟩
  · intro e h
    simp [aiPatterns, h]
  · intro request e h ha
    simp [aiPatterns, h, ha]
  · intro request e h
    simp [patternsAnswer, h, bind, Except.bind]
  · intro request completion content h hc hp
    simp [patternsAnswer, h, hc, parseJSON, hp, bind, Except.bind]
  · intro request completion content kv h hcr hc hp
    have ha : patternsAnswer text nowIso create request
        = .ok (.obj (setKey "scanned_at" (.str nowIso) kv)) := by
      simp [patternsAnswer, hcr, hc, parseJSON, hp, bind, Except.bind, pure, Except.pure,
        spreadOf]
    refine ⟨by simp [aiPatterns, h, ha], lookup_setKey_same _ _ kv, ?_⟩
    intro k hk
    exact lookup_setKey_other _ _ k hk kv

/-- C26: with a credential and at least one exchange configured, the chat handler answers
every request body with status 500 and its fixed assistant message and makes no call to the
completion service: building the request throws. -/
theorem chat_never_reaches_completion (text : JSText) (exchanges : List Exchange)
    (BASE_PRICES : String → ℚ) (random : ℕ → ℚ) (create : Groq) (body : JSVal)
    (hne : exchanges ≠ []) :
    aiChat text exchanges BASE_PRICES random (some create) body = ⟨.json 500 chatFailure, []⟩
      ∧ (aiChat text exchanges BASE_PRICES random (some create) body).response.status = 500
      ∧ (aiChat text exchanges BASE_PRICES random (some create) body).calls = []
      ∧ chatExchangeData (exchanges.take 8) = .error .referenceError := by
  obtain ⟨e, he⟩ := chatRequest_of_exchange text exchanges BASE_PRICES random body hne
  have h : aiChat text exchanges BASE_PRICES random (some create) body
      = ⟨.json 500 chatFailure, []⟩ := by
    simp [aiChat, he]
  refine ⟨h, by rw [h]; rfl, by rw [h], ?_⟩
  obtain ⟨ex, rest, rfl⟩ := List.exists_cons_of_ne_nil hne
  rfl

theorem chat_never_reaches_completion_witness :
    sampleExchanges ≠ []
      ∧ aiChat sampleText sampleExchanges samplePrices sampleRandom (some groqUp) chatBody
          = ⟨.json 500 chatFailure, []⟩
      ∧ (aiChat sampleText sampleExchanges samplePrices sampleRandom (some groqUp)
          chatBody).response.status = 500
      ∧ (aiChat sampleText sampleExchanges samplePrices sampleRandom (some groqUp)
          chatBody).calls = []
      ∧ chatExchangeData (sampleExchanges.take 8) = .error .referenceError :=
  ⟨List.cons_ne_nil _ _,
    chat_never_reaches_completion sampleText sampleExchanges samplePrices sampleRandom groqUp
      chatBody (List.cons_ne_nil _ _)⟩

end Ecoboom
